import Mathlib

/-! Emulated UVC camera (`MotionCamera`) : shallow embedding and verification.

Embedding of `Source/Core/Core/IOS/USB/Emulated/MotionCamera.{h,cpp}`.

Conventions of the embedding
* machine integers are `Nat` with an explicit `% 2 ^ w` wherever the C++
  arithmetic can wrap (`u32` for `m_image_size`, `m_image_pos`, `data_size`;
  `size_t`, taken as 64 bit, for `packet_sizes[i] - sizeof(uvc_header)`);
* byte buffers are `List Nat`;
* undefined behaviour (dereferencing the null pointer returned for an
  unresolvable range, indexing `m_supported_sizes` outside `0..4`) is the
  result `none`;
* calls to the host (`Host_CameraStart`, `Host_CameraStop`) are returned as a
  list of `HostEvent`s.
-/

/-! ## Constants of `MotionCamera.h` -/

/-- Request code `SET_CUR` of `enum UVCRequestCodes`. -/
def SET_CUR : Nat := 0x01
/-- Request code `GET_CUR` of `enum UVCRequestCodes`. -/
def GET_CUR : Nat := 0x81
/-- Request code `GET_MIN` of `enum UVCRequestCodes`. -/
def GET_MIN : Nat := 0x82
/-- Request code `GET_MAX` of `enum UVCRequestCodes`. -/
def GET_MAX : Nat := 0x83
/-- Request code `GET_RES` of `enum UVCRequestCodes`. -/
def GET_RES : Nat := 0x84
/-- Request code `GET_LEN` of `enum UVCRequestCodes`. -/
def GET_LEN : Nat := 0x85
/-- Request code `GET_INF` of `enum UVCRequestCodes`. -/
def GET_INF : Nat := 0x86
/-- Request code `GET_DEF` of `enum UVCRequestCodes`. -/
def GET_DEF : Nat := 0x87

/-- Selector `VS_PROBE` of `enum UVCVideoStreamingControl`. -/
def VS_PROBE : Nat := 0x01
/-- Selector `VS_COMMIT` of `enum UVCVideoStreamingControl`. -/
def VS_COMMIT : Nat := 0x02

/-- Modelled from the spec: the code of a normal completion, `IPC_SUCCESS`
(the IOS kernel headers that declare it are not among the embedded sources);
the value is the one of those headers. -/
def IPC_SUCCESS : Int := 0
/-- Modelled from the spec: the distinct failure code `IPC_EINVAL` reported
for an unresolvable transfer buffer (declared in the same absent headers); the
value is the one of those headers. -/
def IPC_EINVAL : Int := -4

/-- The record `struct UVCImageSize { u16 width; u16 height; }`. -/
structure UVCImageSize where
  width : Nat
  height : Nat
deriving DecidableEq, Repr

/-- The record `struct UVCHeader` : a length byte and the bit-field of
`bmHeaderInfo` (the unnamed one-bit field between `sourceClockReference` and
`stillImage` is never written and stays 0). -/
structure UVCHeader where
  bHeaderLength : Nat
  frameId : Bool
  endOfFrame : Bool
  presentationTimeStamp : Bool
  sourceClockReference : Bool
  stillImage : Bool
  error : Bool
  endOfHeader : Bool
deriving DecidableEq, Repr

/-- The value `sizeof(UVCHeader)` of the packed two-byte header. -/
def sizeof_UVCHeader : Nat := 2

/-- The value-initialised header `UVCHeader uvc_header{}`. -/
def UVCHeader.zero : UVCHeader :=
  { bHeaderLength := 0, frameId := false, endOfFrame := false,
    presentationTimeStamp := false, sourceClockReference := false,
    stillImage := false, error := false, endOfHeader := false }

/-- The byte `bmHeaderInfo` overlaid on the bit-field : the first declared
field is bit 0, `endOfHeader` is bit 7, the unnamed field is bit 4. -/
def UVCHeader.bmHeaderInfo (h : UVCHeader) : Nat :=
  h.frameId.toNat + 2 * h.endOfFrame.toNat + 4 * h.presentationTimeStamp.toNat
    + 8 * h.sourceClockReference.toNat + 32 * h.stillImage.toNat
    + 64 * h.error.toNat + 128 * h.endOfHeader.toNat

/-- The two bytes that `memcpy(iso_buffer_pos, &uvc_header, sizeof(uvc_header))`
writes. -/
def UVCHeader.bytes (h : UVCHeader) : List Nat :=
  [h.bHeaderLength % 256, h.bmHeaderInfo]

/-- Offset of `bFrameIndex` in the packed `struct UVCProbeCommitControl`
(`u16 bmHint; u8 bFormatIndex; u8 bFrameIndex; ...`). -/
def offsetof_bFrameIndex : Nat := 3

/-! ## Messages and the emulated memory -/

/-- The fields of `CtrlMessage` the device reads. -/
structure CtrlMessage where
  data_address : Nat
  request_type : Nat
  request : Nat
  value : Nat
  index : Nat
  length : Nat
deriving DecidableEq, Repr

/-- The fields of `BulkMessage` the device reads. -/
structure BulkMessage where
  data_address : Nat
  length : Nat
  endpoint : Nat
deriving DecidableEq, Repr

/-- The fields of `IntrMessage` the device reads. -/
structure IntrMessage where
  data_address : Nat
  length : Nat
  endpoint : Nat
deriving DecidableEq, Repr

/-- The fields of `IsoMessage` the device reads; `num_packets` is the length
of `packet_sizes` (a `std::vector<u16>`). -/
structure IsoMessage where
  data_address : Nat
  length : Nat
  endpoint : Nat
  packet_sizes : List Nat
deriving DecidableEq, Repr

/-- Number of packets of an isochronous message. -/
def IsoMessage.num_packets (cmd : IsoMessage) : Nat := cmd.packet_sizes.length

/-- The emulated memory as the device sees it : `GetPointerForRange address
size` is `none` for the null pointer and otherwise the bytes readable from the
returned pointer. -/
structure Memory where
  GetPointerForRange : Nat → Nat → Option (List Nat)

/-- A call from the device to the host. -/
inductive HostEvent where
  | CameraStart (width height : Nat)
  | CameraStop
deriving DecidableEq, Repr

/-! ## The shared frame source `CameraData` -/

/-- The object `CameraData` : its `m_image_size` and the bytes of its
`m_image_data` allocation. -/
structure CameraData where
  m_image_size : Nat
  m_image_data : List Nat
deriving DecidableEq, Repr

/-- Number of bytes `CameraData::CameraData` allocates (`w * h * 2` with
`w = 320`, `h = 240`). -/
def CameraData.capacity : Nat := 320 * 240 * 2

/-- The call `CameraData::GetData(data, length)` : `memcpy(data, m_image_data,
length)` on the destination bytes `dst`. -/
def CameraData.GetData (self : CameraData) (dst : List Nat) (length : Nat) : List Nat :=
  self.m_image_data.take length ++ dst.drop length

/-- The narrowing of an `int` value to `u8`. -/
def to_u8 (x : Int) : Nat := (x % 256).toNat

/-- The local `r` (and `g`, computed by the same expression) of
`CameraData::CameraData` : `u8 r = col * 255 / w` with `w = 320`, in `int`
arithmetic (division truncates toward zero). -/
def CameraData.pattern_r (col : Nat) : Nat := to_u8 (Int.tdiv ((col : Int) * 255) 320)

/-- The local `b` of `CameraData::CameraData` : `u8 b = line * 255 / h` with
`h = 240`. -/
def CameraData.pattern_b (line : Nat) : Nat := to_u8 (Int.tdiv ((line : Int) * 255) 240)

/-- The local `y` of `CameraData::CameraData` :
`u8 y = ((66 * r + 129 * g + 25 * b + 128) / 256) + 16`. -/
def CameraData.pattern_y (line col : Nat) : Nat :=
  to_u8 (Int.tdiv (66 * (CameraData.pattern_r col : Int) + 129 * (CameraData.pattern_r col : Int)
    + 25 * (CameraData.pattern_b line : Int) + 128) 256 + 16)

/-- The local `u` of `CameraData::CameraData` :
`u8 u = ((-38 * r - 74 * g + 112 * b + 128) / 256) + 128`. -/
def CameraData.pattern_u (line col : Nat) : Nat :=
  to_u8 (Int.tdiv (-38 * (CameraData.pattern_r col : Int) - 74 * (CameraData.pattern_r col : Int)
    + 112 * (CameraData.pattern_b line : Int) + 128) 256 + 128)

/-- The local `v` of `CameraData::CameraData` :
`u8 v = ((112 * r - 94 * g - 18 * b + 128) / 256) + 128`. -/
def CameraData.pattern_v (line col : Nat) : Nat :=
  to_u8 (Int.tdiv (112 * (CameraData.pattern_r col : Int) - 94 * (CameraData.pattern_r col : Int)
    - 18 * (CameraData.pattern_b line : Int) + 128) 256 + 128)

/-- The two bytes one iteration of the inner loop writes for pixel
`(line, col)` : `pos[0] = y; pos[1] = (col % 2 == 0) ? u : v`. -/
def CameraData.pattern_pixel (line col : Nat) : List Nat :=
  [CameraData.pattern_y line col,
    if col % 2 = 0 then CameraData.pattern_u line col else CameraData.pattern_v line col]

/-- The buffer after the two loops of `CameraData::CameraData` (`line` from 0
to 239, `col` from 0 to 319).  Iteration `(line, col)` writes its two bytes at
offset `2 * (w * line + col)`; these offsets grow by 2 from each iteration to
the next and cover the whole `calloc`ed allocation, so the buffer is the
byte pairs in loop order. -/
def CameraData.test_pattern : List Nat :=
  (List.range 240).flatMap (fun line =>
    (List.range 320).flatMap (fun col => CameraData.pattern_pixel line col))

/-- The constructor `CameraData::CameraData`. -/
def CameraData.init : CameraData :=
  { m_image_size := 0, m_image_data := CameraData.test_pattern }

/-- The destination offsets that `memcpy(dst, src, length)` writes. -/
def memcpy_offsets (length : Nat) : List Nat := List.range length

/-- The call `CameraData::SetData(data, length)` : `m_image_size = length;
memcpy(m_image_data, data, length)`.  The copy has no defined result (`none`)
when it writes past the allocation of `m_image_data` or reads past `data`. -/
def CameraData.SetData (self : CameraData) (data : List Nat) (length : Nat) :
    Option CameraData :=
  if (∀ off ∈ memcpy_offsets length, off < self.m_image_data.length)
      ∧ length ≤ data.length then
    some { m_image_size := length
           m_image_data := data.take length ++ self.m_image_data.drop length }
  else none

/-- The length `yuy2Size = 2 * frame.width() * frame.height()` (a `u32`) that
`CameraManager::VideoFrameChanged` of `CameraQt.cpp` passes to `SetData`. -/
def yuy2Size (width height : Nat) : Nat := (2 * width * height) % 2 ^ 32

/-! ## The raw configuration descriptor -/

/-- The array `usb_config_desc` (with the two patched `bmControls` fields as
compiled, the commented-out original bytes left out). -/
def usb_config_desc : List Nat :=
  [
   0x09, 0x02, 0x09, 0x03, 0x02, 0x01, 0x30, 0x80, 0xFA, 0x08, 0x0B, 0x00,
   0x02, 0x0E, 0x03, 0x00, 0x60, 0x09, 0x04, 0x00, 0x00, 0x01, 0x0E, 0x01,
   0x00, 0x60, 0x0D, 0x24, 0x01, 0x00, 0x01, 0x4D, 0x00, 0xC0, 0xE1, 0xE4,
   0x00, 0x01, 0x01, 0x09, 0x24, 0x03, 0x02, 0x01, 0x01, 0x00, 0x04, 0x00,
   0x1A, 0x24, 0x06, 0x04, 0xF0, 0x77, 0x35, 0xD1, 0x89, 0x8D, 0x00, 0x47,
   0x81, 0x2E, 0x7D, 0xD5, 0xE2, 0xFD, 0xB8, 0x98, 0x08, 0x01, 0x03, 0x01,
   0xFF, 0x00, 0x12, 0x24, 0x02, 0x01, 0x01, 0x02, 0x00, 0x00, 0x00, 0x00,
   0x00, 0x00, 0x00, 0x00, 0x03, 0x00, 0x00, 0x00, 0x0B, 0x24, 0x05, 0x03,
   0x01, 0x00, 0x00, 0x02, 0x00, 0x00, 0x00, 0x07, 0x05, 0x82, 0x03, 0x10,
   0x00, 0x06, 0x05, 0x25, 0x03, 0x10, 0x00, 0x09, 0x04, 0x01, 0x00, 0x00,
   0x0E, 0x02, 0x00, 0x00, 0x0F, 0x24, 0x01, 0x02, 0x2D, 0x02, 0x81, 0x00,
   0x02, 0x02, 0x01, 0x00, 0x01, 0x00, 0x00, 0x0B, 0x24, 0x06, 0x01, 0x05,
   0x01, 0x01, 0x00, 0x00, 0x00, 0x00, 0x26, 0x24, 0x07, 0x01, 0x00, 0x80,
   0x02, 0xE0, 0x01, 0x00, 0xF4, 0x01, 0x00, 0x00, 0xC0, 0xA8, 0x00, 0x00,
   0x08, 0x07, 0x00, 0x15, 0x16, 0x05, 0x00, 0x00, 0x15, 0x16, 0x05, 0x00,
   0x76, 0x96, 0x98, 0x00, 0x15, 0x16, 0x05, 0x00, 0x26, 0x24, 0x07, 0x02,
   0x00, 0x40, 0x01, 0xF0, 0x00, 0x00, 0xF4, 0x01, 0x00, 0x00, 0x30, 0x2A,
   0x00, 0x00, 0xC2, 0x01, 0x00, 0x15, 0x16, 0x05, 0x00, 0x00, 0x15, 0x16,
   0x05, 0x00, 0x76, 0x96, 0x98, 0x00, 0x15, 0x16, 0x05, 0x00, 0x26, 0x24,
   0x07, 0x03, 0x00, 0xA0, 0x00, 0x78, 0x00, 0x00, 0xF4, 0x01, 0x00, 0x00,
   0x8C, 0x0A, 0x00, 0x80, 0x70, 0x00, 0x00, 0x15, 0x16, 0x05, 0x00, 0x00,
   0x15, 0x16, 0x05, 0x00, 0x76, 0x96, 0x98, 0x00, 0x15, 0x16, 0x05, 0x00,
   0x26, 0x24, 0x07, 0x04, 0x00, 0xB0, 0x00, 0x90, 0x00, 0x00, 0xF4, 0x01,
   0x00, 0x00, 0xEC, 0x0D, 0x00, 0x80, 0x94, 0x00, 0x00, 0x15, 0x16, 0x05,
   0x00, 0x00, 0x15, 0x16, 0x05, 0x00, 0x76, 0x96, 0x98, 0x00, 0x15, 0x16,
   0x05, 0x00, 0x26, 0x24, 0x07, 0x05, 0x00, 0x60, 0x01, 0x20, 0x01, 0x00,
   0xF4, 0x01, 0x00, 0x00, 0xB0, 0x37, 0x00, 0x00, 0x52, 0x02, 0x00, 0x15,
   0x16, 0x05, 0x00, 0x00, 0x15, 0x16, 0x05, 0x00, 0x76, 0x96, 0x98, 0x00,
   0x15, 0x16, 0x05, 0x00, 0x1A, 0x24, 0x03, 0x00, 0x05, 0x80, 0x02, 0xE0,
   0x01, 0x40, 0x01, 0xF0, 0x00, 0xA0, 0x00, 0x78, 0x00, 0xB0, 0x00, 0x90,
   0x00, 0x60, 0x01, 0x20, 0x01, 0x00, 0x06, 0x24, 0x0D, 0x01, 0x01, 0x04,
   0x1B, 0x24, 0x04, 0x02, 0x05, 0x59, 0x55, 0x59, 0x32, 0x00, 0x00, 0x10,
   0x00, 0x80, 0x00, 0x00, 0xAA, 0x00, 0x38, 0x9B, 0x71, 0x10, 0x01, 0x00,
   0x00, 0x00, 0x00, 0x32, 0x24, 0x05, 0x01, 0x00, 0x80, 0x02, 0xE0, 0x01,
   0x00, 0x60, 0x09, 0x00, 0x00, 0x40, 0x19, 0x01, 0x00, 0x60, 0x09, 0x00,
   0x15, 0x16, 0x05, 0x00, 0x06, 0x15, 0x16, 0x05, 0x00, 0x20, 0xA1, 0x07,
   0x00, 0x2A, 0x2C, 0x0A, 0x00, 0x40, 0x42, 0x0F, 0x00, 0x80, 0x84, 0x1E,
   0x00, 0x80, 0x96, 0x98, 0x00, 0x32, 0x24, 0x05, 0x02, 0x00, 0x40, 0x01,
   0xF0, 0x00, 0x00, 0x58, 0x02, 0x00, 0x00, 0x50, 0x46, 0x00, 0x00, 0x58,
   0x02, 0x00, 0x15, 0x16, 0x05, 0x00, 0x06, 0x15, 0x16, 0x05, 0x00, 0x20,
   0xA1, 0x07, 0x00, 0x2A, 0x2C, 0x0A, 0x00, 0x40, 0x42, 0x0F, 0x00, 0x80,
   0x84, 0x0F, 0x00, 0x80, 0x96, 0x98, 0x00, 0x32, 0x24, 0x05, 0x03, 0x00,
   0xA0, 0x00, 0x78, 0x00, 0x00, 0x96, 0x00, 0x00, 0x00, 0x94, 0x11, 0x00,
   0x00, 0x96, 0x00, 0x00, 0x15, 0x16, 0x05, 0x00, 0x06, 0x15, 0x16, 0x05,
   0x00, 0x20, 0xA1, 0x07, 0x00, 0x2A, 0x2C, 0x0A, 0x00, 0x40, 0x42, 0x0F,
   0x00, 0x80, 0x84, 0x0F, 0x00, 0x80, 0x96, 0x98, 0x00, 0x32, 0x24, 0x05,
   0x04, 0x00, 0xB0, 0x00, 0x90, 0x00, 0x00, 0xC6, 0x00, 0x00, 0x00, 0x34,
   0x17, 0x00, 0x00, 0xC6, 0x00, 0x00, 0x15, 0x16, 0x05, 0x00, 0x06, 0x15,
   0x16, 0x05, 0x00, 0x20, 0xA1, 0x07, 0x00, 0x2A, 0x2C, 0x0A, 0x00, 0x40,
   0x42, 0x0F, 0x00, 0x80, 0x84, 0x0F, 0x00, 0x80, 0x96, 0x98, 0x00, 0x32,
   0x24, 0x05, 0x05, 0x00, 0x60, 0x01, 0x20, 0x01, 0x00, 0x18, 0x03, 0x00,
   0x00, 0xD0, 0x5C, 0x00, 0x00, 0x18, 0x03, 0x00, 0x15, 0x16, 0x05, 0x00,
   0x06, 0x15, 0x16, 0x05, 0x00, 0x20, 0xA1, 0x07, 0x00, 0x2A, 0x2C, 0x0A,
   0x00, 0x40, 0x42, 0x0F, 0x00, 0x80, 0x84, 0x0F, 0x00, 0x80, 0x96, 0x98,
   0x00, 0x1A, 0x24, 0x03, 0x00, 0x05, 0x80, 0x02, 0xE0, 0x01, 0x40, 0x01,
   0xF0, 0x00, 0xA0, 0x00, 0x78, 0x00, 0xB0, 0x00, 0x90, 0x00, 0x60, 0x01,
   0x20, 0x01, 0x00, 0x06, 0x24, 0x0D, 0x01, 0x01, 0x04, 0x09, 0x04, 0x01,
   0x01, 0x01, 0x0E, 0x02, 0x00, 0x00, 0x07, 0x05, 0x81, 0x05, 0x60, 0x0A,
   0x01, 0x09, 0x04, 0x01, 0x02, 0x01, 0x0E, 0x02, 0x00, 0x00, 0x07, 0x05,
   0x81, 0x05, 0x00, 0x0B, 0x01, 0x09, 0x04, 0x01, 0x03, 0x01, 0x0E, 0x02,
   0x00, 0x00, 0x07, 0x05, 0x81, 0x05, 0x20, 0x0B, 0x01, 0x09, 0x04, 0x01,
   0x04, 0x01, 0x0E, 0x02, 0x00, 0x00, 0x07, 0x05, 0x81, 0x05, 0x00, 0x13,
   0x01, 0x09, 0x04, 0x01, 0x05, 0x01, 0x0E, 0x02, 0x00, 0x00, 0x07, 0x05,
   0x81, 0x05, 0x20, 0x13, 0x01, 0x09, 0x04, 0x01, 0x06, 0x01, 0x0E, 0x02,
   0x00, 0x00, 0x07, 0x05, 0x81, 0x05, 0xFC, 0x13, 0x01
  ]

/-! ## Descriptor records -/

/-- The record `DeviceDescriptor` of `Core/IOS/USB/Common.h`, with the fields
the initialiser of `s_device_descriptor` names, in that order. -/
structure DeviceDescriptor where
  bLength : Nat
  bDescriptorType : Nat
  bcdUSB : Nat
  bDeviceClass : Nat
  bDeviceSubClass : Nat
  bDeviceProtocol : Nat
  bMaxPacketSize0 : Nat
  idVendor : Nat
  idProduct : Nat
  bcdDevice : Nat
  iManufacturer : Nat
  iProduct : Nat
  iSerialNumber : Nat
  bNumConfigurations : Nat
deriving DecidableEq, Repr

/-- The record `ConfigDescriptor`, with the fields the initialiser of
`s_config_descriptor` names. -/
structure ConfigDescriptor where
  bLength : Nat
  bDescriptorType : Nat
  wTotalLength : Nat
  bNumInterfaces : Nat
  bConfigurationValue : Nat
  iConfiguration : Nat
  bmAttributes : Nat
  MaxPower : Nat
deriving DecidableEq, Repr

/-- The record `InterfaceDescriptor`, with the fields the initialiser of
`s_interface_descriptor` names. -/
structure InterfaceDescriptor where
  bLength : Nat
  bDescriptorType : Nat
  bInterfaceNumber : Nat
  bAlternateSetting : Nat
  bNumEndpoints : Nat
  bInterfaceClass : Nat
  bInterfaceSubClass : Nat
  bInterfaceProtocol : Nat
  iInterface : Nat
deriving DecidableEq, Repr

/-- The record `EndpointDescriptor`, with the fields the initialiser of
`s_endpoint_descriptor` names. -/
structure EndpointDescriptor where
  bLength : Nat
  bDescriptorType : Nat
  bEndpointAddress : Nat
  bmAttributes : Nat
  wMaxPacketSize : Nat
  bInterval : Nat
deriving DecidableEq, Repr

/-- Modelled from the spec: the wire layout of a configuration descriptor
(the declaration of `ConfigDescriptor` is not among the embedded sources) :
the fields in declaration order, one byte each, `wTotalLength` as two bytes,
low byte first. -/
def ConfigDescriptor.bytes (d : ConfigDescriptor) : List Nat :=
  [d.bLength, d.bDescriptorType, d.wTotalLength % 256, d.wTotalLength / 256,
    d.bNumInterfaces, d.bConfigurationValue, d.iConfiguration, d.bmAttributes, d.MaxPower]

/-- Modelled from the spec: the wire layout of an interface descriptor (the
declaration of `InterfaceDescriptor` is not among the embedded sources) : the
nine one-byte fields in declaration order. -/
def InterfaceDescriptor.bytes (d : InterfaceDescriptor) : List Nat :=
  [d.bLength, d.bDescriptorType, d.bInterfaceNumber, d.bAlternateSetting, d.bNumEndpoints,
    d.bInterfaceClass, d.bInterfaceSubClass, d.bInterfaceProtocol, d.iInterface]

/-- Modelled from the spec: the wire layout of an endpoint descriptor (the
declaration of `EndpointDescriptor` is not among the embedded sources) : the
fields in declaration order, `wMaxPacketSize` as two bytes, low byte first. -/
def EndpointDescriptor.bytes (d : EndpointDescriptor) : List Nat :=
  [d.bLength, d.bDescriptorType, d.bEndpointAddress, d.bmAttributes,
    d.wMaxPacketSize % 256, d.wMaxPacketSize / 256, d.bInterval]

/-! ## Reading the raw configuration descriptor -/

/-- The descriptors met when walking a byte sequence from offset 0 by each
descriptor's `bLength` (its first byte); `none` when a `bLength` is below 2
or runs past the end, so `some` means the walk ends exactly at the end.  The
first argument bounds the number of descriptors; the length of the sequence
always suffices. -/
def split_descriptors : Nat → List Nat → Option (List (List Nat))
  | _, [] => some []
  | 0, _ :: _ => none
  | fuel + 1, b :: rest =>
    if b < 2 ∨ (b :: rest).length < b then none
    else (split_descriptors fuel ((b :: rest).drop b)).map (fun ds => (b :: rest).take b :: ds)

/-- The descriptors of `usb_config_desc`, in order (empty if the walk fails). -/
def blob_descriptors : List (List Nat) :=
  (split_descriptors usb_config_desc.length usb_config_desc).getD []

/-- The descriptors of a list whose `bDescriptorType` (second byte) is `t`. -/
def descriptors_of_type (t : Nat) (ds : List (List Nat)) : List (List Nat) :=
  ds.filter (fun d => d[1]? = some t)

/-- The endpoint descriptors (type `0x05`) that a descriptor list declares for
alternate setting `alt` of interface `interface` : those that follow the
interface descriptor (type `0x04`) with these two numbers, up to the next
interface descriptor.  `current` is the interface descriptor last met. -/
def endpoints_declared (interface alt : Nat) :
    Option (Nat × Nat) → List (List Nat) → List (List Nat)
  | _, [] => []
  | current, d :: ds =>
    if d[1]? = some 4 then
      endpoints_declared interface alt (some (d[2]?.getD 0, d[3]?.getD 0)) ds
    else if d[1]? = some 5 ∧ current = some (interface, alt) then
      d :: endpoints_declared interface alt current ds
    else
      endpoints_declared interface alt current ds

/-- The `wMaxPacketSize` (bytes 4 and 5, low byte first) of a raw endpoint
descriptor. -/
def raw_wMaxPacketSize (d : List Nat) : Nat :=
  d[4]?.getD 0 + 256 * d[5]?.getD 0

/-- The class-specific descriptors (type `0x24`) of subtype `subtype` that a
descriptor list declares for interface number `interface` : those that follow
an interface descriptor (type `0x04`) with that number, up to the next
interface descriptor with another number.  `current` is the number of the
interface descriptor last met. -/
def class_descriptors (interface subtype : Nat) :
    Option Nat → List (List Nat) → List (List Nat)
  | _, [] => []
  | current, d :: ds =>
    if d[1]? = some 4 then
      class_descriptors interface subtype (some (d[2]?.getD 0)) ds
    else if d[1]? = some 0x24 ∧ d[2]? = some subtype ∧ current = some interface then
      d :: class_descriptors interface subtype current ds
    else
      class_descriptors interface subtype current ds

/-- The `bFrameIndex` (byte 3) of a raw video frame descriptor. -/
def raw_bFrameIndex (d : List Nat) : Nat := d[3]?.getD 0

/-- The `wWidth` (bytes 5 and 6) and `wHeight` (bytes 7 and 8), low byte
first, of a raw video frame descriptor. -/
def raw_frame_size (d : List Nat) : UVCImageSize :=
  ⟨d[5]?.getD 0 + 256 * d[6]?.getD 0, d[7]?.getD 0 + 256 * d[8]?.getD 0⟩

/-! ## The device `MotionCamera` -/

/-- The mutable members of `class MotionCamera`. -/
structure MotionCamera where
  m_active_interface : Nat
  m_active_altsetting : Nat
  m_active_size : UVCImageSize
  m_image_size : Nat
  m_image_pos : Nat
  m_image_data : List Nat
  m_frame_id : Bool
deriving DecidableEq, Repr

namespace MotionCamera

/-- The table `m_supported_sizes[5]`. -/
def m_supported_sizes : List UVCImageSize :=
  [⟨640, 480⟩, ⟨320, 240⟩, ⟨160, 120⟩, ⟨176, 144⟩, ⟨352, 288⟩]

/-- The constructor `MotionCamera::MotionCamera` (the frame buffer is
`calloc`ed, hence all zero). -/
def init : MotionCamera :=
  { m_active_interface := 0
    m_active_altsetting := 0
    m_active_size := ⟨320, 240⟩
    m_image_size := (320 * 240 * 2) % 2 ^ 32
    m_image_pos := 0
    m_image_data := List.replicate ((320 * 240 * 2) % 2 ^ 32) 0
    m_frame_id := false }

/-- The read `m_supported_sizes[commit->bFrameIndex - 1]` : the index is the
`int` value `bFrameIndex - 1`; outside `0..4` the read is out of bounds. -/
def supported_size_at (bFrameIndex : Nat) : Option UVCImageSize :=
  let idx : Int := (bFrameIndex : Int) - 1
  if 0 ≤ idx ∧ idx < 5 then m_supported_sizes[idx.toNat]? else none

/-- What a control submission hands to `ScheduleTransfer`, and its return
value. -/
structure CtrlResult where
  state : MotionCamera
  response : List Nat
  completion : Int
  ret : Int
deriving DecidableEq, Repr


/-! ### Control requests -/

/-- The case label `USBHDR(DIR_DEVICE2HOST, TYPE_STANDARD, REC_DEVICE,
REQUEST_GET_DESCRIPTOR)`, request type `0x80` and request `0x06`. -/
def HDR_GET_DESCRIPTOR : Nat := 0x8006
/-- The case label `USBHDR(DIR_HOST2DEVICE, TYPE_CLASS, REC_INTERFACE, r)`,
request type `0x21` and request `r`. -/
def HDR_H2D_CLASS_INTERFACE (r : Nat) : Nat := 0x2100 ||| r
/-- The case label `USBHDR(DIR_DEVICE2HOST, TYPE_CLASS, REC_INTERFACE, r)`,
request type `0xa1` and request `r`. -/
def HDR_D2H_CLASS_INTERFACE (r : Nat) : Nat := 0xa100 ||| r

/-- The helper `MotionCamera::ScheduleTransfer` : the response is copied into
the command buffer and the completion carries `data.size()`. -/
def ScheduleTransfer (self : MotionCamera) (data : List Nat) : CtrlResult :=
  { state := self, response := data, completion := (data.length : Int), ret := IPC_SUCCESS }

/-- The overload `MotionCamera::SubmitTransfer(std::unique_ptr<CtrlMessage>)`. -/
def SubmitTransfer_Ctrl (self : MotionCamera) (memory : Memory) (cmd : CtrlMessage) :
    Option CtrlResult :=
  let key := (cmd.request_type <<< 8) ||| cmd.request
  if key = HDR_GET_DESCRIPTOR then
    some (self.ScheduleTransfer usb_config_desc)
  else if key = HDR_H2D_CLASS_INTERFACE SET_CUR then
    let unit := (cmd.index >>> 8) % 256
    let control := (cmd.value >>> 8) % 256
    if unit = 0 ∧ control = VS_COMMIT then
      match memory.GetPointerForRange cmd.data_address cmd.length with
      | none => none
      | some commit =>
        match commit[offsetof_bFrameIndex]? with
        | none => none
        | some bFrameIndex =>
          match supported_size_at bFrameIndex with
          | none => none
          | some size =>
            some (ScheduleTransfer { self with m_active_size := size } [])
    else
      some (self.ScheduleTransfer [])
  else if key = HDR_D2H_CLASS_INTERFACE GET_CUR ∨ key = HDR_D2H_CLASS_INTERFACE GET_MIN
      ∨ key = HDR_D2H_CLASS_INTERFACE GET_MAX ∨ key = HDR_D2H_CLASS_INTERFACE GET_RES
      ∨ key = HDR_D2H_CLASS_INTERFACE GET_LEN ∨ key = HDR_D2H_CLASS_INTERFACE GET_INF
      ∨ key = HDR_D2H_CLASS_INTERFACE GET_DEF then
    some (self.ScheduleTransfer [])
  else
    some (self.ScheduleTransfer [])

/-! ### Interface and alternate-setting tracking -/

/-- The method `MotionCamera::CancelTransfer`. -/
def CancelTransfer (self : MotionCamera) (_endpoint : Nat) : MotionCamera × Int :=
  (self, IPC_SUCCESS)

/-- The method `MotionCamera::ChangeInterface`. -/
def ChangeInterface (self : MotionCamera) (interface : Nat) : MotionCamera × Int :=
  ({ self with m_active_interface := interface }, 0)

/-- The method `MotionCamera::Attach`. -/
def Attach (self : MotionCamera) : MotionCamera × Bool :=
  (self, true)

/-- The method `MotionCamera::AttachAndChangeInterface`. -/
def AttachAndChangeInterface (self : MotionCamera) (interface : Nat) : MotionCamera × Bool :=
  if !(self.Attach).2 then
    ((self.Attach).1, false)
  else if interface ≠ self.m_active_interface then
    ((self.ChangeInterface interface).1, decide ((self.ChangeInterface interface).2 = 0))
  else
    (self, true)

/-- The method `MotionCamera::GetNumberOfAltSettings`. -/
def GetNumberOfAltSettings (_self : MotionCamera) (interface : Nat) : Int :=
  if interface = 1 then 7 else 1

/-- The method `MotionCamera::SetAltSetting` : the new state, the calls made
to the host, and the return value. -/
def SetAltSetting (self : MotionCamera) (alt_setting : Nat) :
    MotionCamera × List HostEvent × Int :=
  let self1 := { self with m_active_altsetting := alt_setting }
  if alt_setting ≠ 0 then
    (self1, [HostEvent.CameraStart self1.m_active_size.width self1.m_active_size.height], 0)
  else
    (self1, [HostEvent.CameraStop], 0)

/-- The overload `MotionCamera::SubmitTransfer(std::unique_ptr<BulkMessage>)`. -/
def SubmitTransfer_Bulk (self : MotionCamera) (_cmd : BulkMessage) : MotionCamera × Int :=
  (self, IPC_SUCCESS)

/-- The overload `MotionCamera::SubmitTransfer(std::unique_ptr<IntrMessage>)`. -/
def SubmitTransfer_Intr (self : MotionCamera) (_cmd : IntrMessage) : MotionCamera × Int :=
  (self, IPC_SUCCESS)

/-! ### Isochronous streaming -/

/-- What one iteration of the packet loop writes and reports : the offset
`iso_buffer_pos - iso_buffer` at which the packet starts, the header copied
there, the frame bytes copied right after the header, and the argument passed
to `SetPacketReturnValue`. -/
structure IsoPacket where
  offset : Nat
  header : UVCHeader
  payload : List Nat
  return_value : Nat
deriving DecidableEq, Repr

/-- The bytes an iteration writes at its offset (header, then payload). -/
def IsoPacket.bytes (p : IsoPacket) : List Nat := p.header.bytes ++ p.payload

/-- The local `data_size` of the packet loop : `m_image_size - m_image_pos` is
`u32` arithmetic, `packet_sizes[i] - sizeof(uvc_header)` is `size_t`
arithmetic, and the selected value is narrowed to `u32`. -/
def data_size (self : MotionCamera) (packet_size : Nat) : Nat :=
  let remaining := (self.m_image_size + 2 ^ 32 - self.m_image_pos) % 2 ^ 32
  let capacity := (packet_size + 2 ^ 64 - sizeof_UVCHeader) % 2 ^ 64
  (if remaining > capacity then capacity else remaining) % 2 ^ 32

/-- The test `data_size > 0 && m_image_pos + data_size == m_image_size` of the
packet loop. -/
def completes_frame (self : MotionCamera) (packet_size : Nat) : Bool :=
  decide (self.data_size packet_size > 0
    ∧ (self.m_image_pos + self.data_size packet_size) % 2 ^ 32 = self.m_image_size)

/-- The header an iteration of the packet loop builds. -/
def packet_header (self : MotionCamera) (packet_size : Nat) : UVCHeader :=
  let uvc_header : UVCHeader :=
    { UVCHeader.zero with
      bHeaderLength := sizeof_UVCHeader, endOfHeader := true, frameId := self.m_frame_id }
  if self.completes_frame packet_size then { uvc_header with endOfFrame := true }
  else uvc_header

/-- The frame bytes an iteration copies : `data_size` bytes of `m_image_data`
from `m_image_pos`, nothing when `data_size` is 0. -/
def packet_payload (self : MotionCamera) (packet_size : Nat) : List Nat :=
  if self.data_size packet_size > 0 then
    (self.m_image_data.drop self.m_image_pos).take (self.data_size packet_size)
  else []

/-- The packet one iteration of the loop emits at offset `iso_buffer_pos`. -/
def emit_packet (self : MotionCamera) (iso_buffer_pos packet_size : Nat) : IsoPacket :=
  { offset := iso_buffer_pos
    header := self.packet_header packet_size
    payload := self.packet_payload packet_size
    return_value := (sizeof_UVCHeader + self.data_size packet_size) % 2 ^ 32 }

/-- The device state after one iteration of the packet loop (`m_frame_id ^= 1`
when the packet completes the frame, `m_image_pos += data_size`). -/
def after_packet (self : MotionCamera) (packet_size : Nat) : MotionCamera :=
  { self with
    m_frame_id := if self.completes_frame packet_size then !self.m_frame_id else self.m_frame_id
    m_image_pos := (self.m_image_pos + self.data_size packet_size) % 2 ^ 32 }

/-- The packet loop `for (i = 0; i < cmd->num_packets; i++)` from the device
state `self` with the write position at offset `iso_buffer_pos` : the state
after the loop and the packets in emission order. -/
def packet_loop (self : MotionCamera) (iso_buffer_pos : Nat) :
    List Nat → MotionCamera × List IsoPacket
  | [] => (self, [])
  | packet_size :: rest =>
    let r := packet_loop (self.after_packet packet_size)
      (iso_buffer_pos + sizeof_UVCHeader + self.data_size packet_size) rest
    (r.1, self.emit_packet iso_buffer_pos packet_size :: r.2)

/-- The replenish step after the loop : `if (m_image_pos == m_image_size)` the
frame buffer is refilled from the shared source and the cursor reset. -/
def replenish (self : MotionCamera) (camera : CameraData) : MotionCamera :=
  if self.m_image_pos = self.m_image_size then
    { self with
      m_image_data := camera.GetData self.m_image_data self.m_image_size
      m_image_pos := 0 }
  else self

/-- Result of an isochronous submission : the new state, the packets written,
the scheduled completion (code and delay in microseconds) if any, and the
return value. -/
structure IsoResult where
  state : MotionCamera
  packets : List IsoPacket
  completion : Option (Int × Nat)
  ret : Int
deriving DecidableEq, Repr

/-- The overload `MotionCamera::SubmitTransfer(std::unique_ptr<IsoMessage>)`. -/
def SubmitTransfer_Iso (self : MotionCamera) (memory : Memory) (camera : CameraData)
    (cmd : IsoMessage) : IsoResult :=
  match memory.GetPointerForRange cmd.data_address cmd.length with
  | none => { state := self, packets := [], completion := none, ret := IPC_EINVAL }
  | some _ =>
    let r := self.packet_loop 0 cmd.packet_sizes
    { state := r.1.replenish camera
      packets := r.2
      completion := some (IPC_SUCCESS, 33000)
      ret := IPC_SUCCESS }

/-! ### Operations and reachable states -/

/-- An operation the USB framework can invoke on the device. -/
inductive Op where
  | ctrl (cmd : CtrlMessage)
  | bulk (cmd : BulkMessage)
  | intr (cmd : IntrMessage)
  | iso (cmd : IsoMessage)
  | attach
  | attachAndChangeInterface (interface : Nat)
  | cancelTransfer (endpoint : Nat)
  | changeInterface (interface : Nat)
  | setAltSetting (alt_setting : Nat)
deriving DecidableEq, Repr

/-- The device state after an operation, in the environment given by the
emulated memory and the shared frame source; `none` when the operation has
undefined behaviour. -/
def step (self : MotionCamera) (memory : Memory) (camera : CameraData) :
    Op → Option MotionCamera
  | Op.ctrl cmd => (self.SubmitTransfer_Ctrl memory cmd).map CtrlResult.state
  | Op.bulk cmd => some (self.SubmitTransfer_Bulk cmd).1
  | Op.intr cmd => some (self.SubmitTransfer_Intr cmd).1
  | Op.iso cmd => some (self.SubmitTransfer_Iso memory camera cmd).state
  | Op.attach => some (self.Attach).1
  | Op.attachAndChangeInterface interface => some (self.AttachAndChangeInterface interface).1
  | Op.cancelTransfer endpoint => some (self.CancelTransfer endpoint).1
  | Op.changeInterface interface => some (self.ChangeInterface interface).1
  | Op.setAltSetting alt_setting => some (self.SetAltSetting alt_setting).1

/-- The states reachable from a freshly constructed device by operations whose
behaviour is defined, the memory and the content of the shared frame source
(an allocation of `CameraData.capacity` bytes) being arbitrary at each
operation. -/
inductive Reachable : MotionCamera → Prop where
  | init : Reachable MotionCamera.init
  | step {s t : MotionCamera} (memory : Memory) (camera : CameraData) (op : Op) :
      Reachable s → camera.m_image_data.length = CameraData.capacity →
      s.step memory camera op = some t → Reachable t

/-- The frame-buffer fields are consistent : the size fits `u32`, the cursor
is inside the frame, and the buffer holds exactly `m_image_size` bytes. -/
def WellFormed (s : MotionCamera) : Prop :=
  s.m_image_size < 2 ^ 32 ∧ s.m_image_pos ≤ s.m_image_size
    ∧ s.m_image_data.length = s.m_image_size

/-- One isochronous submission together with its environment. -/
structure IsoSubmission where
  memory : Memory
  camera : CameraData
  cmd : IsoMessage

/-- Successive isochronous submissions : the final state and all packets
written, in emission order. -/
def iso_run (self : MotionCamera) : List IsoSubmission → MotionCamera × List IsoPacket
  | [] => (self, [])
  | e :: rest =>
    let r := self.SubmitTransfer_Iso e.memory e.camera e.cmd
    let q := iso_run r.state rest
    (q.1, r.packets ++ q.2)

/-- Sum of the payload capacities `packet_size - sizeof(UVCHeader)` of a list
of declared packet sizes. -/
def payload_capacity (packet_sizes : List Nat) : Nat :=
  (packet_sizes.map (fun c => c - sizeof_UVCHeader)).sum

/-- What a packet puts on the wire and reports, without its position in the
transfer buffer. -/
def IsoPacket.content (q : IsoPacket) : UVCHeader × List Nat × Nat :=
  (q.header, q.payload, q.return_value)

/-- The declared packet sizes of successive submissions, in order. -/
def all_packet_sizes : List IsoSubmission → List Nat
  | [] => []
  | e :: rest => e.cmd.packet_sizes ++ all_packet_sizes rest

/-! ### Descriptor catalog -/

/-- The static member `MotionCamera::s_device_descriptor`. -/
def s_device_descriptor : DeviceDescriptor :=
  { bLength := 0x12, bDescriptorType := 0x01, bcdUSB := 0x0200, bDeviceClass := 0xef,
    bDeviceSubClass := 0x02, bDeviceProtocol := 0x01, bMaxPacketSize0 := 0x40,
    idVendor := 0x057e, idProduct := 0x030a, bcdDevice := 0x0924, iManufacturer := 0x30,
    iProduct := 0x60, iSerialNumber := 0x00, bNumConfigurations := 0x01 }

/-- The static member `MotionCamera::s_config_descriptor`. -/
def s_config_descriptor : List ConfigDescriptor :=
  [{ bLength := 0x09, bDescriptorType := 0x02, wTotalLength := 0x0309, bNumInterfaces := 0x02,
     bConfigurationValue := 0x01, iConfiguration := 0x30, bmAttributes := 0x80,
     MaxPower := 0xfa }]

/-- The static member `MotionCamera::s_interface_descriptor`. -/
def s_interface_descriptor : List InterfaceDescriptor :=
  [{ bLength := 0x09, bDescriptorType := 0x04, bInterfaceNumber := 0x00,
     bAlternateSetting := 0x00, bNumEndpoints := 0x01, bInterfaceClass := 0x0e,
     bInterfaceSubClass := 0x01, bInterfaceProtocol := 0x00, iInterface := 0x60 },
   { bLength := 0x09, bDescriptorType := 0x04, bInterfaceNumber := 0x01,
     bAlternateSetting := 0x00, bNumEndpoints := 0x00, bInterfaceClass := 0x0e,
     bInterfaceSubClass := 0x02, bInterfaceProtocol := 0x00, iInterface := 0x00 },
   { bLength := 0x09, bDescriptorType := 0x04, bInterfaceNumber := 0x01,
     bAlternateSetting := 0x01, bNumEndpoints := 0x01, bInterfaceClass := 0x0e,
     bInterfaceSubClass := 0x02, bInterfaceProtocol := 0x00, iInterface := 0x00 },
   { bLength := 0x09, bDescriptorType := 0x04, bInterfaceNumber := 0x01,
     bAlternateSetting := 0x02, bNumEndpoints := 0x01, bInterfaceClass := 0x0e,
     bInterfaceSubClass := 0x02, bInterfaceProtocol := 0x00, iInterface := 0x00 },
   { bLength := 0x09, bDescriptorType := 0x04, bInterfaceNumber := 0x01,
     bAlternateSetting := 0x03, bNumEndpoints := 0x01, bInterfaceClass := 0x0e,
     bInterfaceSubClass := 0x02, bInterfaceProtocol := 0x00, iInterface := 0x00 },
   { bLength := 0x09, bDescriptorType := 0x04, bInterfaceNumber := 0x01,
     bAlternateSetting := 0x04, bNumEndpoints := 0x01, bInterfaceClass := 0x0e,
     bInterfaceSubClass := 0x02, bInterfaceProtocol := 0x00, iInterface := 0x00 },
   { bLength := 0x09, bDescriptorType := 0x04, bInterfaceNumber := 0x01,
     bAlternateSetting := 0x05, bNumEndpoints := 0x01, bInterfaceClass := 0x0e,
     bInterfaceSubClass := 0x02, bInterfaceProtocol := 0x00, iInterface := 0x00 },
   { bLength := 0x09, bDescriptorType := 0x04, bInterfaceNumber := 0x01,
     bAlternateSetting := 0x06, bNumEndpoints := 0x01, bInterfaceClass := 0x0e,
     bInterfaceSubClass := 0x02, bInterfaceProtocol := 0x00, iInterface := 0x00 }]

/-- The static member `MotionCamera::s_endpoint_descriptor`. -/
def s_endpoint_descriptor : List EndpointDescriptor :=
  [{ bLength := 0x07, bDescriptorType := 0x05, bEndpointAddress := 0x82, bmAttributes := 0x03,
     wMaxPacketSize := 0x0010, bInterval := 0x06 },
   { bLength := 0x07, bDescriptorType := 0x05, bEndpointAddress := 0x81, bmAttributes := 0x05,
     wMaxPacketSize := 0x0a60, bInterval := 0x01 },
   { bLength := 0x07, bDescriptorType := 0x05, bEndpointAddress := 0x81, bmAttributes := 0x05,
     wMaxPacketSize := 0x0b00, bInterval := 0x01 },
   { bLength := 0x07, bDescriptorType := 0x05, bEndpointAddress := 0x81, bmAttributes := 0x05,
     wMaxPacketSize := 0x0b20, bInterval := 0x01 },
   { bLength := 0x07, bDescriptorType := 0x05, bEndpointAddress := 0x81, bmAttributes := 0x05,
     wMaxPacketSize := 0x1300, bInterval := 0x01 },
   { bLength := 0x07, bDescriptorType := 0x05, bEndpointAddress := 0x81, bmAttributes := 0x05,
     wMaxPacketSize := 0x1320, bInterval := 0x01 },
   { bLength := 0x07, bDescriptorType := 0x05, bEndpointAddress := 0x81, bmAttributes := 0x05,
     wMaxPacketSize := 0x13fc, bInterval := 0x01 }]

/-- The method `MotionCamera::GetDeviceDescriptor`. -/
def GetDeviceDescriptor (_self : MotionCamera) : DeviceDescriptor := s_device_descriptor

/-- The method `MotionCamera::GetConfigurations`. -/
def GetConfigurations (_self : MotionCamera) : List ConfigDescriptor := s_config_descriptor

/-- The method `MotionCamera::GetInterfaces`. -/
def GetInterfaces (_self : MotionCamera) (_config : Nat) : List InterfaceDescriptor :=
  s_interface_descriptor

/-- The method `MotionCamera::GetEndpoints` : `s_endpoint_descriptor[i]` is
`std::vector::operator[]`, which has no defined result outside the seven
entries (`none`). -/
def GetEndpoints (_self : MotionCamera) (_config interface alt : Nat) :
    Option (List EndpointDescriptor) :=
  if interface = 0 then
    (s_endpoint_descriptor[0]?).map (fun e => [e])
  else if interface = 1 ∧ alt > 0 then
    (s_endpoint_descriptor[alt]?).map (fun e => [e])
  else
    some []

/-- The state `s` with `a` recorded as the active alternate setting and every
other member unchanged. -/
def with_altsetting (s : MotionCamera) (a : Nat) : MotionCamera :=
  { s with m_active_altsetting := a }

/-! ### Sample inputs -/

/-- A `SET_CUR` request to unit 0 (interface 1) with selector `VS_COMMIT`. -/
def sample_commit : CtrlMessage :=
  { data_address := 0x1000, request_type := 0x21, request := 0x01,
    value := 0x0200, index := 0x0001, length := 26 }

/-- A memory in which every range resolves to a 26-byte probe/commit block
with format index 1, the given frame index and frame interval 333333. -/
def sample_memory (bFrameIndex : Nat) : Memory :=
  ⟨fun _ _ => some [0, 0, 1, bFrameIndex, 0x15, 0x16, 0x05, 0x00, 0, 0, 0, 0, 0, 0,
    0, 0, 0, 0, 0, 0, 0, 0, 0, 0, 0, 0]⟩

/-- A shared frame source holding `CameraData.capacity` bytes of value 7. -/
def sample_camera : CameraData :=
  { m_image_size := 0, m_image_data := List.replicate CameraData.capacity 7 }

/-- A memory in which no range resolves. -/
def unmapped_memory : Memory := ⟨fun _ _ => none⟩

/-- An isochronous submission of 20 packets of 3072 bytes each (61440 bytes in
all) into resolvable memory. -/
def sample_iso : IsoSubmission :=
  { memory := sample_memory 0
    camera := sample_camera
    cmd := { data_address := 0x2000, length := 61440, endpoint := 0x81,
             packet_sizes := List.replicate 20 3072 } }

/-- The second packet that `sample_iso` writes on a fresh device. -/
def sample_packet : IsoPacket :=
  (MotionCamera.init.after_packet 3072).emit_packet 3072 3072

/-- Three successive `sample_iso` submissions (60 packets). -/
def sample_run : List IsoSubmission := [sample_iso, sample_iso, sample_iso]

/-- Packet number 50 (counting from 0) that `sample_run` writes on a fresh
device. -/
def sample_eof_packet : IsoPacket :=
  ((MotionCamera.init.iso_run sample_run).2[50]?).getD sample_packet

/-- A `SET_CUR` request to unit 0 (interface 1) with selector `VS_PROBE`. -/
def sample_probe : CtrlMessage :=
  { data_address := 0x1000, request_type := 0x21, request := 0x01,
    value := 0x0100, index := 0x0001, length := 26 }

/-- The state of a fresh device after two `sample_iso` submissions (cursor
122800 of 153600). -/
def sample_midframe : MotionCamera :=
  (MotionCamera.init.iso_run [sample_iso, sample_iso]).1

/-- An isochronous submission of 20 packets of 3072 bytes each into
resolvable memory while no producer has deposited a frame : the shared frame
source is as constructed. -/
def pattern_iso : IsoSubmission :=
  { memory := sample_memory 0
    camera := CameraData.init
    cmd := { data_address := 0x2000, length := 61440, endpoint := 0x81,
             packet_sizes := List.replicate 20 3072 } }

/-- Six successive `pattern_iso` submissions (120 packets). -/
def pattern_run : List IsoSubmission := List.replicate 6 pattern_iso

/-- The end-of-frame bits of the packets a run of submissions writes on a
fresh device, in emission order. -/
def end_of_frame_bits (subs : List IsoSubmission) : List Bool :=
  (MotionCamera.init.iso_run subs).2.map (fun q => q.header.endOfFrame)

/-- An isochronous message of six packets with declared sizes 65535, 65535,
22536, 0, 4 and 3072 (156682 bytes in all). -/
def layout_cmd : IsoMessage :=
  { data_address := 0x2000, length := 156682, endpoint := 0x81,
    packet_sizes := [65535, 65535, 22536, 0, 4, 3072] }

/-- The packets a fresh device writes for `layout_cmd` submitted into
resolvable memory. -/
def layout_packets : List IsoPacket :=
  (MotionCamera.init.SubmitTransfer_Iso (sample_memory 0) CameraData.init layout_cmd).packets

end MotionCamera

/-! # Theorems -/

namespace MotionCamera

/-! ## Arithmetic of the packet loop -/

theorem data_size_le (s : MotionCamera) (c : Nat) (hpos : s.m_image_pos ≤ s.m_image_size)
    (hsz : s.m_image_size < 2 ^ 32) :
    s.data_size c ≤ s.m_image_size - s.m_image_pos := by
  unfold data_size sizeof_UVCHeader
  norm_num at hsz ⊢
  split <;> omega

theorem data_size_eq_min (s : MotionCamera) (c : Nat) (hpos : s.m_image_pos ≤ s.m_image_size)
    (hsz : s.m_image_size < 2 ^ 32) (hc2 : 2 ≤ c) (hc : c < 2 ^ 16) :
    s.data_size c = min (c - 2) (s.m_image_size - s.m_image_pos) := by
  unfold data_size sizeof_UVCHeader
  norm_num at hsz hc ⊢
  split <;> omega

theorem data_size_small (s : MotionCamera) (c : Nat) (hpos : s.m_image_pos ≤ s.m_image_size)
    (hsz : s.m_image_size < 2 ^ 32) (hc : c < 2) :
    s.data_size c = s.m_image_size - s.m_image_pos := by
  unfold data_size sizeof_UVCHeader
  norm_num at hsz ⊢
  split <;> omega

theorem after_packet_pos (s : MotionCamera) (c : Nat) (hs : s.WellFormed) :
    (s.after_packet c).m_image_pos = s.m_image_pos + s.data_size c := by
  obtain ⟨hsz, hpos, _⟩ := hs
  have hle := s.data_size_le c hpos hsz
  show (s.m_image_pos + s.data_size c) % 2 ^ 32 = _
  apply Nat.mod_eq_of_lt
  omega

theorem after_packet_wf (s : MotionCamera) (c : Nat) (hs : s.WellFormed) :
    (s.after_packet c).WellFormed := by
  have hp := s.after_packet_pos c hs
  obtain ⟨hsz, hpos, hlen⟩ := hs
  have hle := s.data_size_le c hpos hsz
  refine ⟨hsz, ?_, hlen⟩
  rw [hp]
  show s.m_image_pos + s.data_size c ≤ s.m_image_size
  omega

theorem packet_loop_wf (caps : List Nat) :
    ∀ (s : MotionCamera) (p : Nat), s.WellFormed →
      (s.packet_loop p caps).1.WellFormed
        ∧ (s.packet_loop p caps).1.m_image_size = s.m_image_size := by
  induction caps with
  | nil => intro s p hs; exact ⟨hs, rfl⟩
  | cons c rest ih =>
    intro s p hs
    have h := ih (s.after_packet c) (p + sizeof_UVCHeader + s.data_size c)
      (s.after_packet_wf c hs)
    exact ⟨h.1, h.2⟩

theorem replenish_wf (s : MotionCamera) (camera : CameraData) (hs : s.WellFormed)
    (hcam : s.m_image_size ≤ camera.m_image_data.length) :
    (s.replenish camera).WellFormed ∧ (s.replenish camera).m_image_size = s.m_image_size := by
  obtain ⟨hsz, hpos, hlen⟩ := hs
  unfold replenish
  split
  · refine ⟨⟨hsz, Nat.zero_le _, ?_⟩, rfl⟩
    simp [CameraData.GetData, hlen]
    omega
  · exact ⟨⟨hsz, hpos, hlen⟩, rfl⟩

/-! ## Frame conditions and the reachable-state invariant -/

theorem ctrl_frame (s : MotionCamera) (memory : Memory) (cmd : CtrlMessage) (r : CtrlResult)
    (h : s.SubmitTransfer_Ctrl memory cmd = some r) :
    r.state = { s with m_active_size := r.state.m_active_size } := by
  unfold SubmitTransfer_Ctrl at h
  simp only [ScheduleTransfer] at h
  split_ifs at h
  · cases h; rfl
  · split at h
    · cases h
    · split at h
      · cases h
      · split at h
        · cases h
        · cases h; rfl
  · cases h; rfl
  · cases h; rfl
  · cases h; rfl

theorem iso_wf (s : MotionCamera) (memory : Memory) (camera : CameraData) (cmd : IsoMessage)
    (hs : s.WellFormed) (hcam : s.m_image_size ≤ camera.m_image_data.length) :
    (s.SubmitTransfer_Iso memory camera cmd).state.WellFormed
      ∧ (s.SubmitTransfer_Iso memory camera cmd).state.m_image_size = s.m_image_size := by
  unfold SubmitTransfer_Iso
  split
  · exact ⟨hs, rfl⟩
  · have h1 := packet_loop_wf cmd.packet_sizes s 0 hs
    have h2 := replenish_wf (s.packet_loop 0 cmd.packet_sizes).1 camera h1.1
      (by rw [h1.2]; exact hcam)
    exact ⟨h2.1, by rw [← h1.2]; exact h2.2⟩

theorem step_wf (s t : MotionCamera) (memory : Memory) (camera : CameraData) (op : Op)
    (hs : s.WellFormed) (hcam : s.m_image_size ≤ camera.m_image_data.length)
    (h : s.step memory camera op = some t) :
    t.WellFormed ∧ t.m_image_size = s.m_image_size := by
  cases op with
  | ctrl cmd =>
    cases hr : s.SubmitTransfer_Ctrl memory cmd with
    | none => simp [step, hr] at h
    | some r =>
      simp only [step, hr, Option.map_some', Option.some.injEq] at h
      subst h
      rw [ctrl_frame s memory cmd r hr]
      exact ⟨hs, rfl⟩
  | iso cmd =>
    simp only [step, Option.some.injEq] at h
    subst h
    exact iso_wf s memory camera cmd hs hcam
  | attachAndChangeInterface interface =>
    simp only [step, Option.some.injEq, AttachAndChangeInterface, Attach, ChangeInterface] at h
    subst h
    split_ifs <;> exact ⟨hs, rfl⟩
  | bulk cmd => cases h; exact ⟨hs, rfl⟩
  | intr cmd => cases h; exact ⟨hs, rfl⟩
  | attach => cases h; exact ⟨hs, rfl⟩
  | cancelTransfer endpoint => cases h; exact ⟨hs, rfl⟩
  | changeInterface interface => cases h; exact ⟨hs, rfl⟩
  | setAltSetting alt_setting =>
    simp only [step, Option.some.injEq, SetAltSetting] at h
    subst h
    split_ifs <;> exact ⟨hs, rfl⟩

theorem init_wf : MotionCamera.init.WellFormed :=
  ⟨by decide, by decide, List.length_replicate _ _⟩

theorem reachable_wf (s : MotionCamera) (hs : Reachable s) :
    s.WellFormed ∧ s.m_image_size = 153600 := by
  induction hs with
  | init => exact ⟨init_wf, rfl⟩
  | step memory camera op _ hcam hstep ih =>
    have h := step_wf _ _ memory camera op ih.1
      (by rw [ih.2, hcam]; decide) hstep
    exact ⟨h.1, by rw [h.2]; exact ih.2⟩

/-! ## Resolution commit -/

/-- C1 : a `SET_CUR` request (request type `0x21`, request `0x01`) whose unit
(high byte of `wIndex`) is 0 and whose selector (high byte of `wValue`) is
`VS_COMMIT`, with frame index `i` in `1..5` at offset 3 of its data region, is
served and leaves the active size equal to entry `i - 1` of the resolution
table, whatever the state, the other request fields and the other bytes of the
data region are. -/
theorem C1_commit_sets_active_size (s : MotionCamera) (memory : Memory) (cmd : CtrlMessage)
    (commit : List Nat) (i : Nat) (hi : 1 ≤ i ∧ i ≤ 5)
    (htype : cmd.request_type = 0x21) (hreq : cmd.request = 0x01)
    (hunit : cmd.index / 256 % 256 = 0) (hsel : cmd.value / 256 % 256 = 2)
    (hmem : memory.GetPointerForRange cmd.data_address cmd.length = some commit)
    (hidx : commit[3]? = some i) :
    ∃ r, s.SubmitTransfer_Ctrl memory cmd = some r ∧
      some r.state.m_active_size
        = ([⟨640, 480⟩, ⟨320, 240⟩, ⟨160, 120⟩, ⟨176, 144⟩, ⟨352, 288⟩] :
            List UVCImageSize)[i - 1]? := by
  obtain ⟨h1, h5⟩ := hi
  have hu : (cmd.index >>> 8) % 256 = 0 := by
    rw [Nat.shiftRight_eq_div_pow]; exact hunit
  have hv : (cmd.value >>> 8) % 256 = VS_COMMIT := by
    rw [Nat.shiftRight_eq_div_pow]; exact hsel
  have hkey : (cmd.request_type <<< 8) ||| cmd.request = HDR_H2D_CLASS_INTERFACE SET_CUR := by
    rw [htype, hreq]; decide
  have hne : HDR_H2D_CLASS_INTERFACE SET_CUR ≠ HDR_GET_DESCRIPTOR := by decide
  interval_cases i <;>
    simp [SubmitTransfer_Ctrl, hkey, hne, hu, hv, hmem, hidx, offsetof_bFrameIndex,
      supported_size_at, m_supported_sizes, ScheduleTransfer]

/-- Instance of C1 : committing frame index 4 on a fresh device. -/
theorem C1_commit_sets_active_size_witness :
    ∃ r, MotionCamera.init.SubmitTransfer_Ctrl (sample_memory 4) sample_commit = some r ∧
      some r.state.m_active_size
        = ([⟨640, 480⟩, ⟨320, 240⟩, ⟨160, 120⟩, ⟨176, 144⟩, ⟨352, 288⟩] :
            List UVCImageSize)[4 - 1]? :=
  C1_commit_sets_active_size MotionCamera.init (sample_memory 4) sample_commit
    [0, 0, 1, 4, 0x15, 0x16, 0x05, 0x00, 0, 0, 0, 0, 0, 0, 0, 0, 0, 0, 0, 0, 0, 0, 0, 0, 0, 0]
    4 (by decide) rfl rfl (by decide) (by decide) rfl rfl

/-- C2 (evaluation of the code) : a commit whose frame-index byte is 0, 6 or
255 indexes `m_supported_sizes` outside its five entries; the read has no
defined result, so the request does not leave a defined state behind. -/
theorem C2_commit_out_of_range_is_undefined :
    MotionCamera.init.SubmitTransfer_Ctrl (sample_memory 0) sample_commit = none
      ∧ MotionCamera.init.SubmitTransfer_Ctrl (sample_memory 6) sample_commit = none
      ∧ MotionCamera.init.SubmitTransfer_Ctrl (sample_memory 255) sample_commit = none
      ∧ supported_size_at 0 = none ∧ supported_size_at 6 = none := by
  refine ⟨rfl, rfl, rfl, rfl, rfl⟩

/-! ## Frame size and cursor -/

/-- C3 (evaluation of the code) : committing frame index 1 on a fresh device
reaches a state whose active size is 640 x 480 while the frame size used by
the packetizer is still 153600, not 640 * 480 * 2 = 614400. -/
theorem C3_commit_leaves_frame_size :
    ∃ t, MotionCamera.init.step (sample_memory 1) sample_camera (Op.ctrl sample_commit) = some t
      ∧ Reachable t ∧ t.m_active_size = ⟨640, 480⟩ ∧ t.m_image_size = 153600
      ∧ t.m_image_size ≠ t.m_active_size.width * t.m_active_size.height * 2 := by
  have h : MotionCamera.init.step (sample_memory 1) sample_camera (Op.ctrl sample_commit)
      = some { MotionCamera.init with m_active_size := ⟨640, 480⟩ } := rfl
  exact ⟨_, h, Reachable.step _ _ _ Reachable.init (List.length_replicate _ _) h,
    rfl, rfl, by decide⟩

/-- C4 : in every reachable state the cursor is at most the frame size, and
from such a state the cursor stays at most the frame size (which does not
change) after each packet of an isochronous transfer, for arbitrary declared
packet sizes, those below the header size included. -/
theorem C4_cursor_within_frame (s : MotionCamera) (hs : Reachable s)
    (packet_sizes : List Nat) (k : Nat) :
    s.m_image_pos ≤ s.m_image_size
      ∧ (s.packet_loop 0 (packet_sizes.take k)).1.m_image_pos ≤ s.m_image_size
      ∧ (s.packet_loop 0 (packet_sizes.take k)).1.m_image_size = s.m_image_size := by
  have hwf := (reachable_wf s hs).1
  have h := packet_loop_wf (packet_sizes.take k) s 0 hwf
  refine ⟨hwf.2.1, ?_, h.2⟩
  have h2 := h.1.2.1
  rw [h.2] at h2
  exact h2

/-- Instance of C4 : a fresh device and the packet sizes 0, 1, 200. -/
theorem C4_cursor_within_frame_witness :
    MotionCamera.init.m_image_pos ≤ MotionCamera.init.m_image_size
      ∧ (MotionCamera.init.packet_loop 0 ([0, 1, 200].take 2)).1.m_image_pos
          ≤ MotionCamera.init.m_image_size
      ∧ (MotionCamera.init.packet_loop 0 ([0, 1, 200].take 2)).1.m_image_size
          = MotionCamera.init.m_image_size :=
  C4_cursor_within_frame MotionCamera.init Reachable.init [0, 1, 200] 2

/-! ## One packet -/

theorem packet_payload_length (s : MotionCamera) (c : Nat) (hs : s.WellFormed) :
    (s.packet_payload c).length = s.data_size c := by
  obtain ⟨hsz, hpos, hlen⟩ := hs
  have hle := s.data_size_le c hpos hsz
  unfold packet_payload
  split
  · rw [List.length_take, List.length_drop, hlen]
    omega
  · simp only [List.length_nil]
    omega

theorem emit_packet_bytes_length (s : MotionCamera) (p c : Nat) (hs : s.WellFormed) :
    (s.emit_packet p c).bytes.length = 2 + s.data_size c := by
  show ((s.packet_header c).bytes ++ s.packet_payload c).length = _
  rw [List.length_append, packet_payload_length s c hs]
  rfl

/-- C5 : for a packet of declared capacity `c` with `2 ≤ c < 2 ^ 16`, processed
in an isochronous transfer submitted in a reachable state after any earlier
packets `pre` of that transfer, with `r` the frame size minus the cursor
before the packet : the packet carries `n = min (c - 2) r` payload bytes,
reports `2 + n`, and the cursor advances by `n`.  On a fresh device two
packets of capacity 200 each report 200 bytes, neither has end-of-frame set,
and the cursor ends at 396. -/
theorem C5_packet_payload_size (s : MotionCamera) (hs : Reachable s) (pre : List Nat)
    (p c : Nat) (hc2 : 2 ≤ c) (hc : c < 2 ^ 16) (t : MotionCamera)
    (ht : t = (s.packet_loop 0 pre).1) :
    ((t.emit_packet p c).payload.length = min (c - 2) (t.m_image_size - t.m_image_pos)
      ∧ (t.emit_packet p c).return_value = 2 + min (c - 2) (t.m_image_size - t.m_image_pos)
      ∧ (t.after_packet c).m_image_pos
          = t.m_image_pos + min (c - 2) (t.m_image_size - t.m_image_pos))
    ∧ ((MotionCamera.init.packet_loop 0 [200, 200]).2.map IsoPacket.return_value = [200, 200]
      ∧ (MotionCamera.init.packet_loop 0 [200, 200]).2.map
          (fun q => q.header.endOfFrame) = [false, false]
      ∧ MotionCamera.init.m_image_pos = 0
      ∧ (MotionCamera.init.packet_loop 0 [200, 200]).1.m_image_pos = 396) := by
  have hwf : t.WellFormed := by
    rw [ht]; exact (packet_loop_wf pre s 0 (reachable_wf s hs).1).1
  have hd := t.data_size_eq_min c hwf.2.1 hwf.1 hc2 hc
  have hle := t.data_size_le c hwf.2.1 hwf.1
  have hsz := hwf.1
  refine ⟨⟨?_, ?_, ?_⟩, by decide, by decide, rfl, by decide⟩
  · show (t.packet_payload c).length = _
    rw [packet_payload_length t c hwf, hd]
  · show (sizeof_UVCHeader + t.data_size c) % 2 ^ 32 = _
    rw [← hd]
    unfold sizeof_UVCHeader
    apply Nat.mod_eq_of_lt
    norm_num at hsz hc ⊢
    omega
  · rw [after_packet_pos t c hwf, hd]

/-- Instance of C5 : the third packet (capacity 512) of a transfer submitted
on a fresh device. -/
theorem C5_packet_payload_size_witness :
    ((((MotionCamera.init.packet_loop 0 [200, 200]).1.emit_packet 400 512).payload.length
        = min (512 - 2) ((MotionCamera.init.packet_loop 0 [200, 200]).1.m_image_size
            - (MotionCamera.init.packet_loop 0 [200, 200]).1.m_image_pos)
      ∧ ((MotionCamera.init.packet_loop 0 [200, 200]).1.emit_packet 400 512).return_value
        = 2 + min (512 - 2) ((MotionCamera.init.packet_loop 0 [200, 200]).1.m_image_size
            - (MotionCamera.init.packet_loop 0 [200, 200]).1.m_image_pos)
      ∧ ((MotionCamera.init.packet_loop 0 [200, 200]).1.after_packet 512).m_image_pos
        = (MotionCamera.init.packet_loop 0 [200, 200]).1.m_image_pos
          + min (512 - 2) ((MotionCamera.init.packet_loop 0 [200, 200]).1.m_image_size
            - (MotionCamera.init.packet_loop 0 [200, 200]).1.m_image_pos))
    ∧ ((MotionCamera.init.packet_loop 0 [200, 200]).2.map IsoPacket.return_value = [200, 200]
      ∧ (MotionCamera.init.packet_loop 0 [200, 200]).2.map
          (fun q => q.header.endOfFrame) = [false, false]
      ∧ MotionCamera.init.m_image_pos = 0
      ∧ (MotionCamera.init.packet_loop 0 [200, 200]).1.m_image_pos = 396)) :=
  C5_packet_payload_size MotionCamera.init Reachable.init [200, 200] 400 512
    (by decide) (by decide) _ rfl

/-- C6 (evaluation of the code) : on a fresh device a packet of declared
capacity 0 or 1 is written with the 2-byte header and all 153600 remaining
frame bytes (153602 bytes in all) and reports 153602; once the cursor is at
the frame end such a packet still reports 2.  Both exceed the declared
capacity. -/
theorem C6_small_packet_overrun :
    (MotionCamera.init.emit_packet 0 0).return_value = 153602
      ∧ (MotionCamera.init.emit_packet 0 1).return_value = 153602
      ∧ (MotionCamera.init.emit_packet 0 0).bytes.length = 153602
      ∧ (MotionCamera.init.emit_packet 0 1).bytes.length = 153602
      ∧ ((MotionCamera.init.after_packet 0).emit_packet 153602 0).return_value = 2
      ∧ ¬ (MotionCamera.init.emit_packet 0 0).return_value ≤ 0
      ∧ ¬ (MotionCamera.init.emit_packet 0 1).return_value ≤ 1
      ∧ ¬ ((MotionCamera.init.after_packet 0).emit_packet 153602 0).return_value ≤ 0 := by
  refine ⟨by decide, by decide, ?_, ?_, by decide, by decide, by decide, by decide⟩
  · rw [emit_packet_bytes_length _ 0 0 init_wf]; decide
  · rw [emit_packet_bytes_length _ 0 1 init_wf]; decide

/-! ## The packet loop -/

theorem packet_loop_fst_offset (caps : List Nat) :
    ∀ (s : MotionCamera) (p q : Nat), (s.packet_loop p caps).1 = (s.packet_loop q caps).1 := by
  induction caps with
  | nil => intro s p q; rfl
  | cons c rest ih => intro s p q; exact ih _ _ _

theorem packet_loop_content_offset (caps : List Nat) :
    ∀ (s : MotionCamera) (p q : Nat),
      (s.packet_loop p caps).2.map IsoPacket.content
        = (s.packet_loop q caps).2.map IsoPacket.content := by
  induction caps with
  | nil => intro s p q; rfl
  | cons c rest ih =>
    intro s p q
    show (s.emit_packet p c).content :: _ = (s.emit_packet q c).content :: _
    rw [ih (s.after_packet c) _ (q + sizeof_UVCHeader + s.data_size c)]
    rfl

theorem packet_loop_length (caps : List Nat) :
    ∀ (s : MotionCamera) (p : Nat), (s.packet_loop p caps).2.length = caps.length := by
  induction caps with
  | nil => intro s p; rfl
  | cons c rest ih =>
    intro s p
    show ((s.after_packet c).packet_loop _ rest).2.length + 1 = rest.length + 1
    rw [ih]

theorem packet_loop_append_fst (a b : List Nat) :
    ∀ (s : MotionCamera) (p : Nat),
      (s.packet_loop p (a ++ b)).1 = ((s.packet_loop p a).1.packet_loop 0 b).1 := by
  induction a with
  | nil => intro s p; exact packet_loop_fst_offset b s p 0
  | cons c rest ih => intro s p; exact ih _ _

theorem packet_loop_append_content (a b : List Nat) :
    ∀ (s : MotionCamera) (p : Nat),
      (s.packet_loop p (a ++ b)).2.map IsoPacket.content
        = (s.packet_loop p a).2.map IsoPacket.content
          ++ ((s.packet_loop p a).1.packet_loop 0 b).2.map IsoPacket.content := by
  induction a with
  | nil => intro s p; exact packet_loop_content_offset b s p 0
  | cons c rest ih =>
    intro s p
    have h := ih (s.after_packet c) (p + sizeof_UVCHeader + s.data_size c)
    show (s.emit_packet p c).content ::
        ((s.after_packet c).packet_loop _ (rest ++ b)).2.map IsoPacket.content = _
    rw [h]
    rfl

theorem payload_capacity_cons (c : Nat) (rest : List Nat) :
    payload_capacity (c :: rest) = (c - 2) + payload_capacity rest := by
  simp [payload_capacity, sizeof_UVCHeader]

theorem payload_capacity_append (a b : List Nat) :
    payload_capacity (a ++ b) = payload_capacity a + payload_capacity b := by
  simp [payload_capacity]

theorem completes_frame_iff (s : MotionCamera) (c : Nat) (hs : s.WellFormed)
    (hc2 : 2 ≤ c) (hc : c < 2 ^ 16) :
    s.completes_frame c = true
      ↔ s.m_image_pos < s.m_image_size ∧ s.m_image_size ≤ s.m_image_pos + (c - 2) := by
  have hd := s.data_size_eq_min c hs.2.1 hs.1 hc2 hc
  obtain ⟨hsz, hpos, _⟩ := hs
  unfold completes_frame
  rw [decide_eq_true_iff, hd, Nat.mod_eq_of_lt (by omega)]
  omega

theorem after_packet_frame_id (s : MotionCamera) (c : Nat) :
    (s.after_packet c).m_frame_id
      = if s.completes_frame c then !s.m_frame_id else s.m_frame_id := rfl

theorem packet_loop_frame (caps : List Nat) :
    ∀ (s : MotionCamera) (p : Nat),
      (s.packet_loop p caps).1
        = { s with m_image_pos := (s.packet_loop p caps).1.m_image_pos
                   m_frame_id := (s.packet_loop p caps).1.m_frame_id } := by
  induction caps with
  | nil => intro s p; rfl
  | cons c rest ih =>
    intro s p
    have h := ih (s.after_packet c) (p + sizeof_UVCHeader + s.data_size c)
    show ((s.after_packet c).packet_loop _ rest).1 = _
    rw [h]
    rfl

theorem packet_loop_pos (caps : List Nat) :
    ∀ (s : MotionCamera) (p : Nat), s.WellFormed → (∀ c ∈ caps, 2 ≤ c ∧ c < 2 ^ 16) →
      (s.packet_loop p caps).1.m_image_pos
        = min s.m_image_size (s.m_image_pos + payload_capacity caps) := by
  induction caps with
  | nil =>
    intro s p hs _
    show s.m_image_pos = _
    have := hs.2.1
    simp [payload_capacity]
    omega
  | cons c rest ih =>
    intro s p hs hc
    have hc1 := hc c (List.mem_cons_self _ _)
    have h := ih (s.after_packet c) (p + sizeof_UVCHeader + s.data_size c)
      (s.after_packet_wf c hs) (fun x hx => hc x (List.mem_cons_of_mem _ hx))
    show ((s.after_packet c).packet_loop _ rest).1.m_image_pos = _
    rw [h, after_packet_pos s c hs, s.data_size_eq_min c hs.2.1 hs.1 hc1.1 hc1.2,
      payload_capacity_cons]
    show min s.m_image_size _ = _
    have := hs.2.1
    omega

theorem packet_loop_frame_id (caps : List Nat) :
    ∀ (s : MotionCamera) (p : Nat), s.WellFormed → (∀ c ∈ caps, 2 ≤ c ∧ c < 2 ^ 16) →
      (s.packet_loop p caps).1.m_frame_id
        = if s.m_image_pos < s.m_image_size
              ∧ s.m_image_size ≤ s.m_image_pos + payload_capacity caps
          then !s.m_frame_id else s.m_frame_id := by
  induction caps with
  | nil =>
    intro s p hs _
    show s.m_frame_id = _
    have : ¬ (s.m_image_pos < s.m_image_size
        ∧ s.m_image_size ≤ s.m_image_pos + payload_capacity []) := by
      simp [payload_capacity]
    rw [if_neg this]
  | cons c rest ih =>
    intro s p hs hc
    have hc1 := hc c (List.mem_cons_self _ _)
    have h := ih (s.after_packet c) (p + sizeof_UVCHeader + s.data_size c)
      (s.after_packet_wf c hs) (fun x hx => hc x (List.mem_cons_of_mem _ hx))
    have hpos := after_packet_pos s c hs
    have hd := s.data_size_eq_min c hs.2.1 hs.1 hc1.1 hc1.2
    have hcf := completes_frame_iff s c hs hc1.1 hc1.2
    have hle := hs.2.1
    show ((s.after_packet c).packet_loop _ rest).1.m_frame_id = _
    rw [h, hpos, hd, payload_capacity_cons, after_packet_frame_id]
    have hsz : (s.after_packet c).m_image_size = s.m_image_size := rfl
    rw [hsz]
    by_cases h1 : s.m_image_pos < s.m_image_size ∧ s.m_image_size ≤ s.m_image_pos + (c - 2)
    · have h2 : ¬ (s.m_image_pos + min (c - 2) (s.m_image_size - s.m_image_pos)
          < s.m_image_size
          ∧ s.m_image_size ≤ s.m_image_pos + min (c - 2) (s.m_image_size - s.m_image_pos)
              + payload_capacity rest) := by omega
      have h3 : s.m_image_pos < s.m_image_size
          ∧ s.m_image_size ≤ s.m_image_pos + (c - 2 + payload_capacity rest) := by omega
      rw [if_neg h2, if_pos h3, hcf.mpr h1]
      rfl
    · have h4 : s.completes_frame c = false := by
        cases hb : s.completes_frame c with
        | false => rfl
        | true => exact absurd (hcf.mp hb) h1
      rw [h4]
      simp only [Bool.false_eq_true, if_false]
      by_cases h5 : s.m_image_pos < s.m_image_size
          ∧ s.m_image_size ≤ s.m_image_pos + (c - 2 + payload_capacity rest)
      · have h6 : s.m_image_pos + min (c - 2) (s.m_image_size - s.m_image_pos)
            < s.m_image_size
            ∧ s.m_image_size ≤ s.m_image_pos + min (c - 2) (s.m_image_size - s.m_image_pos)
                + payload_capacity rest := by omega
        rw [if_pos h6, if_pos h5]
      · have h6 : ¬ (s.m_image_pos + min (c - 2) (s.m_image_size - s.m_image_pos)
            < s.m_image_size
            ∧ s.m_image_size ≤ s.m_image_pos + min (c - 2) (s.m_image_size - s.m_image_pos)
                + payload_capacity rest) := by omega
        rw [if_neg h6, if_neg h5]

theorem packet_loop_get (caps : List Nat) :
    ∀ (s : MotionCamera) (p j c : Nat), caps[j]? = some c →
      ((s.packet_loop p caps).2.map IsoPacket.content)[j]?
        = some ((s.packet_loop 0 (caps.take j)).1.emit_packet 0 c).content := by
  induction caps with
  | nil => intro s p j c h; simp at h
  | cons x rest ih =>
    intro s p j c h
    cases j with
    | zero =>
      simp only [List.getElem?_cons_zero, Option.some.injEq] at h
      subst h
      show (((s.emit_packet p x).content ::
        ((s.after_packet x).packet_loop _ rest).2.map IsoPacket.content))[0]? = _
      rw [List.getElem?_cons_zero]
      rfl
    | succ i =>
      simp only [List.getElem?_cons_succ] at h
      have h1 := ih (s.after_packet x) (p + sizeof_UVCHeader + s.data_size x) i c h
      show (((s.emit_packet p x).content ::
        ((s.after_packet x).packet_loop _ rest).2.map IsoPacket.content))[i + 1]? = _
      rw [List.getElem?_cons_succ, h1]
      have h2 : (s.packet_loop 0 ((x :: rest).take (i + 1))).1
          = ((s.after_packet x).packet_loop 0 (rest.take i)).1 :=
        packet_loop_fst_offset (rest.take i) (s.after_packet x) _ 0
      rw [h2]

theorem payload_capacity_take_succ (caps : List Nat) :
    ∀ (j c : Nat), caps[j]? = some c →
      payload_capacity (caps.take (j + 1)) = payload_capacity (caps.take j) + (c - 2) := by
  induction caps with
  | nil => intro j c h; simp at h
  | cons x rest ih =>
    intro j c h
    cases j with
    | zero =>
      simp only [List.getElem?_cons_zero, Option.some.injEq] at h
      subst h
      simp [payload_capacity, sizeof_UVCHeader]
    | succ i =>
      simp only [List.getElem?_cons_succ] at h
      have h1 := ih i c h
      simp only [List.take_succ_cons, payload_capacity_cons]
      rw [h1]
      omega

theorem payload_capacity_take_mono (caps : List Nat) :
    ∀ (a b : Nat), a ≤ b → payload_capacity (caps.take a) ≤ payload_capacity (caps.take b) := by
  induction caps with
  | nil => intro a b _; simp [payload_capacity]
  | cons x rest ih =>
    intro a b hab
    cases a with
    | zero => simp [payload_capacity]
    | succ i =>
      cases b with
      | zero => omega
      | succ k =>
        simp only [List.take_succ_cons, payload_capacity_cons]
        have := ih i k (by omega)
        omega

theorem payload_capacity_take_le (caps : List Nat) (a : Nat) :
    payload_capacity (caps.take a) ≤ payload_capacity caps := by
  have h := payload_capacity_take_mono caps a caps.length
  by_cases ha : a ≤ caps.length
  · have h1 := h ha
    rwa [List.take_length] at h1
  · rw [List.take_of_length_le (by omega)]

theorem exists_first_reach (caps : List Nat) :
    ∀ (T : Nat), 0 < T → T ≤ payload_capacity caps →
      ∃ k, k < caps.length ∧ payload_capacity (caps.take k) < T
        ∧ T ≤ payload_capacity (caps.take (k + 1)) := by
  induction caps with
  | nil => intro T h0 h; simp [payload_capacity] at h; omega
  | cons x rest ih =>
    intro T h0 h
    rw [payload_capacity_cons] at h
    by_cases hx : T ≤ x - 2
    · refine ⟨0, by simp, by simpa [payload_capacity] using h0, ?_⟩
      simp [payload_capacity, sizeof_UVCHeader]
      exact hx
    · obtain ⟨k, hk, h1, h2⟩ := ih (T - (x - 2)) (by omega) (by omega)
      refine ⟨k + 1, by simpa using hk, ?_, ?_⟩
      · simp only [List.take_succ_cons, payload_capacity_cons]; omega
      · simp only [List.take_succ_cons, payload_capacity_cons]; omega

/-! ## Successive transfers -/

theorem iso_resolved (s : MotionCamera) (memory : Memory) (camera : CameraData)
    (cmd : IsoMessage)
    (h : memory.GetPointerForRange cmd.data_address cmd.length ≠ none) :
    s.SubmitTransfer_Iso memory camera cmd
      = { state := (s.packet_loop 0 cmd.packet_sizes).1.replenish camera
          packets := (s.packet_loop 0 cmd.packet_sizes).2
          completion := some (IPC_SUCCESS, 33000)
          ret := IPC_SUCCESS } := by
  unfold SubmitTransfer_Iso
  split
  · rename_i h1; exact absurd h1 h
  · rfl

theorem replenish_of_ne (s : MotionCamera) (camera : CameraData)
    (h : s.m_image_pos ≠ s.m_image_size) : s.replenish camera = s := by
  unfold replenish
  rw [if_neg h]

theorem all_packet_sizes_append (a b : List IsoSubmission) :
    all_packet_sizes (a ++ b) = all_packet_sizes a ++ all_packet_sizes b := by
  induction a with
  | nil => rfl
  | cons e rest ih =>
    show e.cmd.packet_sizes ++ all_packet_sizes (rest ++ b)
      = (e.cmd.packet_sizes ++ all_packet_sizes rest) ++ all_packet_sizes b
    rw [ih, List.append_assoc]

theorem iso_run_no_complete (pre : List IsoSubmission) :
    ∀ (s : MotionCamera), s.WellFormed →
      (∀ e ∈ pre, e.memory.GetPointerForRange e.cmd.data_address e.cmd.length ≠ none) →
      (∀ c ∈ all_packet_sizes pre, 2 ≤ c ∧ c < 2 ^ 16) →
      s.m_image_pos + payload_capacity (all_packet_sizes pre) < s.m_image_size →
      (s.iso_run pre).1 = (s.packet_loop 0 (all_packet_sizes pre)).1
        ∧ (s.iso_run pre).2.map IsoPacket.content
            = (s.packet_loop 0 (all_packet_sizes pre)).2.map IsoPacket.content := by
  induction pre with
  | nil => intro s _ _ _ _; exact ⟨rfl, rfl⟩
  | cons e rest ih =>
    intro s hs hres hc hlt
    have hres1 := hres e (List.mem_cons_self _ _)
    have hall : all_packet_sizes (e :: rest) = e.cmd.packet_sizes ++ all_packet_sizes rest := rfl
    rw [hall] at hc hlt ⊢
    rw [payload_capacity_append] at hlt
    have hc1 : ∀ c ∈ e.cmd.packet_sizes, 2 ≤ c ∧ c < 2 ^ 16 :=
      fun c h => hc c (List.mem_append_left _ h)
    have hc2 : ∀ c ∈ all_packet_sizes rest, 2 ≤ c ∧ c < 2 ^ 16 :=
      fun c h => hc c (List.mem_append_right _ h)
    have hwf1 := packet_loop_wf e.cmd.packet_sizes s 0 hs
    have hpos1 := packet_loop_pos e.cmd.packet_sizes s 0 hs hc1
    have hne : (s.packet_loop 0 e.cmd.packet_sizes).1.m_image_pos
        ≠ (s.packet_loop 0 e.cmd.packet_sizes).1.m_image_size := by
      rw [hpos1, hwf1.2]; omega
    have hiso := iso_resolved s e.memory e.camera e.cmd hres1
    rw [replenish_of_ne _ _ hne] at hiso
    have hrun1 : (s.iso_run (e :: rest)).1
        = ((s.SubmitTransfer_Iso e.memory e.camera e.cmd).state.iso_run rest).1 := rfl
    have hrun2 : (s.iso_run (e :: rest)).2
        = (s.SubmitTransfer_Iso e.memory e.camera e.cmd).packets
          ++ ((s.SubmitTransfer_Iso e.memory e.camera e.cmd).state.iso_run rest).2 := rfl
    rw [hrun1, hrun2, hiso]
    have h := ih (s.packet_loop 0 e.cmd.packet_sizes).1 hwf1.1
      (fun x hx => hres x (List.mem_cons_of_mem _ hx)) hc2
      (by rw [hpos1, hwf1.2]; omega)
    refine ⟨?_, ?_⟩
    · show ((s.packet_loop 0 e.cmd.packet_sizes).1.iso_run rest).1 = _
      rw [h.1, packet_loop_append_fst]
    · show ((s.packet_loop 0 e.cmd.packet_sizes).2
        ++ ((s.packet_loop 0 e.cmd.packet_sizes).1.iso_run rest).2).map IsoPacket.content = _
      rw [List.map_append, h.2, packet_loop_append_content]

theorem iso_run_append (a b : List IsoSubmission) :
    ∀ (s : MotionCamera),
      (s.iso_run (a ++ b)).1 = ((s.iso_run a).1.iso_run b).1
        ∧ (s.iso_run (a ++ b)).2 = (s.iso_run a).2 ++ ((s.iso_run a).1.iso_run b).2 := by
  induction a with
  | nil => intro s; exact ⟨rfl, rfl⟩
  | cons e rest ih =>
    intro s
    have h := ih (s.SubmitTransfer_Iso e.memory e.camera e.cmd).state
    refine ⟨h.1, ?_⟩
    show (s.SubmitTransfer_Iso e.memory e.camera e.cmd).packets
      ++ ((s.SubmitTransfer_Iso e.memory e.camera e.cmd).state.iso_run (rest ++ b)).2
      = ((s.SubmitTransfer_Iso e.memory e.camera e.cmd).packets
        ++ ((s.SubmitTransfer_Iso e.memory e.camera e.cmd).state.iso_run rest).2) ++ _
    rw [h.2, List.append_assoc]
    rfl

theorem packet_payload_eq (s : MotionCamera) (c : Nat) :
    s.packet_payload c = (s.m_image_data.drop s.m_image_pos).take (s.data_size c) := by
  unfold packet_payload
  split
  · rfl
  · have h : s.data_size c = 0 := by omega
    rw [h, List.take_zero]

theorem packet_loop_payload_flatten (caps : List Nat) :
    ∀ (s : MotionCamera) (p : Nat), s.WellFormed → (∀ c ∈ caps, 2 ≤ c ∧ c < 2 ^ 16) →
      ((s.packet_loop p caps).2.map IsoPacket.payload).flatten
        = (s.m_image_data.drop s.m_image_pos).take
            (min (s.m_image_size - s.m_image_pos) (payload_capacity caps)) := by
  induction caps with
  | nil =>
    intro s p _ _
    simp [packet_loop, payload_capacity]
  | cons c rest ih =>
    intro s p hs hc
    have hc1 := hc c (List.mem_cons_self _ _)
    have h := ih (s.after_packet c) (p + sizeof_UVCHeader + s.data_size c)
      (s.after_packet_wf c hs) (fun x hx => hc x (List.mem_cons_of_mem _ hx))
    have hpos := after_packet_pos s c hs
    have hd := s.data_size_eq_min c hs.2.1 hs.1 hc1.1 hc1.2
    have hle := hs.2.1
    have hdata : (s.after_packet c).m_image_data = s.m_image_data := rfl
    have hsz : (s.after_packet c).m_image_size = s.m_image_size := rfl
    show (s.packet_payload c :: ((s.after_packet c).packet_loop _ rest).2.map
      IsoPacket.payload).flatten = _
    rw [List.flatten_cons, h, hdata, hsz, hpos, packet_payload_eq, payload_capacity_cons,
      ← List.drop_drop, ← List.take_add]
    congr 1
    rw [hd]
    omega

theorem iso_run_drain (s : MotionCamera) (pre : List IsoSubmission) (last : IsoSubmission)
    (hs : s.WellFormed)
    (hres : ∀ e ∈ pre ++ [last],
      e.memory.GetPointerForRange e.cmd.data_address e.cmd.length ≠ none)
    (hc : ∀ c ∈ all_packet_sizes (pre ++ [last]), 2 ≤ c ∧ c < 2 ^ 16)
    (hpre : s.m_image_pos + payload_capacity (all_packet_sizes pre) < s.m_image_size) :
    (s.iso_run (pre ++ [last])).2.map IsoPacket.content
        = (s.packet_loop 0 (all_packet_sizes (pre ++ [last]))).2.map IsoPacket.content
      ∧ (s.iso_run (pre ++ [last])).1
        = (s.packet_loop 0 (all_packet_sizes (pre ++ [last]))).1.replenish last.camera := by
  have hall : all_packet_sizes (pre ++ [last])
      = all_packet_sizes pre ++ last.cmd.packet_sizes := by
    rw [all_packet_sizes_append]
    show _ ++ (last.cmd.packet_sizes ++ []) = _
    rw [List.append_nil]
  rw [hall] at hc ⊢
  have h1 := iso_run_no_complete pre s hs
    (fun e he => hres e (List.mem_append_left _ he))
    (fun c h => hc c (List.mem_append_left _ h)) hpre
  have h2 := iso_run_append pre [last] s
  have hiso := iso_resolved (s.iso_run pre).1 last.memory last.camera last.cmd
    (hres last (by simp))
  have hl1 : ((s.iso_run pre).1.iso_run [last]).1
      = ((s.iso_run pre).1.SubmitTransfer_Iso last.memory last.camera last.cmd).state := rfl
  have hl2 : ((s.iso_run pre).1.iso_run [last]).2
      = ((s.iso_run pre).1.SubmitTransfer_Iso last.memory last.camera last.cmd).packets
        ++ [] := rfl
  rw [h2.1, h2.2, hl1, hl2, hiso, h1.1, List.append_nil, List.map_append, h1.2,
    packet_loop_append_content, packet_loop_append_fst]
  exact ⟨rfl, rfl⟩

theorem packet_loop_take (caps : List Nat) :
    ∀ (s : MotionCamera) (p n : Nat),
      (s.packet_loop p caps).2.take n = (s.packet_loop p (caps.take n)).2 := by
  induction caps with
  | nil => intro s p n; simp [packet_loop]
  | cons c rest ih =>
    intro s p n
    cases n with
    | zero => rfl
    | succ m =>
      show s.emit_packet p c :: ((s.after_packet c).packet_loop _ rest).2.take m = _
      rw [ih]
      rfl

theorem packet_header_endOfFrame (s : MotionCamera) (c : Nat) :
    (s.packet_header c).endOfFrame = s.completes_frame c := by
  unfold packet_header
  cases h : s.completes_frame c <;> simp [UVCHeader.zero]

theorem packet_header_frameId (s : MotionCamera) (c : Nat) :
    (s.packet_header c).frameId = s.m_frame_id := by
  unfold packet_header
  cases h : s.completes_frame c <;> simp

theorem content_get (packets reference : List IsoPacket) (j : Nat) (q : IsoPacket)
    (h : packets.map IsoPacket.content = reference.map IsoPacket.content)
    (hq : packets[j]? = some q) :
    (reference.map IsoPacket.content)[j]? = some q.content := by
  rw [← h, List.getElem?_map, hq]
  rfl

theorem drain_get (s : MotionCamera) (caps : List Nat) (packets : List IsoPacket)
    (h : packets.map IsoPacket.content = (s.packet_loop 0 caps).2.map IsoPacket.content)
    (j : Nat) (q : IsoPacket) (hq : packets[j]? = some q) :
    ∃ c, caps[j]? = some c
      ∧ q.header = (s.packet_loop 0 (caps.take j)).1.packet_header c
      ∧ q.payload = (s.packet_loop 0 (caps.take j)).1.packet_payload c := by
  have h1 := content_get packets _ j q h hq
  have hlen : j < caps.length := by
    have h2 : j < ((s.packet_loop 0 caps).2.map IsoPacket.content).length := by
      by_contra hn
      rw [List.getElem?_eq_none (by omega)] at h1
      cases h1
    rwa [List.length_map, packet_loop_length] at h2
  refine ⟨caps[j], List.getElem?_eq_getElem hlen, ?_⟩
  have h3 := packet_loop_get caps s 0 j caps[j] (List.getElem?_eq_getElem hlen)
  rw [h1, Option.some.injEq] at h3
  have h4 : q.header = (q.content).1 := rfl
  have h5 : q.payload = (q.content).2.1 := rfl
  rw [h4, h5, h3]
  exact ⟨rfl, rfl⟩

theorem drain_endOfFrame (s : MotionCamera) (caps : List Nat) (hs : s.WellFormed)
    (hc : ∀ c ∈ caps, 2 ≤ c ∧ c < 2 ^ 16) (j c : Nat) (hj : caps[j]? = some c) :
    (s.packet_loop 0 (caps.take j)).1.completes_frame c = true
      ↔ s.m_image_pos + payload_capacity (caps.take j) < s.m_image_size
        ∧ s.m_image_size ≤ s.m_image_pos + payload_capacity (caps.take (j + 1)) := by
  have hct : ∀ x ∈ caps.take j, 2 ≤ x ∧ x < 2 ^ 16 :=
    fun x hx => hc x (List.mem_of_mem_take hx)
  have hcj : 2 ≤ c ∧ c < 2 ^ 16 := hc c (List.getElem?_mem hj)
  have hwf := packet_loop_wf (caps.take j) s 0 hs
  have hpos := packet_loop_pos (caps.take j) s 0 hs hct
  rw [completes_frame_iff _ c hwf.1 hcj.1 hcj.2, hwf.2, hpos,
    payload_capacity_take_succ caps j c hj]
  have := hs.2.1
  omega

/-! ## Draining one frame -/

theorem drain_master (s : MotionCamera) (pre : List IsoSubmission) (last : IsoSubmission)
    (hs : s.WellFormed) (hpos : s.m_image_pos = 0) (hS : 0 < s.m_image_size)
    (hres : ∀ e ∈ pre ++ [last],
      e.memory.GetPointerForRange e.cmd.data_address e.cmd.length ≠ none)
    (hc : ∀ c ∈ all_packet_sizes (pre ++ [last]), 2 ≤ c ∧ c < 2 ^ 16)
    (hpre : payload_capacity (all_packet_sizes pre) < s.m_image_size)
    (hall : s.m_image_size ≤ payload_capacity (all_packet_sizes (pre ++ [last]))) :
    ∃ k, k < (s.iso_run (pre ++ [last])).2.length
      ∧ payload_capacity ((all_packet_sizes (pre ++ [last])).take k) < s.m_image_size
      ∧ s.m_image_size ≤ payload_capacity ((all_packet_sizes (pre ++ [last])).take (k + 1))
      ∧ ∀ j q, (s.iso_run (pre ++ [last])).2[j]? = some q →
          (q.header.endOfFrame = true ↔ j = k)
          ∧ q.header.frameId = (if k < j then !s.m_frame_id else s.m_frame_id) := by
  have hd := iso_run_drain s pre last hs hres hc (by rw [hpos]; omega)
  obtain ⟨k, hk, hk1, hk2⟩ := exists_first_reach (all_packet_sizes (pre ++ [last]))
    s.m_image_size hS hall
  have hlen : (s.iso_run (pre ++ [last])).2.length
      = (all_packet_sizes (pre ++ [last])).length := by
    have := congrArg List.length hd.1
    rwa [List.length_map, List.length_map, packet_loop_length] at this
  refine ⟨k, by rw [hlen]; exact hk, hk1, hk2, ?_⟩
  intro j q hq
  obtain ⟨c, hcj, hhdr, _⟩ := drain_get s _ _ hd.1 j q hq
  have heof := drain_endOfFrame s _ hs hc j c hcj
  have hfid := packet_loop_frame_id ((all_packet_sizes (pre ++ [last])).take j) s 0 hs
    (fun x hx => hc x (List.mem_of_mem_take hx))
  rw [hpos] at heof hfid
  simp only [Nat.zero_add] at heof hfid
  rw [hhdr, packet_header_endOfFrame, packet_header_frameId, heof, hfid]
  have hmono := payload_capacity_take_mono (all_packet_sizes (pre ++ [last]))
  refine ⟨⟨fun h => ?_, fun h => by subst h; exact ⟨hk1, hk2⟩⟩, ?_⟩
  · by_contra hne
    rcases Nat.lt_or_gt_of_ne hne with hlt | hgt
    · have := hmono (j + 1) k (by omega); omega
    · have := hmono (k + 1) j (by omega); omega
  · by_cases hkj : k < j
    · have := hmono (k + 1) j (by omega)
      rw [if_pos hkj, if_pos ⟨hS, by omega⟩]
    · have := hmono j k (by omega)
      rw [if_neg hkj, if_neg (by omega)]

/-- C7 : a frame of size `S > 0` is drained from cursor 0 by successive
resolved isochronous submissions `pre ++ [last]` whose packets all have
capacity at least 2, the payload capacities of `pre` summing to less than `S`
(so the frame is not replaced before `last`, whose packet loop ends the
drain) and those of all submissions to at least `S`.  Then exactly one of the
emitted packets has the end-of-frame bit set : the packet with index `k`, the
first index at which the cumulative payload capacity reaches `S`. -/
theorem C7_one_end_of_frame_per_frame (s : MotionCamera) (pre : List IsoSubmission)
    (last : IsoSubmission)
    (hs : s.WellFormed) (hpos : s.m_image_pos = 0) (hS : 0 < s.m_image_size)
    (hres : ∀ e ∈ pre ++ [last],
      e.memory.GetPointerForRange e.cmd.data_address e.cmd.length ≠ none)
    (hc : ∀ c ∈ all_packet_sizes (pre ++ [last]), 2 ≤ c ∧ c < 2 ^ 16)
    (hpre : payload_capacity (all_packet_sizes pre) < s.m_image_size)
    (hall : s.m_image_size ≤ payload_capacity (all_packet_sizes (pre ++ [last]))) :
    (s.iso_run pre).1.m_image_data = s.m_image_data
    ∧ ∃ k, k < (s.iso_run (pre ++ [last])).2.length
      ∧ payload_capacity ((all_packet_sizes (pre ++ [last])).take k) < s.m_image_size
      ∧ s.m_image_size ≤ payload_capacity ((all_packet_sizes (pre ++ [last])).take (k + 1))
      ∧ ∀ j q, (s.iso_run (pre ++ [last])).2[j]? = some q →
          (q.header.endOfFrame = true ↔ j = k) := by
  have hall2 : all_packet_sizes (pre ++ [last])
      = all_packet_sizes pre ++ last.cmd.packet_sizes := by
    rw [all_packet_sizes_append]
    show _ ++ (last.cmd.packet_sizes ++ []) = _
    rw [List.append_nil]
  have h1 := iso_run_no_complete pre s hs
    (fun e he => hres e (List.mem_append_left _ he))
    (fun c h => hc c (by rw [hall2]; exact List.mem_append_left _ h))
    (by rw [hpos]; omega)
  obtain ⟨k, hk, hk1, hk2, hk3⟩ := drain_master s pre last hs hpos hS hres hc hpre hall
  refine ⟨?_, k, hk, hk1, hk2, fun j q hq => (hk3 j q hq).1⟩
  rw [h1.1, packet_loop_frame]

theorem sample_iso_resolves (l : List IsoSubmission) (h : ∀ e ∈ l, e = sample_iso) :
    ∀ e ∈ l, e.memory.GetPointerForRange e.cmd.data_address e.cmd.length ≠ none := by
  intro e he
  rw [h e he]
  simp [sample_iso, sample_memory]

/-- Instance of C7 : a fresh device (frame size 153600) and three submissions
of 20 packets of 3072 bytes each; the end-of-frame packet is number 50 of the
60 packets. -/
theorem C7_one_end_of_frame_per_frame_witness :
    (MotionCamera.init.iso_run [sample_iso, sample_iso]).1.m_image_data
        = MotionCamera.init.m_image_data
    ∧ ∃ k, k < (MotionCamera.init.iso_run ([sample_iso, sample_iso] ++ [sample_iso])).2.length
      ∧ payload_capacity ((all_packet_sizes ([sample_iso, sample_iso] ++ [sample_iso])).take k)
          < MotionCamera.init.m_image_size
      ∧ MotionCamera.init.m_image_size
          ≤ payload_capacity
              ((all_packet_sizes ([sample_iso, sample_iso] ++ [sample_iso])).take (k + 1))
      ∧ ∀ j q, (MotionCamera.init.iso_run ([sample_iso, sample_iso] ++ [sample_iso])).2[j]?
          = some q → (q.header.endOfFrame = true ↔ j = k) :=
  C7_one_end_of_frame_per_frame MotionCamera.init [sample_iso, sample_iso] sample_iso
    init_wf rfl (by decide)
    (sample_iso_resolves _ (by simp))
    (by decide) (by decide) (by decide)

/-! ## Frame parity -/

theorem replenish_frame_id (s : MotionCamera) (camera : CameraData) :
    (s.replenish camera).m_frame_id = s.m_frame_id := by
  unfold replenish
  split <;> rfl

theorem step_frame_id (s t : MotionCamera) (memory : Memory) (camera : CameraData) (op : Op)
    (hop : ∀ cmd, op ≠ Op.iso cmd) (h : s.step memory camera op = some t) :
    t.m_frame_id = s.m_frame_id := by
  cases op with
  | ctrl cmd =>
    cases hr : s.SubmitTransfer_Ctrl memory cmd with
    | none => simp [step, hr] at h
    | some r =>
      simp only [step, hr, Option.map_some', Option.some.injEq] at h
      subst h
      rw [ctrl_frame s memory cmd r hr]
  | iso cmd => exact absurd rfl (hop cmd)
  | attachAndChangeInterface interface =>
    simp only [step, Option.some.injEq, AttachAndChangeInterface, Attach, ChangeInterface] at h
    subst h
    split_ifs <;> rfl
  | bulk cmd => cases h; rfl
  | intr cmd => cases h; rfl
  | attach => cases h; rfl
  | cancelTransfer endpoint => cases h; rfl
  | changeInterface interface => cases h; rfl
  | setAltSetting alt_setting =>
    simp only [step, Option.some.injEq, SetAltSetting] at h
    subst h
    split_ifs <;> rfl

/-- C9 : (1) processing a packet changes the frame-parity flag exactly when
the packet copies more than 0 bytes and brings the cursor to the frame size;
(2) while a frame is drained from cursor 0 (conditions of C7) the flag keeps
its value up to and including the end-of-frame packet `k` (every packet `j ≤ k`
is built with the initial parity, every later packet with the flipped one),
the submissions before the last leave it unchanged, and after the drain it
is the negation of the initial value; (3) no operation other than an
isochronous submission changes it; (4) a failed isochronous submission does
not change it. -/
theorem C9_parity_toggles_once_per_frame :
    (∀ (t : MotionCamera) (p c : Nat), t.WellFormed →
      ((t.after_packet c).m_frame_id ≠ t.m_frame_id
        ↔ 0 < (t.emit_packet p c).payload.length
          ∧ (t.after_packet c).m_image_pos = t.m_image_size))
    ∧ (∀ (s : MotionCamera) (pre : List IsoSubmission) (last : IsoSubmission),
        s.WellFormed → s.m_image_pos = 0 → 0 < s.m_image_size →
        (∀ e ∈ pre ++ [last],
          e.memory.GetPointerForRange e.cmd.data_address e.cmd.length ≠ none) →
        (∀ c ∈ all_packet_sizes (pre ++ [last]), 2 ≤ c ∧ c < 2 ^ 16) →
        payload_capacity (all_packet_sizes pre) < s.m_image_size →
        s.m_image_size ≤ payload_capacity (all_packet_sizes (pre ++ [last])) →
        (s.iso_run pre).1.m_frame_id = s.m_frame_id
          ∧ (s.iso_run (pre ++ [last])).1.m_frame_id = (!s.m_frame_id)
          ∧ ∃ k, k < (s.iso_run (pre ++ [last])).2.length
            ∧ ∀ j q, (s.iso_run (pre ++ [last])).2[j]? = some q →
              (q.header.endOfFrame = true ↔ j = k)
              ∧ q.header.frameId = (if k < j then !s.m_frame_id else s.m_frame_id))
    ∧ (∀ (s t : MotionCamera) (memory : Memory) (camera : CameraData) (op : Op),
        (∀ cmd, op ≠ Op.iso cmd) → s.step memory camera op = some t →
        t.m_frame_id = s.m_frame_id)
    ∧ (∀ (s : MotionCamera) (memory : Memory) (camera : CameraData) (cmd : IsoMessage),
        memory.GetPointerForRange cmd.data_address cmd.length = none →
        (s.SubmitTransfer_Iso memory camera cmd).state.m_frame_id = s.m_frame_id) := by
  refine ⟨?_, ?_, ?_, ?_⟩
  · intro t p c ht
    show (t.after_packet c).m_frame_id ≠ t.m_frame_id
      ↔ 0 < (t.packet_payload c).length
        ∧ (t.m_image_pos + t.data_size c) % 2 ^ 32 = t.m_image_size
    rw [packet_payload_length t c ht, after_packet_frame_id]
    have hiff : t.completes_frame c = true
        ↔ 0 < t.data_size c ∧ (t.m_image_pos + t.data_size c) % 2 ^ 32 = t.m_image_size := by
      unfold completes_frame
      rw [decide_eq_true_iff]
    rw [← hiff]
    cases t.completes_frame c <;> cases t.m_frame_id <;> simp
  · intro s pre last hs hpos hS hres hc hpre hall
    have hall2 : all_packet_sizes (pre ++ [last])
        = all_packet_sizes pre ++ last.cmd.packet_sizes := by
      rw [all_packet_sizes_append]
      show _ ++ (last.cmd.packet_sizes ++ []) = _
      rw [List.append_nil]
    have hcpre : ∀ c ∈ all_packet_sizes pre, 2 ≤ c ∧ c < 2 ^ 16 :=
      fun c h => hc c (by rw [hall2]; exact List.mem_append_left _ h)
    have h1 := iso_run_no_complete pre s hs
      (fun e he => hres e (List.mem_append_left _ he)) hcpre (by rw [hpos]; omega)
    have hd := iso_run_drain s pre last hs hres hc (by rw [hpos]; omega)
    obtain ⟨k, hk, _, _, hk3⟩ := drain_master s pre last hs hpos hS hres hc hpre hall
    refine ⟨?_, ?_, k, hk, hk3⟩
    · rw [h1.1, packet_loop_frame_id _ s 0 hs hcpre, hpos, if_neg (by omega)]
    · rw [hd.2, replenish_frame_id, packet_loop_frame_id _ s 0 hs hc, hpos,
        if_pos ⟨hS, by omega⟩]
  · intro s t memory camera op hop h
    exact step_frame_id s t memory camera op hop h
  · intro s memory camera cmd h
    unfold SubmitTransfer_Iso
    rw [h]

/-- Instance of C9 : a fresh device, a packet of 200 bytes, three submissions
of 20 packets of 3072 bytes each, an alternate-setting change and a failed
submission. -/
theorem C9_parity_toggles_once_per_frame_witness :
    ((MotionCamera.init.after_packet 200).m_frame_id ≠ MotionCamera.init.m_frame_id
        ↔ 0 < (MotionCamera.init.emit_packet 0 200).payload.length
          ∧ (MotionCamera.init.after_packet 200).m_image_pos = MotionCamera.init.m_image_size)
    ∧ ((MotionCamera.init.iso_run [sample_iso, sample_iso]).1.m_frame_id
          = MotionCamera.init.m_frame_id
        ∧ (MotionCamera.init.iso_run ([sample_iso, sample_iso] ++ [sample_iso])).1.m_frame_id
          = (!MotionCamera.init.m_frame_id)
        ∧ ∃ k, k < (MotionCamera.init.iso_run
              ([sample_iso, sample_iso] ++ [sample_iso])).2.length
          ∧ ∀ j q, (MotionCamera.init.iso_run
                ([sample_iso, sample_iso] ++ [sample_iso])).2[j]? = some q →
            (q.header.endOfFrame = true ↔ j = k)
            ∧ q.header.frameId
                = (if k < j then !MotionCamera.init.m_frame_id
                   else MotionCamera.init.m_frame_id))
    ∧ (MotionCamera.init.SetAltSetting 1).1.m_frame_id = MotionCamera.init.m_frame_id
    ∧ (MotionCamera.init.SubmitTransfer_Iso unmapped_memory sample_camera
          sample_iso.cmd).state.m_frame_id = MotionCamera.init.m_frame_id :=
  ⟨C9_parity_toggles_once_per_frame.1 MotionCamera.init 0 200 init_wf,
    C9_parity_toggles_once_per_frame.2.1 MotionCamera.init [sample_iso, sample_iso] sample_iso
      init_wf rfl (by decide) (sample_iso_resolves _ (by simp))
      (by decide) (by decide) (by decide),
    C9_parity_toggles_once_per_frame.2.2.1 MotionCamera.init
      (MotionCamera.init.SetAltSetting 1).1 (sample_memory 0) sample_camera
      (Op.setAltSetting 1) (by intro cmd h; cases h) rfl,
    C9_parity_toggles_once_per_frame.2.2.2 MotionCamera.init unmapped_memory sample_camera
      sample_iso.cmd rfl⟩

/-! ## Payload header -/

theorem header_info_bits (fid eof : Bool) :
    (128 + fid.toNat + 2 * eof.toNat).testBit 7 = true
      ∧ (128 + fid.toNat + 2 * eof.toNat).testBit 0 = fid
      ∧ (128 + fid.toNat + 2 * eof.toNat).testBit 1 = eof
      ∧ (∀ i, 2 ≤ i → i ≤ 6 → (128 + fid.toNat + 2 * eof.toNat).testBit i = false)
      ∧ (128 + fid.toNat + 2 * eof.toNat = 0x80 ∨ 128 + fid.toNat + 2 * eof.toNat = 0x81
          ∨ 128 + fid.toNat + 2 * eof.toNat = 0x82
          ∨ 128 + fid.toNat + 2 * eof.toNat = 0x83) := by
  cases fid <;> cases eof <;>
    refine ⟨by decide, by decide, by decide, ?_, by decide⟩ <;>
    intro i h2 h6 <;> interval_cases i <;> decide

theorem packet_header_info (s : MotionCamera) (c : Nat) :
    (s.packet_header c).bHeaderLength = 2
      ∧ (s.packet_header c).bmHeaderInfo
          = 128 + s.m_frame_id.toNat + 2 * (s.completes_frame c).toNat := by
  unfold packet_header
  cases h : s.completes_frame c <;> cases h2 : s.m_frame_id <;>
    simp [UVCHeader.zero, UVCHeader.bmHeaderInfo, sizeof_UVCHeader]

/-! ## Packets of one frame, for arbitrary packet sizes -/

theorem completes_frame_false (s : MotionCamera) (c : Nat) (hs : s.WellFormed)
    (hlt : s.m_image_pos < s.m_image_size) (h : s.completes_frame c = false) :
    s.m_image_pos + s.data_size c < s.m_image_size := by
  have hle := s.data_size_le c hs.2.1 hs.1
  have hsz := hs.1
  unfold completes_frame at h
  rw [decide_eq_false_iff_not, Nat.mod_eq_of_lt (by omega)] at h
  omega

theorem completes_frame_true (s : MotionCamera) (c : Nat) (hs : s.WellFormed)
    (h : s.completes_frame c = true) :
    s.m_image_pos + s.data_size c = s.m_image_size := by
  have hle := s.data_size_le c hs.2.1 hs.1
  have hsz := hs.1
  unfold completes_frame at h
  rw [decide_eq_true_iff, Nat.mod_eq_of_lt (by omega)] at h
  exact h.2

theorem packet_loop_no_eof (caps : List Nat) :
    ∀ (s : MotionCamera) (p : Nat), s.WellFormed → s.m_image_pos < s.m_image_size →
      (∀ q ∈ (s.packet_loop p caps).2, q.header.endOfFrame = false) →
      (s.packet_loop p caps).1.m_image_pos < s.m_image_size
        ∧ s.m_image_pos ≤ (s.packet_loop p caps).1.m_image_pos
        ∧ (s.packet_loop p caps).1.m_frame_id = s.m_frame_id
        ∧ ((s.packet_loop p caps).2.map IsoPacket.payload).flatten
            = (s.m_image_data.drop s.m_image_pos).take
                ((s.packet_loop p caps).1.m_image_pos - s.m_image_pos)
        ∧ ∀ q ∈ (s.packet_loop p caps).2, q.header.frameId = s.m_frame_id := by
  induction caps with
  | nil =>
    intro s p _ hlt _
    refine ⟨hlt, Nat.le_refl _, rfl, ?_, ?_⟩
    · simp [packet_loop]
    · intro q hq; simp [packet_loop] at hq
  | cons c rest ih =>
    intro s p hs hlt hno
    have hL2 : (s.packet_loop p (c :: rest)).2
        = s.emit_packet p c
          :: ((s.after_packet c).packet_loop (p + sizeof_UVCHeader + s.data_size c) rest).2 :=
      rfl
    have hL1 : (s.packet_loop p (c :: rest)).1
        = ((s.after_packet c).packet_loop (p + sizeof_UVCHeader + s.data_size c) rest).1 :=
      rfl
    rw [hL2] at hno
    rw [hL1, hL2]
    have h0 : s.completes_frame c = false := by
      have := hno (s.emit_packet p c) (List.mem_cons_self _ _)
      rwa [show (s.emit_packet p c).header = s.packet_header c from rfl,
        packet_header_endOfFrame] at this
    have hpos := after_packet_pos s c hs
    have hlt1 := completes_frame_false s c hs hlt h0
    have hfid : (s.after_packet c).m_frame_id = s.m_frame_id := by
      rw [after_packet_frame_id, h0]; rfl
    have hdata : (s.after_packet c).m_image_data = s.m_image_data := rfl
    have hsz : (s.after_packet c).m_image_size = s.m_image_size := rfl
    obtain ⟨i1, i2, i3, i4, i5⟩ := ih (s.after_packet c)
      (p + sizeof_UVCHeader + s.data_size c) (s.after_packet_wf c hs)
      (by rw [hpos, hsz]; exact hlt1)
      (fun q hq => hno q (List.mem_cons_of_mem _ hq))
    rw [hsz] at i1
    rw [hpos] at i2 i4
    rw [hfid] at i3 i5
    rw [hdata] at i4
    refine ⟨i1, by omega, i3, ?_, ?_⟩
    · rw [List.map_cons, List.flatten_cons, i4]
      show s.packet_payload c ++ _ = _
      rw [packet_payload_eq, ← List.drop_drop, ← List.take_add]
      congr 1
      omega
    · intro q hq
      rcases List.mem_cons.mp hq with rfl | hq
      · exact packet_header_frameId s c
      · exact i5 q hq

theorem packet_loop_get_packet (caps : List Nat) (s : MotionCamera) (p j : Nat)
    (q : IsoPacket) (hq : (s.packet_loop p caps).2[j]? = some q) :
    ∃ c, caps[j]? = some c
      ∧ q.header = (s.packet_loop p (caps.take j)).1.packet_header c
      ∧ q.payload = (s.packet_loop p (caps.take j)).1.packet_payload c := by
  have h := drain_get s caps (s.packet_loop p caps).2
    (packet_loop_content_offset caps s p 0) j q hq
  rw [packet_loop_fst_offset (caps.take j) s p 0]
  exact h

theorem packet_loop_first_eof (caps : List Nat) (s : MotionCamera) (p : Nat)
    (hs : s.WellFormed) (hlt : s.m_image_pos < s.m_image_size)
    (k : Nat) (q : IsoPacket) (hq : (s.packet_loop p caps).2[k]? = some q)
    (heof : q.header.endOfFrame = true)
    (hno : ∀ j r, j < k → (s.packet_loop p caps).2[j]? = some r →
      r.header.endOfFrame = false) :
    (((s.packet_loop p caps).2.take (k + 1)).map IsoPacket.payload).flatten
        = s.m_image_data.drop s.m_image_pos
      ∧ ∀ j r, j ≤ k → (s.packet_loop p caps).2[j]? = some r →
          r.header.frameId = s.m_frame_id := by
  obtain ⟨c, hc, hhdr, hpay⟩ := packet_loop_get_packet caps s p k q hq
  have hpre : ∀ r ∈ (s.packet_loop p (caps.take k)).2, r.header.endOfFrame = false := by
    intro r hr
    rw [← packet_loop_take] at hr
    obtain ⟨j, hj⟩ := List.getElem?_of_mem hr
    rw [List.getElem?_take] at hj
    split at hj
    · rename_i hjk; exact hno j r hjk hj
    · cases hj
  obtain ⟨a1, a2, a3, a4, a5⟩ := packet_loop_no_eof (caps.take k) s p hs hlt hpre
  have hwf := packet_loop_wf (caps.take k) s p hs
  have hfr := packet_loop_frame (caps.take k) s p
  have hdata : (s.packet_loop p (caps.take k)).1.m_image_data = s.m_image_data := by
    rw [hfr]
  rw [hhdr, packet_header_endOfFrame] at heof
  have hfull := completes_frame_true _ c hwf.1 heof
  rw [hwf.2] at hfull
  constructor
  · have hsplit : (s.packet_loop p caps).2.take (k + 1)
        = (s.packet_loop p caps).2.take k ++ [q] := by
      rw [List.take_succ, hq]; rfl
    rw [hsplit, List.map_append, List.flatten_append, packet_loop_take, a4]
    simp only [List.map_cons, List.map_nil, List.flatten_cons, List.flatten_nil,
      List.append_nil]
    rw [hpay, packet_payload_eq, hdata]
    have hlen := hs.2.2
    have e1 : (s.m_image_data.drop (s.packet_loop p (caps.take k)).1.m_image_pos).take
        ((s.packet_loop p (caps.take k)).1.data_size c)
        = s.m_image_data.drop (s.packet_loop p (caps.take k)).1.m_image_pos := by
      apply List.take_of_length_le
      rw [List.length_drop, hlen]
      omega
    rw [e1]
    have e2 : s.m_image_data.drop (s.packet_loop p (caps.take k)).1.m_image_pos
        = (s.m_image_data.drop s.m_image_pos).drop
            ((s.packet_loop p (caps.take k)).1.m_image_pos - s.m_image_pos) := by
      rw [List.drop_drop]
      congr 1
      omega
    rw [e2, List.take_append_drop]
  · intro j r hj hr
    rcases Nat.lt_or_eq_of_le hj with hjk | rfl
    · apply a5
      rw [← packet_loop_take]
      have hmem : ((s.packet_loop p caps).2.take k)[j]? = some r := by
        rw [List.getElem?_take, if_pos hjk, hr]
      exact List.getElem?_mem hmem
    · rw [hr, Option.some.injEq] at hq
      subst hq
      rw [hhdr, packet_header_frameId, a3]

theorem iso_cases (s : MotionCamera) (memory : Memory) (camera : CameraData)
    (cmd : IsoMessage) :
    ((s.SubmitTransfer_Iso memory camera cmd).packets = []
        ∧ (s.SubmitTransfer_Iso memory camera cmd).state = s)
      ∨ ((s.SubmitTransfer_Iso memory camera cmd).packets = (s.packet_loop 0 cmd.packet_sizes).2
        ∧ (s.SubmitTransfer_Iso memory camera cmd).state
            = (s.packet_loop 0 cmd.packet_sizes).1.replenish camera) := by
  unfold SubmitTransfer_Iso
  split
  · exact Or.inl ⟨rfl, rfl⟩
  · exact Or.inr ⟨rfl, rfl⟩

theorem iso_no_eof (s : MotionCamera) (memory : Memory) (camera : CameraData)
    (cmd : IsoMessage) (hs : s.WellFormed) (hlt : s.m_image_pos < s.m_image_size)
    (hno : ∀ q ∈ (s.SubmitTransfer_Iso memory camera cmd).packets,
      q.header.endOfFrame = false) :
    (s.SubmitTransfer_Iso memory camera cmd).state.WellFormed
      ∧ (s.SubmitTransfer_Iso memory camera cmd).state.m_image_size = s.m_image_size
      ∧ (s.SubmitTransfer_Iso memory camera cmd).state.m_image_data = s.m_image_data
      ∧ (s.SubmitTransfer_Iso memory camera cmd).state.m_image_pos < s.m_image_size
      ∧ s.m_image_pos ≤ (s.SubmitTransfer_Iso memory camera cmd).state.m_image_pos
      ∧ (s.SubmitTransfer_Iso memory camera cmd).state.m_frame_id = s.m_frame_id
      ∧ ((s.SubmitTransfer_Iso memory camera cmd).packets.map IsoPacket.payload).flatten
          = (s.m_image_data.drop s.m_image_pos).take
              ((s.SubmitTransfer_Iso memory camera cmd).state.m_image_pos - s.m_image_pos)
      ∧ ∀ q ∈ (s.SubmitTransfer_Iso memory camera cmd).packets,
          q.header.frameId = s.m_frame_id := by
  rcases iso_cases s memory camera cmd with ⟨hp, hst⟩ | ⟨hp, hst⟩
  · rw [hp, hst]
    refine ⟨hs, rfl, rfl, hlt, Nat.le_refl _, rfl, by simp, by simp⟩
  · rw [hp] at hno
    obtain ⟨a1, a2, a3, a4, a5⟩ := packet_loop_no_eof cmd.packet_sizes s 0 hs hlt hno
    have hwf := packet_loop_wf cmd.packet_sizes s 0 hs
    have hne : (s.packet_loop 0 cmd.packet_sizes).1.m_image_pos
        ≠ (s.packet_loop 0 cmd.packet_sizes).1.m_image_size := by
      rw [hwf.2]; omega
    rw [replenish_of_ne _ _ hne] at hst
    rw [hp, hst]
    refine ⟨hwf.1, hwf.2, ?_, a1, a2, a3, a4, a5⟩
    rw [packet_loop_frame]

theorem iso_run_cons (s : MotionCamera) (e : IsoSubmission) (rest : List IsoSubmission) :
    (s.iso_run (e :: rest)).1
        = ((s.SubmitTransfer_Iso e.memory e.camera e.cmd).state.iso_run rest).1
      ∧ (s.iso_run (e :: rest)).2
        = (s.SubmitTransfer_Iso e.memory e.camera e.cmd).packets
          ++ ((s.SubmitTransfer_Iso e.memory e.camera e.cmd).state.iso_run rest).2 :=
  ⟨rfl, rfl⟩

theorem iso_run_first_eof (subs : List IsoSubmission) :
    ∀ (s : MotionCamera), s.WellFormed → s.m_image_pos < s.m_image_size →
      ∀ (k : Nat) (q : IsoPacket), (s.iso_run subs).2[k]? = some q →
        q.header.endOfFrame = true →
        (∀ j r, j < k → (s.iso_run subs).2[j]? = some r → r.header.endOfFrame = false) →
        (((s.iso_run subs).2.take (k + 1)).map IsoPacket.payload).flatten
            = s.m_image_data.drop s.m_image_pos
          ∧ ∀ j r, j ≤ k → (s.iso_run subs).2[j]? = some r →
              r.header.frameId = s.m_frame_id := by
  induction subs with
  | nil => intro s _ _ k q hq; simp [iso_run] at hq
  | cons e rest ih =>
    intro s hs hlt k q hq heof hno
    rw [(iso_run_cons s e rest).2] at hq hno ⊢
    by_cases hk : k < (s.SubmitTransfer_Iso e.memory e.camera e.cmd).packets.length
    · rcases iso_cases s e.memory e.camera e.cmd with ⟨hp, _⟩ | ⟨hp, _⟩
      · rw [hp] at hk; simp at hk
      · rw [hp] at hq hno hk ⊢
        rw [List.getElem?_append_left hk] at hq
        have h := packet_loop_first_eof e.cmd.packet_sizes s 0 hs hlt k q hq heof
          (fun j r hj hr => hno j r hj (by
            rw [List.getElem?_append_left (by omega)]; exact hr))
        refine ⟨?_, ?_⟩
        · rw [List.take_append_of_le_length (by omega)]
          exact h.1
        · intro j r hj hr
          rw [List.getElem?_append_left (by omega)] at hr
          exact h.2 j r hj hr
    · have hnoP : ∀ r ∈ (s.SubmitTransfer_Iso e.memory e.camera e.cmd).packets,
          r.header.endOfFrame = false := by
        intro r hr
        obtain ⟨j, hj⟩ := List.getElem?_of_mem hr
        have hjl : j < (s.SubmitTransfer_Iso e.memory e.camera e.cmd).packets.length := by
          by_contra hn
          rw [List.getElem?_eq_none (by omega)] at hj
          cases hj
        exact hno j r (by omega) (by rw [List.getElem?_append_left hjl]; exact hj)
      obtain ⟨b1, b2, b3, b4, b5, b6, b7, b8⟩ := iso_no_eof s e.memory e.camera e.cmd hs hlt hnoP
      rw [List.getElem?_append_right (by omega)] at hq
      have h := ih (s.SubmitTransfer_Iso e.memory e.camera e.cmd).state b1
        (by rw [b2]; exact b4)
        (k - (s.SubmitTransfer_Iso e.memory e.camera e.cmd).packets.length) q hq heof
        (fun j r hj hr => hno
          (j + (s.SubmitTransfer_Iso e.memory e.camera e.cmd).packets.length) r
          (by omega) (by
            rw [List.getElem?_append_right (by omega), Nat.add_sub_cancel]; exact hr))
      rw [b3, b6] at h
      refine ⟨?_, ?_⟩
      · have hk1 : k + 1 = (s.SubmitTransfer_Iso e.memory e.camera e.cmd).packets.length
            + (k - (s.SubmitTransfer_Iso e.memory e.camera e.cmd).packets.length + 1) := by
          omega
        rw [hk1, List.take_append, List.map_append, List.flatten_append, h.1, b7]
        have e2 : s.m_image_data.drop
              (s.SubmitTransfer_Iso e.memory e.camera e.cmd).state.m_image_pos
            = (s.m_image_data.drop s.m_image_pos).drop
                ((s.SubmitTransfer_Iso e.memory e.camera e.cmd).state.m_image_pos
                  - s.m_image_pos) := by
          rw [List.drop_drop]
          congr 1
          omega
        rw [e2, List.take_append_drop]
      · intro j r hj hr
        by_cases hjl : j < (s.SubmitTransfer_Iso e.memory e.camera e.cmd).packets.length
        · rw [List.getElem?_append_left hjl] at hr
          exact b8 r (List.getElem?_mem hr)
        · rw [List.getElem?_append_right (by omega)] at hr
          exact h.2 _ r (by omega) hr

/-! ## Reassembly and frame identifier -/

theorem sample_eof_packet_get :
    (MotionCamera.init.iso_run sample_run).2[50]? = some sample_eof_packet := rfl

theorem sample_eof_packet_eof : sample_eof_packet.header.endOfFrame = true := by
  decide

theorem sample_no_early_eof :
    ∀ j r, j < 50 → (MotionCamera.init.iso_run sample_run).2[j]? = some r →
      r.header.endOfFrame = false := by
  obtain ⟨k, _, _, _, hk3⟩ := drain_master MotionCamera.init [sample_iso, sample_iso]
    sample_iso init_wf rfl (by decide) (sample_iso_resolves _ (by simp))
    (by decide) (by decide) (by decide)
  have h50 : 50 = k :=
    ((hk3 50 sample_eof_packet sample_eof_packet_get).1).mp sample_eof_packet_eof
  intro j r hj hr
  have h := (hk3 j r hr).1
  cases hb : r.header.endOfFrame with
  | false => rfl
  | true => have := h.mp hb; omega

/-- C8 : a frame of size `S > 0` is drained from cursor 0 by any successive
isochronous submissions (any packet sizes, resolved or not).  If packet `k`
of the emitted packets is the end-of-frame packet (the first one with the
end-of-frame bit set), the payloads of the packets `0..k`, concatenated in
emission order, are exactly the frame buffer : its `S` bytes in order, none
skipped or repeated. -/
theorem C8_frame_reassembly (s : MotionCamera) (subs : List IsoSubmission)
    (hs : s.WellFormed) (hpos : s.m_image_pos = 0) (hS : 0 < s.m_image_size)
    (k : Nat) (q : IsoPacket) (hq : (s.iso_run subs).2[k]? = some q)
    (heof : q.header.endOfFrame = true)
    (hno : ∀ j r, j < k → (s.iso_run subs).2[j]? = some r → r.header.endOfFrame = false) :
    (((s.iso_run subs).2.take (k + 1)).map IsoPacket.payload).flatten = s.m_image_data
      ∧ (((s.iso_run subs).2.take (k + 1)).map IsoPacket.payload).flatten.length
          = s.m_image_size := by
  have h := (iso_run_first_eof subs s hs (by omega) k q hq heof hno).1
  rw [hpos, List.drop_zero] at h
  exact ⟨h, by rw [h, hs.2.2]⟩

/-- Instance of C8 : a fresh device and three submissions of 20 packets of
3072 bytes each; the end-of-frame packet is packet 50. -/
theorem C8_frame_reassembly_witness :
    (((MotionCamera.init.iso_run sample_run).2.take (50 + 1)).map IsoPacket.payload).flatten
        = MotionCamera.init.m_image_data
      ∧ (((MotionCamera.init.iso_run sample_run).2.take (50 + 1)).map
          IsoPacket.payload).flatten.length = MotionCamera.init.m_image_size :=
  C8_frame_reassembly MotionCamera.init sample_run init_wf rfl (by decide) 50
    sample_eof_packet sample_eof_packet_get sample_eof_packet_eof sample_no_early_eof

/-- C10 : (1) every packet `q` written by an isochronous submission, built in
the state `t` reached after the earlier packets of the loop, consists of two
header bytes followed by the payload; the first byte is 2; the second has
bit 7 set, bit 0 equal to the parity flag of `t` (the flag before the packet
is processed), bit 1 set exactly when the packet completes the frame (copies
more than 0 bytes and brings the cursor to the frame size), bits 2..6 clear,
so it is one of `0x80`, `0x81`, `0x82`, `0x83`; (2) when a frame of size
`S > 0` is drained from cursor 0 by any successive submissions, the
end-of-frame packet `k` and every packet before it carry the same frame-id
bit, the parity flag at the start of the frame. -/
theorem C10_payload_header_format :
    (∀ (s : MotionCamera) (memory : Memory) (camera : CameraData) (cmd : IsoMessage)
        (j : Nat) (q : IsoPacket),
        (s.SubmitTransfer_Iso memory camera cmd).packets[j]? = some q →
        ∃ c, cmd.packet_sizes[j]? = some c
          ∧ q.bytes = [2, q.header.bmHeaderInfo] ++ q.payload
          ∧ q.header.bmHeaderInfo.testBit 7 = true
          ∧ q.header.bmHeaderInfo.testBit 0
              = (s.packet_loop 0 (cmd.packet_sizes.take j)).1.m_frame_id
          ∧ (q.header.bmHeaderInfo.testBit 1 = true
              ↔ 0 < (s.packet_loop 0 (cmd.packet_sizes.take j)).1.data_size c
                ∧ ((s.packet_loop 0 (cmd.packet_sizes.take j)).1.m_image_pos
                    + (s.packet_loop 0 (cmd.packet_sizes.take j)).1.data_size c) % 2 ^ 32
                  = (s.packet_loop 0 (cmd.packet_sizes.take j)).1.m_image_size)
          ∧ (∀ i, 2 ≤ i → i ≤ 6 → q.header.bmHeaderInfo.testBit i = false)
          ∧ (q.header.bmHeaderInfo = 0x80 ∨ q.header.bmHeaderInfo = 0x81
              ∨ q.header.bmHeaderInfo = 0x82 ∨ q.header.bmHeaderInfo = 0x83))
    ∧ (∀ (s : MotionCamera) (subs : List IsoSubmission),
        s.WellFormed → s.m_image_pos = 0 → 0 < s.m_image_size →
        ∀ (k : Nat) (qk : IsoPacket), (s.iso_run subs).2[k]? = some qk →
          qk.header.endOfFrame = true →
          (∀ (j : Nat) (r : IsoPacket), j < k → (s.iso_run subs).2[j]? = some r →
            r.header.endOfFrame = false) →
          qk.header.frameId = s.m_frame_id
            ∧ ∀ (j : Nat) (q : IsoPacket), j ≤ k → (s.iso_run subs).2[j]? = some q →
                q.header.frameId = qk.header.frameId) := by
  refine ⟨?_, ?_⟩
  · intro s memory camera cmd j q hq
    unfold SubmitTransfer_Iso at hq
    split at hq
    · simp at hq
    · obtain ⟨c, hc, hhdr, _⟩ := drain_get s cmd.packet_sizes _ rfl j q hq
      have hinfo := packet_header_info (s.packet_loop 0 (cmd.packet_sizes.take j)).1 c
      have hbits := header_info_bits (s.packet_loop 0 (cmd.packet_sizes.take j)).1.m_frame_id
        ((s.packet_loop 0 (cmd.packet_sizes.take j)).1.completes_frame c)
      rw [← hinfo.2, ← hhdr] at hbits
      refine ⟨c, hc, ?_, hbits.1, hbits.2.1, ?_, hbits.2.2.2.1, hbits.2.2.2.2⟩
      · show [q.header.bHeaderLength % 256, q.header.bmHeaderInfo] ++ q.payload = _
        rw [hhdr, hinfo.1]
      · rw [hbits.2.2.1]
        unfold completes_frame
        rw [decide_eq_true_iff]
  · intro s subs hs hpos hS k qk hq heof hno
    have h := (iso_run_first_eof subs s hs (by omega) k qk hq heof hno).2
    have hk := h k qk (Nat.le_refl _) hq
    refine ⟨hk, ?_⟩
    intro j q hj hjq
    rw [h j q hj hjq, hk]

/-- Instance of C10 : the second packet of `sample_iso` on a fresh device, and
the drain of the first frame by three such submissions. -/
theorem C10_payload_header_format_witness :
    (∃ c, sample_iso.cmd.packet_sizes[1]? = some c
      ∧ sample_packet.bytes = [2, sample_packet.header.bmHeaderInfo] ++ sample_packet.payload
      ∧ sample_packet.header.bmHeaderInfo.testBit 7 = true
      ∧ sample_packet.header.bmHeaderInfo.testBit 0
          = (MotionCamera.init.packet_loop 0 (sample_iso.cmd.packet_sizes.take 1)).1.m_frame_id
      ∧ (sample_packet.header.bmHeaderInfo.testBit 1 = true
          ↔ 0 < (MotionCamera.init.packet_loop 0
                  (sample_iso.cmd.packet_sizes.take 1)).1.data_size c
            ∧ ((MotionCamera.init.packet_loop 0
                  (sample_iso.cmd.packet_sizes.take 1)).1.m_image_pos
                + (MotionCamera.init.packet_loop 0
                    (sample_iso.cmd.packet_sizes.take 1)).1.data_size c) % 2 ^ 32
              = (MotionCamera.init.packet_loop 0
                  (sample_iso.cmd.packet_sizes.take 1)).1.m_image_size)
      ∧ (∀ i, 2 ≤ i → i ≤ 6 → sample_packet.header.bmHeaderInfo.testBit i = false)
      ∧ (sample_packet.header.bmHeaderInfo = 0x80 ∨ sample_packet.header.bmHeaderInfo = 0x81
          ∨ sample_packet.header.bmHeaderInfo = 0x82
          ∨ sample_packet.header.bmHeaderInfo = 0x83))
    ∧ (sample_eof_packet.header.frameId = MotionCamera.init.m_frame_id
        ∧ ∀ (j : Nat) (q : IsoPacket), j ≤ 50 →
            (MotionCamera.init.iso_run sample_run).2[j]? = some q →
            q.header.frameId = sample_eof_packet.header.frameId) :=
  ⟨C10_payload_header_format.1 MotionCamera.init sample_iso.memory sample_iso.camera
      sample_iso.cmd 1 sample_packet rfl,
    C10_payload_header_format.2 MotionCamera.init sample_run init_wf rfl (by decide) 50
      sample_eof_packet sample_eof_packet_get sample_eof_packet_eof sample_no_early_eof⟩

/-! ## Descriptor catalog -/

set_option maxRecDepth 100000

/-- C20 : the raw configuration blob has 777 bytes, which is the
little-endian `wTotalLength` in its bytes 2..3 and the `wTotalLength` `0x0309`
of the structured configuration descriptor; the walk from offset 0 by each
descriptor's `bLength` succeeds (every `bLength` is at least 2 and the walk
ends exactly at offset 777); the first 9 bytes are the serialised structured
configuration descriptor; and the interface descriptors (type `0x04`) and
endpoint descriptors (type `0x05`) met on the walk are, in order and field by
field, the 8 structured interface descriptors and the 7 structured endpoint
descriptors. -/
theorem C20_config_blob_consistent :
    usb_config_desc.length = 777
      ∧ usb_config_desc[2]?.getD 0 + 256 * usb_config_desc[3]?.getD 0 = 777
      ∧ (MotionCamera.init.GetConfigurations).map ConfigDescriptor.wTotalLength = [0x0309]
      ∧ (0x0309 : Nat) = 777
      ∧ split_descriptors usb_config_desc.length usb_config_desc = some blob_descriptors
      ∧ (∀ d ∈ blob_descriptors, 2 ≤ d.length ∧ d[0]? = some d.length)
      ∧ blob_descriptors.flatten = usb_config_desc
      ∧ (blob_descriptors.map List.length).sum = 777
      ∧ (MotionCamera.init.GetConfigurations).map ConfigDescriptor.bytes
          = [usb_config_desc.take 9]
      ∧ descriptors_of_type 4 blob_descriptors
          = (MotionCamera.init.GetInterfaces 1).map InterfaceDescriptor.bytes
      ∧ descriptors_of_type 5 blob_descriptors
          = s_endpoint_descriptor.map EndpointDescriptor.bytes
      ∧ (MotionCamera.init.GetInterfaces 1).length = 8
      ∧ s_endpoint_descriptor.length = 7 := by
  refine ⟨by decide, by decide, by decide, by decide, by decide, by decide, by decide,
    by decide, by decide, by decide, by decide, by decide, by decide⟩

/-- C16 : for every configuration value and alternate setting, `GetEndpoints`
on interface 0 returns exactly one endpoint (address `0x82`, interrupt,
`wMaxPacketSize` `0x0010`); on interface 1 with alternate setting 0 it returns
no endpoint; and for `k` in `1..6`, on interface 1 with alternate setting `k`,
it returns exactly one endpoint, isochronous IN at address `0x81`, whose
`wMaxPacketSize` is the one the raw configuration blob declares for that
alternate setting (`0x0a60`, `0x0b00`, `0x0b20`, `0x1300`, `0x1320`, `0x13fc`
for `k = 1..6`). -/
theorem C16_endpoint_lookup (s : MotionCamera) (config alt k : Nat) (hk : 1 ≤ k ∧ k ≤ 6) :
    s.GetEndpoints config 0 alt
        = some [{ bLength := 0x07, bDescriptorType := 0x05, bEndpointAddress := 0x82,
                  bmAttributes := 0x03, wMaxPacketSize := 0x0010, bInterval := 0x06 }]
      ∧ (0x03 : Nat) % 4 = 3
      ∧ s.GetEndpoints config 1 0 = some []
      ∧ ∃ e, s.GetEndpoints config 1 k = some [e]
          ∧ e.bEndpointAddress = 0x81 ∧ e.bEndpointAddress / 128 = 1
          ∧ e.bmAttributes % 4 = 1
          ∧ (endpoints_declared 1 k none blob_descriptors).map raw_wMaxPacketSize
              = [e.wMaxPacketSize]
          ∧ some e.wMaxPacketSize
              = ([0x0a60, 0x0b00, 0x0b20, 0x1300, 0x1320, 0x13fc] : List Nat)[k - 1]? := by
  obtain ⟨h1, h6⟩ := hk
  refine ⟨rfl, rfl, rfl, ?_⟩
  interval_cases k
  · exact ⟨_, rfl, rfl, rfl, rfl, by decide, rfl⟩
  · exact ⟨_, rfl, rfl, rfl, rfl, by decide, rfl⟩
  · exact ⟨_, rfl, rfl, rfl, rfl, by decide, rfl⟩
  · exact ⟨_, rfl, rfl, rfl, rfl, by decide, rfl⟩
  · exact ⟨_, rfl, rfl, rfl, rfl, by decide, rfl⟩
  · exact ⟨_, rfl, rfl, rfl, rfl, by decide, rfl⟩

/-- Instance of C16 : configuration 1, alternate settings 5 and 3. -/
theorem C16_endpoint_lookup_witness :
    MotionCamera.init.GetEndpoints 1 0 5
        = some [{ bLength := 0x07, bDescriptorType := 0x05, bEndpointAddress := 0x82,
                  bmAttributes := 0x03, wMaxPacketSize := 0x0010, bInterval := 0x06 }]
      ∧ (0x03 : Nat) % 4 = 3
      ∧ MotionCamera.init.GetEndpoints 1 1 0 = some []
      ∧ ∃ e, MotionCamera.init.GetEndpoints 1 1 3 = some [e]
          ∧ e.bEndpointAddress = 0x81 ∧ e.bEndpointAddress / 128 = 1
          ∧ e.bmAttributes % 4 = 1
          ∧ (endpoints_declared 1 3 none blob_descriptors).map raw_wMaxPacketSize
              = [e.wMaxPacketSize]
          ∧ some e.wMaxPacketSize
              = ([0x0a60, 0x0b00, 0x0b20, 0x1300, 0x1320, 0x13fc] : List Nat)[3 - 1]? :=
  C16_endpoint_lookup MotionCamera.init 1 5 3 (by decide)

/-- C17 (evaluation of the code) : `GetEndpoints` on interface 1 with
alternate setting 7 (or 8, or 255) evaluates `s_endpoint_descriptor[alt]`
outside the seven entries of the vector, which has no defined result; for
every interface number from 2 on the result is empty. -/
theorem C17_endpoint_lookup_out_of_range :
    MotionCamera.init.GetEndpoints 1 1 7 = none
      ∧ MotionCamera.init.GetEndpoints 1 1 8 = none
      ∧ MotionCamera.init.GetEndpoints 1 1 255 = none
      ∧ s_endpoint_descriptor.length = 7
      ∧ (∀ (s : MotionCamera) (config alt : Nat), 7 ≤ alt → s.GetEndpoints config 1 alt = none)
      ∧ (∀ (s : MotionCamera) (config interface alt : Nat), 2 ≤ interface →
          s.GetEndpoints config interface alt = some []) := by
  refine ⟨rfl, rfl, rfl, rfl, ?_, ?_⟩
  · intro s config alt h
    unfold GetEndpoints
    rw [if_neg (by decide), if_pos ⟨rfl, by omega⟩,
      List.getElem?_eq_none (by show 7 ≤ alt; exact h)]
    rfl
  · intro s config interface alt h
    unfold GetEndpoints
    rw [if_neg (by omega), if_neg (by omega)]

/-! ## Alternate settings and notifications -/

/-- C15 : for every alternate setting `a ≠ 0` and every state (whatever the
previous alternate setting), `SetAltSetting a` records `a`, issues exactly one
start notification carrying the committed width and height and no stop
notification, and returns 0; `SetAltSetting 0` records 0, issues exactly one
stop notification and no start notification, and returns 0.  No other member
(active size, frame size, cursor, parity, frame buffer, active interface)
changes. -/
theorem C15_alt_setting_notifications (s : MotionCamera) (a : Nat) (ha : a ≠ 0) :
    s.SetAltSetting a
        = ({ s with m_active_altsetting := a },
            [HostEvent.CameraStart s.m_active_size.width s.m_active_size.height], 0)
      ∧ s.SetAltSetting 0 = ({ s with m_active_altsetting := 0 }, [HostEvent.CameraStop], 0)
      ∧ (s.SetAltSetting a).1.m_active_altsetting = a
      ∧ (s.SetAltSetting a).1.m_active_size = s.m_active_size
      ∧ (s.SetAltSetting a).1.m_image_pos = s.m_image_pos
      ∧ (s.SetAltSetting a).1.m_frame_id = s.m_frame_id
      ∧ (s.SetAltSetting a).1.m_image_data = s.m_image_data
      ∧ (s.SetAltSetting 0).1.m_active_altsetting = 0
      ∧ (s.SetAltSetting 0).1.m_active_size = s.m_active_size
      ∧ (s.SetAltSetting 0).1.m_image_pos = s.m_image_pos
      ∧ (s.SetAltSetting 0).1.m_frame_id = s.m_frame_id
      ∧ (s.SetAltSetting 0).1.m_image_data = s.m_image_data := by
  have h1 : s.SetAltSetting a
      = ({ s with m_active_altsetting := a },
          [HostEvent.CameraStart s.m_active_size.width s.m_active_size.height], 0) := by
    unfold SetAltSetting
    rw [if_pos ha]
  have h0 : s.SetAltSetting 0
      = ({ s with m_active_altsetting := 0 }, [HostEvent.CameraStop], 0) := rfl
  refine ⟨h1, h0, ?_, ?_, ?_, ?_, ?_, rfl, rfl, rfl, rfl, rfl⟩ <;> rw [h1]

/-- Instance of C15 : alternate setting 4 requested while alternate setting 4
is already active. -/
theorem C15_alt_setting_notifications_witness :
    (MotionCamera.init.SetAltSetting 4).1.SetAltSetting 4
        = ({ (MotionCamera.init.SetAltSetting 4).1 with m_active_altsetting := 4 },
            [HostEvent.CameraStart (MotionCamera.init.SetAltSetting 4).1.m_active_size.width
              (MotionCamera.init.SetAltSetting 4).1.m_active_size.height], 0)
      ∧ (MotionCamera.init.SetAltSetting 4).1.SetAltSetting 0
        = ({ (MotionCamera.init.SetAltSetting 4).1 with m_active_altsetting := 0 },
            [HostEvent.CameraStop], 0) :=
  ⟨(C15_alt_setting_notifications (MotionCamera.init.SetAltSetting 4).1 4 (by decide)).1,
    (C15_alt_setting_notifications (MotionCamera.init.SetAltSetting 4).1 4 (by decide)).2.1⟩

/-! ## Unresolvable transfer buffer -/

/-- C12 : when the memory lookup for the address and length of an
isochronous message yields no buffer, the submission returns `IPC_EINVAL`,
which differs from `IPC_SUCCESS`, writes no packet, schedules no completion
and leaves the whole device state (cursor, parity flag and frame buffer
included) as it was; when the lookup yields a buffer the submission returns
`IPC_SUCCESS` and schedules a successful completion. -/
theorem C12_unresolved_buffer_fails :
    (∀ (s : MotionCamera) (memory : Memory) (camera : CameraData) (cmd : IsoMessage),
        memory.GetPointerForRange cmd.data_address cmd.length = none →
        (s.SubmitTransfer_Iso memory camera cmd).ret = IPC_EINVAL
          ∧ (s.SubmitTransfer_Iso memory camera cmd).state = s
          ∧ (s.SubmitTransfer_Iso memory camera cmd).packets = []
          ∧ (s.SubmitTransfer_Iso memory camera cmd).completion = none)
      ∧ IPC_EINVAL ≠ IPC_SUCCESS
      ∧ (∀ (s : MotionCamera) (memory : Memory) (camera : CameraData) (cmd : IsoMessage)
          (buffer : List Nat),
          memory.GetPointerForRange cmd.data_address cmd.length = some buffer →
          (s.SubmitTransfer_Iso memory camera cmd).ret = IPC_SUCCESS
            ∧ (s.SubmitTransfer_Iso memory camera cmd).completion
                = some (IPC_SUCCESS, 33000)) := by
  refine ⟨?_, by decide, ?_⟩
  · intro s memory camera cmd h
    unfold SubmitTransfer_Iso
    rw [h]
    exact ⟨rfl, rfl, rfl, rfl⟩
  · intro s memory camera cmd buffer h
    unfold SubmitTransfer_Iso
    rw [h]
    exact ⟨rfl, rfl⟩

/-- Instance of C12 : `sample_iso` submitted on a fresh device into unmapped
memory and into resolvable memory. -/
theorem C12_unresolved_buffer_fails_witness :
    ((MotionCamera.init.SubmitTransfer_Iso unmapped_memory sample_camera sample_iso.cmd).ret
          = IPC_EINVAL
        ∧ (MotionCamera.init.SubmitTransfer_Iso unmapped_memory sample_camera
            sample_iso.cmd).state = MotionCamera.init
        ∧ (MotionCamera.init.SubmitTransfer_Iso unmapped_memory sample_camera
            sample_iso.cmd).packets = []
        ∧ (MotionCamera.init.SubmitTransfer_Iso unmapped_memory sample_camera
            sample_iso.cmd).completion = none)
      ∧ ((MotionCamera.init.SubmitTransfer_Iso sample_iso.memory sample_camera
            sample_iso.cmd).ret = IPC_SUCCESS
        ∧ (MotionCamera.init.SubmitTransfer_Iso sample_iso.memory sample_camera
            sample_iso.cmd).completion = some (IPC_SUCCESS, 33000)) :=
  ⟨C12_unresolved_buffer_fails.1 MotionCamera.init unmapped_memory sample_camera
      sample_iso.cmd rfl,
    C12_unresolved_buffer_fails.2.2 MotionCamera.init sample_iso.memory sample_camera
      sample_iso.cmd _ rfl⟩

/-! ## Scenarios -/

/-- C13 (counterexample) : on a fresh device, committing frame index 2 does
not make the active size 160 x 120 with frame size 38400 and a start
notification carrying (160, 120). -/
theorem C13_commit_two_counterexample :
    ¬ ∃ r, MotionCamera.init.SubmitTransfer_Ctrl (sample_memory 2) sample_commit = some r
        ∧ r.state.m_active_size = ⟨160, 120⟩ ∧ r.state.m_image_size = 38400
        ∧ (r.state.SetAltSetting 1).2.1 = [HostEvent.CameraStart 160 120] := by
  rintro ⟨r, hr, hsz, _⟩
  have h0 : MotionCamera.init.SubmitTransfer_Ctrl (sample_memory 2) sample_commit
      = some (MotionCamera.ScheduleTransfer
          { MotionCamera.init with m_active_size := ⟨320, 240⟩ } []) := rfl
  rw [h0, Option.some.injEq] at hr
  rw [← hr] at hsz
  exact absurd hsz (by decide)

/-- C13 (amended) : on a fresh device, committing frame index 2 makes the
active size 320 x 240 (entry 1 of the resolution table), the frame size is
153600 = 320 * 240 * 2 bytes, and a following `SetAltSetting 1` issues exactly
one start notification, carrying (320, 240); the size 160 x 120 is frame
index 3, after whose commit `SetAltSetting 1` issues a start notification
carrying (160, 120). -/
theorem C13_commit_two_selects_320x240 :
    (∃ r, MotionCamera.init.SubmitTransfer_Ctrl (sample_memory 2) sample_commit = some r
        ∧ r.state.m_active_size = ⟨320, 240⟩ ∧ r.state.m_image_size = 153600
        ∧ r.state.m_image_size = r.state.m_active_size.width * r.state.m_active_size.height * 2
        ∧ (r.state.SetAltSetting 1).2.1 = [HostEvent.CameraStart 320 240]
        ∧ (r.state.SetAltSetting 1).2.2 = 0
        ∧ (r.state.SetAltSetting 1).1.m_active_altsetting = 1)
      ∧ (∃ r, MotionCamera.init.SubmitTransfer_Ctrl (sample_memory 3) sample_commit = some r
        ∧ r.state.m_active_size = ⟨160, 120⟩
        ∧ (r.state.SetAltSetting 1).2.1 = [HostEvent.CameraStart 160 120]
        ∧ (r.state.SetAltSetting 1).2.2 = 0
        ∧ (r.state.SetAltSetting 1).1.m_active_altsetting = 1) :=
  ⟨⟨_, rfl, rfl, rfl, rfl, rfl, rfl, rfl⟩, ⟨_, rfl, rfl, rfl, rfl, rfl⟩⟩

theorem packet_loop_alt_setting (caps : List Nat) :
    ∀ (s : MotionCamera) (a p : Nat),
      (s.with_altsetting a).packet_loop p caps
        = (((s.packet_loop p caps).1).with_altsetting a, (s.packet_loop p caps).2) := by
  induction caps with
  | nil => intro s a p; rfl
  | cons c rest ih =>
    intro s a p
    have h := ih (s.after_packet c) a (p + sizeof_UVCHeader + s.data_size c)
    have e1 : (s.with_altsetting a).packet_loop p (c :: rest)
        = ((((s.after_packet c).with_altsetting a).packet_loop
              (p + sizeof_UVCHeader + s.data_size c) rest).1,
            s.emit_packet p c ::
              (((s.after_packet c).with_altsetting a).packet_loop
                (p + sizeof_UVCHeader + s.data_size c) rest).2) := rfl
    rw [e1, h]
    rfl

/-- C14 (counterexample) : on a fresh device the streaming alternate setting
is 0 (and still 0 after `SetAltSetting 0`), yet `sample_iso` submitted in that
state advances the cursor from 0 to 61400 and its first packet carries 3070
frame bytes. -/
theorem C14_payload_at_alt_setting_zero :
    MotionCamera.init.m_active_altsetting = 0
      ∧ (MotionCamera.init.SetAltSetting 0).1.m_active_altsetting = 0
      ∧ ¬ ((MotionCamera.init.SubmitTransfer_Iso sample_iso.memory sample_iso.camera
              sample_iso.cmd).state.m_image_pos = MotionCamera.init.m_image_pos
            ∧ ∀ q ∈ (MotionCamera.init.SubmitTransfer_Iso sample_iso.memory sample_iso.camera
                sample_iso.cmd).packets, q.payload = [])
      ∧ ¬ (((MotionCamera.init.SetAltSetting 0).1.SubmitTransfer_Iso sample_iso.memory
              sample_iso.camera sample_iso.cmd).state.m_image_pos
            = (MotionCamera.init.SetAltSetting 0).1.m_image_pos)
      ∧ (MotionCamera.init.SubmitTransfer_Iso sample_iso.memory sample_iso.camera
            sample_iso.cmd).state.m_image_pos = 61400
      ∧ (MotionCamera.init.SubmitTransfer_Iso sample_iso.memory sample_iso.camera
            sample_iso.cmd).packets[0]? = some (MotionCamera.init.emit_packet 0 3072)
      ∧ (MotionCamera.init.emit_packet 0 3072).payload.length = 3070 := by
  have hpos : (MotionCamera.init.SubmitTransfer_Iso sample_iso.memory sample_iso.camera
      sample_iso.cmd).state.m_image_pos = 61400 := by decide
  have hpos0 : ((MotionCamera.init.SetAltSetting 0).1.SubmitTransfer_Iso sample_iso.memory
      sample_iso.camera sample_iso.cmd).state.m_image_pos = 61400 := by decide
  refine ⟨rfl, rfl, ?_, ?_, hpos, rfl, ?_⟩
  · rintro ⟨h, _⟩
    rw [hpos] at h
    exact absurd h (by decide)
  · intro h
    rw [hpos0] at h
    exact absurd h (by decide)
  · show (MotionCamera.init.packet_payload 3072).length = 3070
    rw [packet_payload_length _ _ init_wf]
    decide

/-- C14 (amended) : `SetAltSetting 0` records alternate setting 0 and issues
exactly one stop notification, but the packetizer does not consult the
alternate setting : an isochronous submission emits the same packets (payload
included), returns the same code and leaves the same state, the recorded
alternate setting apart, whatever the active alternate setting is, 0
included. -/
theorem C14_packetizer_ignores_alt_setting (s : MotionCamera) (a : Nat) (memory : Memory)
    (camera : CameraData) (cmd : IsoMessage) :
    (s.SetAltSetting 0).1 = s.with_altsetting 0
      ∧ (s.SetAltSetting 0).2.1 = [HostEvent.CameraStop]
      ∧ (s.with_altsetting a).m_active_altsetting = a
      ∧ ((s.with_altsetting a).SubmitTransfer_Iso memory camera cmd).packets
          = (s.SubmitTransfer_Iso memory camera cmd).packets
      ∧ ((s.with_altsetting a).SubmitTransfer_Iso memory camera cmd).ret
          = (s.SubmitTransfer_Iso memory camera cmd).ret
      ∧ ((s.with_altsetting a).SubmitTransfer_Iso memory camera cmd).state
          = ((s.SubmitTransfer_Iso memory camera cmd).state).with_altsetting a
      ∧ ((s.SetAltSetting 0).1.SubmitTransfer_Iso memory camera cmd).packets
          = (s.SubmitTransfer_Iso memory camera cmd).packets := by
  have key : ∀ b : Nat,
      ((s.with_altsetting b).SubmitTransfer_Iso memory camera cmd).packets
          = (s.SubmitTransfer_Iso memory camera cmd).packets
      ∧ ((s.with_altsetting b).SubmitTransfer_Iso memory camera cmd).ret
          = (s.SubmitTransfer_Iso memory camera cmd).ret
      ∧ ((s.with_altsetting b).SubmitTransfer_Iso memory camera cmd).state
          = ((s.SubmitTransfer_Iso memory camera cmd).state).with_altsetting b := by
    intro b
    unfold SubmitTransfer_Iso
    cases memory.GetPointerForRange cmd.data_address cmd.length with
    | none => exact ⟨rfl, rfl, rfl⟩
    | some buffer =>
      simp only [packet_loop_alt_setting]
      refine ⟨trivial, trivial, ?_⟩
      unfold replenish
      split <;> rename_i h
      · have h2 : (s.packet_loop 0 cmd.packet_sizes).1.m_image_pos
            = (s.packet_loop 0 cmd.packet_sizes).1.m_image_size := h
        rw [if_pos h2]
        rfl
      · have h2 : ¬ (s.packet_loop 0 cmd.packet_sizes).1.m_image_pos
            = (s.packet_loop 0 cmd.packet_sizes).1.m_image_size := h
        rw [if_neg h2]
  have h0 : (s.SetAltSetting 0).1 = s.with_altsetting 0 := rfl
  refine ⟨h0, rfl, rfl, (key a).1, (key a).2.1, (key a).2.2, ?_⟩
  rw [h0]
  exact (key 0).1

/-! ## Control requests -/

theorem ctrl_key (cmd : CtrlMessage) (h : cmd.request < 256) :
    (cmd.request_type <<< 8) ||| cmd.request = 256 * cmd.request_type + cmd.request := by
  have h1 : cmd.request < 2 ^ 8 := h
  rw [Nat.shiftLeft_eq, Nat.mul_comm, ← Nat.mul_add_lt_is_or h1]

theorem ctrl_not_commit (s : MotionCamera) (memory : Memory) (cmd : CtrlMessage)
    (h : ¬ ((cmd.request_type <<< 8) ||| cmd.request = HDR_H2D_CLASS_INTERFACE SET_CUR
        ∧ (cmd.index >>> 8) % 256 = 0 ∧ (cmd.value >>> 8) % 256 = VS_COMMIT)) :
    s.SubmitTransfer_Ctrl memory cmd
      = some (s.ScheduleTransfer
          (if (cmd.request_type <<< 8) ||| cmd.request = HDR_GET_DESCRIPTOR
            then usb_config_desc else [])) := by
  unfold SubmitTransfer_Ctrl
  simp only []
  split_ifs with k1 k2 k3 k4
  · rfl
  · exact absurd ⟨k2, k3⟩ h
  · rfl
  · rfl
  · rfl

theorem ctrl_result (s : MotionCamera) (memory : Memory) (cmd : CtrlMessage) (r : CtrlResult)
    (h : s.SubmitTransfer_Ctrl memory cmd = some r) :
    r.ret = IPC_SUCCESS ∧ r.completion = (r.response.length : Int)
      ∧ r.response = (if (cmd.request_type <<< 8) ||| cmd.request = HDR_GET_DESCRIPTOR
          then usb_config_desc else []) := by
  unfold SubmitTransfer_Ctrl at h
  simp only [] at h
  split_ifs at h with k1 k2 k3 k4
  · cases h; exact ⟨rfl, rfl, by rw [if_pos k1]; rfl⟩
  · split at h
    · cases h
    · split at h
      · cases h
      · split at h
        · cases h
        · cases h; exact ⟨rfl, rfl, by rw [if_neg k1]; rfl⟩
  · cases h; exact ⟨rfl, rfl, by rw [if_neg k1]; rfl⟩
  · cases h; exact ⟨rfl, rfl, by rw [if_neg k1]; rfl⟩
  · cases h; exact ⟨rfl, rfl, by rw [if_neg k1]; rfl⟩

theorem commit_defined (s : MotionCamera) (memory : Memory) (cmd : CtrlMessage)
    (commit : List Nat) (i : Nat) (hi : 1 ≤ i ∧ i ≤ 5)
    (hkey : (cmd.request_type <<< 8) ||| cmd.request = HDR_H2D_CLASS_INTERFACE SET_CUR)
    (hu : (cmd.index >>> 8) % 256 = 0) (hv : (cmd.value >>> 8) % 256 = VS_COMMIT)
    (hmem : memory.GetPointerForRange cmd.data_address cmd.length = some commit)
    (hidx : commit[3]? = some i) :
    ∃ size, m_supported_sizes[i - 1]? = some size
      ∧ s.SubmitTransfer_Ctrl memory cmd
          = some (MotionCamera.ScheduleTransfer { s with m_active_size := size } []) := by
  obtain ⟨h1, h5⟩ := hi
  have hne : HDR_H2D_CLASS_INTERFACE SET_CUR ≠ HDR_GET_DESCRIPTOR := by decide
  interval_cases i <;>
    simp [SubmitTransfer_Ctrl, hkey, hne, hu, hv, hmem, hidx, offsetof_bFrameIndex,
      supported_size_at, m_supported_sizes]

theorem not_commit_of_fields (cmd : CtrlMessage) (hreq : cmd.request < 256)
    (h : ¬ (cmd.request_type = 0x21 ∧ cmd.request = 0x01 ∧ cmd.index / 256 % 256 = 0
        ∧ cmd.value / 256 % 256 = 2)) :
    ¬ ((cmd.request_type <<< 8) ||| cmd.request = HDR_H2D_CLASS_INTERFACE SET_CUR
        ∧ (cmd.index >>> 8) % 256 = 0 ∧ (cmd.value >>> 8) % 256 = VS_COMMIT) := by
  rintro ⟨hk, hu, hv⟩
  rw [ctrl_key cmd hreq] at hk
  have hk2 : 256 * cmd.request_type + cmd.request = 8449 := hk
  rw [Nat.shiftRight_eq_div_pow] at hu hv
  exact h ⟨by omega, by omega, hu, hv⟩

theorem not_get_descriptor_of_fields (cmd : CtrlMessage) (hreq : cmd.request < 256)
    (h : ¬ (cmd.request_type = 0x80 ∧ cmd.request = 0x06)) :
    ¬ (cmd.request_type <<< 8) ||| cmd.request = HDR_GET_DESCRIPTOR := by
  intro hk
  rw [ctrl_key cmd hreq] at hk
  have hk2 : 256 * cmd.request_type + cmd.request = 32774 := hk
  exact h ⟨by omega, by omega⟩

/-- C18 (evaluation of the code) : a commit (`SET_CUR`, unit 0, `VS_COMMIT`)
whose data region does not resolve, or resolves to a block with frame index
0, has no defined result, so it does not return `IPC_SUCCESS` with an empty
response.  Every other control submission behaves as stated :
`GET_DESCRIPTOR` (request type `0x80`, request `0x06`) is answered with the
whole 777-byte blob and completion size 777 whatever the other fields are;
every request that is neither `GET_DESCRIPTOR` nor a commit returns
`IPC_SUCCESS` with an empty response and completion size 0; and so does every
`SET_CUR` whose result is defined. -/
theorem C18_control_response :
    MotionCamera.init.SubmitTransfer_Ctrl unmapped_memory sample_commit = none
      ∧ MotionCamera.init.SubmitTransfer_Ctrl (sample_memory 0) sample_commit = none
      ∧ (∀ (s : MotionCamera) (memory : Memory) (cmd : CtrlMessage),
          cmd.request_type = 0x80 → cmd.request = 0x06 →
          ∃ r, s.SubmitTransfer_Ctrl memory cmd = some r ∧ r.ret = IPC_SUCCESS
            ∧ r.response = usb_config_desc ∧ r.response.length = 777 ∧ r.completion = 777)
      ∧ (∀ (s : MotionCamera) (memory : Memory) (cmd : CtrlMessage),
          cmd.request_type < 256 → cmd.request < 256 →
          ¬ (cmd.request_type = 0x80 ∧ cmd.request = 0x06) →
          ¬ (cmd.request_type = 0x21 ∧ cmd.request = 0x01 ∧ cmd.index / 256 % 256 = 0
              ∧ cmd.value / 256 % 256 = 2) →
          ∃ r, s.SubmitTransfer_Ctrl memory cmd = some r ∧ r.ret = IPC_SUCCESS
            ∧ r.response = [] ∧ r.completion = 0)
      ∧ (∀ (s : MotionCamera) (memory : Memory) (cmd : CtrlMessage) (r : CtrlResult),
          cmd.request_type = 0x21 → cmd.request = 0x01 →
          s.SubmitTransfer_Ctrl memory cmd = some r →
          r.ret = IPC_SUCCESS ∧ r.response = [] ∧ r.completion = 0) := by
  refine ⟨rfl, rfl, ?_, ?_, ?_⟩
  · intro s memory cmd ht hr
    have hk : (cmd.request_type <<< 8) ||| cmd.request = HDR_GET_DESCRIPTOR := by
      rw [ht, hr]; decide
    have hnc : ¬ ((cmd.request_type <<< 8) ||| cmd.request = HDR_H2D_CLASS_INTERFACE SET_CUR
        ∧ (cmd.index >>> 8) % 256 = 0 ∧ (cmd.value >>> 8) % 256 = VS_COMMIT) := by
      rw [hk]; rintro ⟨h, _⟩; exact absurd h (by decide)
    have h := ctrl_not_commit s memory cmd hnc
    rw [if_pos hk] at h
    have hlen : usb_config_desc.length = 777 := by decide
    exact ⟨_, h, rfl, rfl, hlen, by
      show ((usb_config_desc.length : Nat) : Int) = 777
      rw [hlen]; rfl⟩
  · intro s memory cmd _ hreq hng hnc
    have h := ctrl_not_commit s memory cmd (not_commit_of_fields cmd hreq hnc)
    rw [if_neg (not_get_descriptor_of_fields cmd hreq hng)] at h
    exact ⟨_, h, rfl, rfl, rfl⟩
  · intro s memory cmd r ht hr h
    have hk : ¬ (cmd.request_type <<< 8) ||| cmd.request = HDR_GET_DESCRIPTOR := by
      rw [ht, hr]; decide
    obtain ⟨h1, h2, h3⟩ := ctrl_result s memory cmd r h
    rw [if_neg hk] at h3
    rw [h3] at h2
    exact ⟨h1, h3, h2⟩

/-- C19 : (1) every control request that is not a `SET_CUR` (request type
`0x21`, request `0x01`) with unit 0 and selector `VS_COMMIT` is served and
leaves the whole device state unchanged; (2) a commit with a frame index in
`1..5` is served and changes only the active size, and whenever a control
request yields a state, that state differs from the old one at most in the
active size; (3) no operation other than a control request changes the active
size. -/
theorem C19_commit_is_the_only_mutation :
    (∀ (s : MotionCamera) (memory : Memory) (cmd : CtrlMessage),
        cmd.request_type < 256 → cmd.request < 256 →
        ¬ (cmd.request_type = 0x21 ∧ cmd.request = 0x01 ∧ cmd.index / 256 % 256 = 0
            ∧ cmd.value / 256 % 256 = 2) →
        ∃ r, s.SubmitTransfer_Ctrl memory cmd = some r ∧ r.state = s)
      ∧ (∀ (s : MotionCamera) (memory : Memory) (cmd : CtrlMessage) (commit : List Nat)
          (i : Nat), 1 ≤ i ∧ i ≤ 5 →
          cmd.request_type = 0x21 → cmd.request = 0x01 →
          cmd.index / 256 % 256 = 0 → cmd.value / 256 % 256 = 2 →
          memory.GetPointerForRange cmd.data_address cmd.length = some commit →
          commit[3]? = some i →
          ∃ r, s.SubmitTransfer_Ctrl memory cmd = some r
            ∧ r.state = { s with m_active_size := r.state.m_active_size })
      ∧ (∀ (s : MotionCamera) (memory : Memory) (cmd : CtrlMessage) (r : CtrlResult),
          s.SubmitTransfer_Ctrl memory cmd = some r →
          r.state = { s with m_active_size := r.state.m_active_size })
      ∧ (∀ (s t : MotionCamera) (memory : Memory) (camera : CameraData) (op : Op),
          (∀ cmd, op ≠ Op.ctrl cmd) → s.step memory camera op = some t →
          t.m_active_size = s.m_active_size) := by
  refine ⟨?_, ?_, ?_, ?_⟩
  · intro s memory cmd _ hreq hnc
    exact ⟨_, ctrl_not_commit s memory cmd (not_commit_of_fields cmd hreq hnc), rfl⟩
  · intro s memory cmd commit i hi ht hr hu hv hmem hidx
    have hkey : (cmd.request_type <<< 8) ||| cmd.request = HDR_H2D_CLASS_INTERFACE SET_CUR := by
      rw [ht, hr]; decide
    obtain ⟨size, _, h⟩ := commit_defined s memory cmd commit i hi hkey
      (by rw [Nat.shiftRight_eq_div_pow]; exact hu)
      (by rw [Nat.shiftRight_eq_div_pow]; exact hv) hmem hidx
    exact ⟨_, h, rfl⟩
  · intro s memory cmd r h
    exact ctrl_frame s memory cmd r h
  · intro s t memory camera op hop h
    cases op with
    | ctrl cmd => exact absurd rfl (hop cmd)
    | iso cmd =>
      simp only [step, Option.some.injEq] at h
      subst h
      rcases iso_cases s memory camera cmd with ⟨_, hst⟩ | ⟨_, hst⟩
      · rw [hst]
      · rw [hst, packet_loop_frame]
        unfold replenish
        split <;> rfl
    | attachAndChangeInterface interface =>
      simp only [step, Option.some.injEq, AttachAndChangeInterface, Attach, ChangeInterface] at h
      subst h
      split_ifs <;> rfl
    | bulk cmd => cases h; rfl
    | intr cmd => cases h; rfl
    | attach => cases h; rfl
    | cancelTransfer endpoint => cases h; rfl
    | changeInterface interface => cases h; rfl
    | setAltSetting alt_setting =>
      simp only [step, Option.some.injEq, SetAltSetting] at h
      subst h
      split_ifs <;> rfl

/-- Instance of C19 : on a fresh device, a probe request, a commit of frame
index 2, and an alternate-setting change. -/
theorem C19_commit_is_the_only_mutation_witness :
    (∃ r, MotionCamera.init.SubmitTransfer_Ctrl (sample_memory 2) sample_probe = some r
        ∧ r.state = MotionCamera.init)
      ∧ (∃ r, MotionCamera.init.SubmitTransfer_Ctrl (sample_memory 2) sample_commit = some r
        ∧ r.state = { MotionCamera.init with m_active_size := r.state.m_active_size })
      ∧ (MotionCamera.init.SetAltSetting 1).1.m_active_size
          = MotionCamera.init.m_active_size :=
  ⟨C19_commit_is_the_only_mutation.1 MotionCamera.init (sample_memory 2) sample_probe
      (by decide) (by decide) (by decide),
    C19_commit_is_the_only_mutation.2.1 MotionCamera.init (sample_memory 2) sample_commit
      [0, 0, 1, 2, 0x15, 0x16, 0x05, 0x00, 0, 0, 0, 0, 0, 0, 0, 0, 0, 0, 0, 0, 0, 0, 0, 0, 0, 0]
      2 (by decide) rfl rfl (by decide) (by decide) rfl rfl,
    C19_commit_is_the_only_mutation.2.2.2 MotionCamera.init
      (MotionCamera.init.SetAltSetting 1).1 (sample_memory 2) sample_camera
      (Op.setAltSetting 1) (by intro cmd h; cases h) rfl⟩

/-! ## Replenish -/

theorem packet_loop_payload_sum (caps : List Nat) :
    ∀ (s : MotionCamera) (p : Nat), s.WellFormed →
      (s.packet_loop p caps).1.m_image_pos
        = s.m_image_pos + ((s.packet_loop p caps).2.map (fun q => q.payload.length)).sum := by
  induction caps with
  | nil => intro s p _; simp [packet_loop]
  | cons c rest ih =>
    intro s p hs
    have h := ih (s.after_packet c) (p + sizeof_UVCHeader + s.data_size c)
      (s.after_packet_wf c hs)
    have hL1 : (s.packet_loop p (c :: rest)).1
        = ((s.after_packet c).packet_loop (p + sizeof_UVCHeader + s.data_size c) rest).1 :=
      rfl
    have hL2 : (s.packet_loop p (c :: rest)).2
        = s.emit_packet p c
          :: ((s.after_packet c).packet_loop (p + sizeof_UVCHeader + s.data_size c) rest).2 :=
      rfl
    rw [hL1, hL2, h, after_packet_pos s c hs, List.map_cons, List.sum_cons]
    show _ = s.m_image_pos + ((s.packet_payload c).length + _)
    rw [packet_payload_length s c hs]
    omega

/-- C11 : for an isochronous submission with a resolvable buffer, made in a
reachable state with the shared frame source holding its
`CameraData.capacity` bytes, and with `L` the result of the packet loop :
the cursor after the loop is the old cursor plus the payload bytes copied; if
it equals the frame size, the frame buffer becomes the first frame-size bytes
of the shared frame source and the cursor becomes 0; otherwise the frame
buffer is unchanged and the cursor stays the old value plus the payload bytes
copied.  Hence the cursor is strictly below the (unchanged) frame size after
the submission, and the frame buffer is the old one after every packet of the
loop : it is never replaced between two packets. -/
theorem C11_replenish_at_transfer_boundary (s : MotionCamera) (hs : Reachable s)
    (memory : Memory) (camera : CameraData) (cmd : IsoMessage)
    (hcam : camera.m_image_data.length = CameraData.capacity)
    (hres : memory.GetPointerForRange cmd.data_address cmd.length ≠ none) :
    (s.SubmitTransfer_Iso memory camera cmd).ret = IPC_SUCCESS
      ∧ (s.SubmitTransfer_Iso memory camera cmd).packets = (s.packet_loop 0 cmd.packet_sizes).2
      ∧ (s.packet_loop 0 cmd.packet_sizes).1.m_image_pos
          = s.m_image_pos
            + ((s.SubmitTransfer_Iso memory camera cmd).packets.map
                (fun q => q.payload.length)).sum
      ∧ ((s.packet_loop 0 cmd.packet_sizes).1.m_image_pos = s.m_image_size →
          (s.SubmitTransfer_Iso memory camera cmd).state.m_image_data
              = camera.m_image_data.take s.m_image_size
            ∧ (s.SubmitTransfer_Iso memory camera cmd).state.m_image_data.length
              = s.m_image_size
            ∧ (s.SubmitTransfer_Iso memory camera cmd).state.m_image_pos = 0)
      ∧ ((s.packet_loop 0 cmd.packet_sizes).1.m_image_pos ≠ s.m_image_size →
          (s.SubmitTransfer_Iso memory camera cmd).state.m_image_data = s.m_image_data
            ∧ (s.SubmitTransfer_Iso memory camera cmd).state.m_image_pos
              = s.m_image_pos
                + ((s.SubmitTransfer_Iso memory camera cmd).packets.map
                    (fun q => q.payload.length)).sum)
      ∧ (s.SubmitTransfer_Iso memory camera cmd).state.m_image_size = s.m_image_size
      ∧ (s.SubmitTransfer_Iso memory camera cmd).state.m_image_pos < s.m_image_size
      ∧ ∀ k, (s.packet_loop 0 (cmd.packet_sizes.take k)).1.m_image_data = s.m_image_data := by
  obtain ⟨hwf, hsz⟩ := reachable_wf s hs
  have hiso := iso_resolved s memory camera cmd hres
  have hLwf := packet_loop_wf cmd.packet_sizes s 0 hwf
  have hsum := packet_loop_payload_sum cmd.packet_sizes s 0 hwf
  have hfr := packet_loop_frame cmd.packet_sizes s 0
  have hdata : (s.packet_loop 0 cmd.packet_sizes).1.m_image_data = s.m_image_data := by
    rw [hfr]
  rw [hiso]
  simp only []
  refine ⟨trivial, trivial, hsum, ?_, ?_, ?_, ?_, ?_⟩
  · intro h
    have h2 : (s.packet_loop 0 cmd.packet_sizes).1.m_image_pos
        = (s.packet_loop 0 cmd.packet_sizes).1.m_image_size := by rw [hLwf.2]; exact h
    unfold replenish
    rw [if_pos h2]
    simp only [CameraData.GetData, hdata, hLwf.2]
    have hd : s.m_image_data.drop s.m_image_size = [] :=
      List.drop_of_length_le (by rw [hwf.2.2])
    rw [hd, List.append_nil]
    refine ⟨rfl, ?_, trivial⟩
    rw [List.length_take, hcam, hsz]
    decide
  · intro h
    have h2 : (s.packet_loop 0 cmd.packet_sizes).1.m_image_pos
        ≠ (s.packet_loop 0 cmd.packet_sizes).1.m_image_size := by rw [hLwf.2]; exact h
    rw [replenish_of_ne _ _ h2]
    exact ⟨hdata, hsum⟩
  · rw [(replenish_wf _ camera hLwf.1 (by rw [hLwf.2, hsz, hcam]; decide)).2, hLwf.2]
  · unfold replenish
    split
    · show 0 < s.m_image_size
      rw [hsz]; decide
    · rename_i h
      have := hLwf.1.2.1
      rw [hLwf.2] at this h
      omega
  · intro k
    rw [packet_loop_frame]

theorem sample_midframe_reachable : Reachable sample_midframe :=
  Reachable.step sample_iso.memory sample_iso.camera (Op.iso sample_iso.cmd)
    (Reachable.step sample_iso.memory sample_iso.camera (Op.iso sample_iso.cmd)
      Reachable.init (List.length_replicate _ _) rfl)
    (List.length_replicate _ _) rfl

/-- Instance of C11 : the third `sample_iso` submission on a fresh device
completes the first frame, so the frame buffer is refilled from the shared
frame source and the cursor returns to 0. -/
theorem C11_replenish_at_transfer_boundary_witness :
    (sample_midframe.SubmitTransfer_Iso sample_iso.memory sample_camera sample_iso.cmd).ret
        = IPC_SUCCESS
      ∧ (sample_midframe.packet_loop 0 sample_iso.cmd.packet_sizes).1.m_image_pos
          = sample_midframe.m_image_size
      ∧ ((sample_midframe.SubmitTransfer_Iso sample_iso.memory sample_camera
            sample_iso.cmd).state.m_image_data
              = sample_camera.m_image_data.take sample_midframe.m_image_size
          ∧ (sample_midframe.SubmitTransfer_Iso sample_iso.memory sample_camera
              sample_iso.cmd).state.m_image_data.length = sample_midframe.m_image_size
          ∧ (sample_midframe.SubmitTransfer_Iso sample_iso.memory sample_camera
              sample_iso.cmd).state.m_image_pos = 0)
      ∧ (sample_midframe.SubmitTransfer_Iso sample_iso.memory sample_camera
            sample_iso.cmd).state.m_image_pos < sample_midframe.m_image_size :=
  ⟨(C11_replenish_at_transfer_boundary sample_midframe sample_midframe_reachable
      sample_iso.memory sample_camera sample_iso.cmd (List.length_replicate _ _)
      (by simp [sample_iso, sample_memory])).1,
    by decide,
    (C11_replenish_at_transfer_boundary sample_midframe sample_midframe_reachable
      sample_iso.memory sample_camera sample_iso.cmd (List.length_replicate _ _)
      (by simp [sample_iso, sample_memory])).2.2.2.1 (by decide),
    (C11_replenish_at_transfer_boundary sample_midframe sample_midframe_reachable
      sample_iso.memory sample_camera sample_iso.cmd (List.length_replicate _ _)
      (by simp [sample_iso, sample_memory])).2.2.2.2.2.2.1⟩

/-! ## Alternate-setting count and no-op submissions -/

/-- C21 : `GetNumberOfAltSettings` returns 7 for interface 1 and 1 for every
other interface number, whatever the device state (it is a function of the
interface number alone and writes no member); for interfaces 0 and 1 the
entries of the list `GetInterfaces` returns with that `bInterfaceNumber` have
the `bAlternateSetting` values `0 .. count - 1` in order, `count` being that
number; and the `bNumEndpoints` of every entry is the number of endpoints
`GetEndpoints` returns for its interface and alternate setting. -/
theorem C21_alt_setting_count :
    (∀ (s : MotionCamera), s.GetNumberOfAltSettings 1 = 7)
      ∧ (∀ (s : MotionCamera) (interface : Nat), interface ≠ 1 →
          s.GetNumberOfAltSettings interface = 1)
      ∧ (∀ (s t : MotionCamera) (interface : Nat),
          s.GetNumberOfAltSettings interface = t.GetNumberOfAltSettings interface)
      ∧ (∀ (s : MotionCamera) (config : Nat),
          (((s.GetInterfaces config).filter (fun d => d.bInterfaceNumber = 0)).map
              InterfaceDescriptor.bAlternateSetting = List.range 1
            ∧ (((s.GetInterfaces config).filter (fun d => d.bInterfaceNumber = 0)).length : Int)
                = s.GetNumberOfAltSettings 0)
          ∧ (((s.GetInterfaces config).filter (fun d => d.bInterfaceNumber = 1)).map
              InterfaceDescriptor.bAlternateSetting = List.range 7
            ∧ (((s.GetInterfaces config).filter (fun d => d.bInterfaceNumber = 1)).length : Int)
                = s.GetNumberOfAltSettings 1)
          ∧ (∀ d ∈ s.GetInterfaces config, d.bInterfaceNumber = 0 ∨ d.bInterfaceNumber = 1)
          ∧ ∀ d ∈ s.GetInterfaces config,
              (s.GetEndpoints config d.bInterfaceNumber d.bAlternateSetting).map List.length
                = some d.bNumEndpoints) := by
  refine ⟨fun _ => rfl, ?_, fun _ _ _ => rfl, ?_⟩
  · intro s interface h
    unfold GetNumberOfAltSettings
    rw [if_neg h]
  · intro s config
    have h0 : ((s_interface_descriptor.filter (fun d => d.bInterfaceNumber = 0)).map
          InterfaceDescriptor.bAlternateSetting = List.range 1
        ∧ ((s_interface_descriptor.filter (fun d => d.bInterfaceNumber = 0)).length : Int)
            = 1) := by decide
    have h1 : ((s_interface_descriptor.filter (fun d => d.bInterfaceNumber = 1)).map
          InterfaceDescriptor.bAlternateSetting = List.range 7
        ∧ ((s_interface_descriptor.filter (fun d => d.bInterfaceNumber = 1)).length : Int)
            = 7) := by decide
    refine ⟨h0, h1, ?_, ?_⟩
    · show ∀ d ∈ s_interface_descriptor, d.bInterfaceNumber = 0 ∨ d.bInterfaceNumber = 1
      decide
    · show ∀ d ∈ s_interface_descriptor,
        (s.GetEndpoints config d.bInterfaceNumber d.bAlternateSetting).map List.length
          = some d.bNumEndpoints
      intro d hd
      simp only [s_interface_descriptor, List.mem_cons, List.mem_singleton,
        List.not_mem_nil, or_false] at hd
      rcases hd with rfl | rfl | rfl | rfl | rfl | rfl | rfl | rfl <;> rfl

/-- C24 : a bulk submission, an interrupt submission and a transfer
cancellation each return `IPC_SUCCESS` and leave the whole device state
unchanged, for every message and every endpoint number; the embedded methods
produce nothing but the state and the return code, so no data is moved. -/
theorem C24_noop_submissions :
    (∀ (s : MotionCamera) (cmd : BulkMessage), s.SubmitTransfer_Bulk cmd = (s, IPC_SUCCESS))
      ∧ (∀ (s : MotionCamera) (cmd : IntrMessage), s.SubmitTransfer_Intr cmd = (s, IPC_SUCCESS))
      ∧ (∀ (s : MotionCamera) (endpoint : Nat), s.CancelTransfer endpoint = (s, IPC_SUCCESS))
      ∧ (∀ (s : MotionCamera) (memory : Memory) (camera : CameraData) (cmd : BulkMessage),
          s.step memory camera (Op.bulk cmd) = some s)
      ∧ (∀ (s : MotionCamera) (memory : Memory) (camera : CameraData) (cmd : IntrMessage),
          s.step memory camera (Op.intr cmd) = some s)
      ∧ (∀ (s : MotionCamera) (memory : Memory) (camera : CameraData) (endpoint : Nat),
          s.step memory camera (Op.cancelTransfer endpoint) = some s) :=
  ⟨fun _ _ => rfl, fun _ _ => rfl, fun _ _ => rfl, fun _ _ _ _ => rfl, fun _ _ _ _ => rfl,
    fun _ _ _ _ => rfl⟩

/-! ## Resolution table and advertised frames -/

/-- C27 : in the raw configuration blob, the frame descriptors of the
streaming interface (interface 1), both the uncompressed ones (subtype `0x05`)
and the MJPEG ones (subtype `0x07`), carry the frame indices 1, 2, 3, 4, 5 in
order and no other, and the `(wWidth, wHeight)` of the descriptor with frame
index `i` is entry `i - 1` of the resolution table, the size a commit of `i`
selects. -/
theorem C27_table_matches_advertised_frames :
    (class_descriptors 1 0x05 none blob_descriptors).map raw_bFrameIndex = [1, 2, 3, 4, 5]
      ∧ (class_descriptors 1 0x07 none blob_descriptors).map raw_bFrameIndex = [1, 2, 3, 4, 5]
      ∧ (class_descriptors 1 0x05 none blob_descriptors).map raw_frame_size = m_supported_sizes
      ∧ (class_descriptors 1 0x07 none blob_descriptors).map raw_frame_size = m_supported_sizes
      ∧ (∀ d ∈ class_descriptors 1 0x05 none blob_descriptors,
          1 ≤ raw_bFrameIndex d ∧ raw_bFrameIndex d ≤ 5
            ∧ supported_size_at (raw_bFrameIndex d) = some (raw_frame_size d)
            ∧ m_supported_sizes[raw_bFrameIndex d - 1]? = some (raw_frame_size d))
      ∧ (∀ d ∈ class_descriptors 1 0x07 none blob_descriptors,
          1 ≤ raw_bFrameIndex d ∧ raw_bFrameIndex d ≤ 5
            ∧ supported_size_at (raw_bFrameIndex d) = some (raw_frame_size d)
            ∧ m_supported_sizes[raw_bFrameIndex d - 1]? = some (raw_frame_size d))
      ∧ m_supported_sizes
          = [⟨640, 480⟩, ⟨320, 240⟩, ⟨160, 120⟩, ⟨176, 144⟩, ⟨352, 288⟩] := by
  refine ⟨by decide, by decide, by decide, by decide, by decide, by decide, rfl⟩

/-! ## The shared frame source -/

theorem flatMap_range_length (f : Nat → List Nat) (m : Nat) (h : ∀ i, (f i).length = m) :
    ∀ n, ((List.range n).flatMap f).length = m * n := by
  intro n
  induction n with
  | zero => simp
  | succ k ih =>
    rw [List.range_succ, List.flatMap_append, List.length_append, ih]
    simp only [List.flatMap_cons, List.flatMap_nil, List.append_nil, h]
    rw [Nat.mul_succ]

theorem flatMap_range_get (f : Nat → List Nat) (m : Nat) (h : ∀ i, (f i).length = m) :
    ∀ n i j, i < n → j < m → ((List.range n).flatMap f)[m * i + j]? = (f i)[j]? := by
  intro n
  induction n with
  | zero => intro i j hi; omega
  | succ k ih =>
    intro i j hi hj
    rw [List.range_succ, List.flatMap_append]
    have hlen := flatMap_range_length f m h k
    by_cases hik : i < k
    · have hlt : m * i + j < m * k := by
        have : m * (i + 1) ≤ m * k := Nat.mul_le_mul_left m hik
        rw [Nat.mul_succ] at this
        omega
      rw [List.getElem?_append_left (by rw [hlen]; exact hlt)]
      exact ih i j hik hj
    · have hik2 : i = k := by omega
      subst hik2
      rw [List.getElem?_append_right (by rw [hlen]; omega), hlen]
      simp only [List.flatMap_cons, List.flatMap_nil, List.append_nil]
      congr 1
      omega

theorem pattern_row_length (line : Nat) :
    ((List.range 320).flatMap (fun col => CameraData.pattern_pixel line col)).length = 640 :=
  flatMap_range_length (fun col => CameraData.pattern_pixel line col) 2 (fun _ => rfl) 320

theorem test_pattern_length : CameraData.test_pattern.length = 153600 :=
  flatMap_range_length _ 640 pattern_row_length 240

theorem test_pattern_get (line col j : Nat) (hl : line < 240) (hc : col < 320) (hj : j < 2) :
    CameraData.test_pattern[2 * (320 * line + col) + j]?
      = (CameraData.pattern_pixel line col)[j]? := by
  have h1 := flatMap_range_get
    (fun line => (List.range 320).flatMap (fun col => CameraData.pattern_pixel line col))
    640 pattern_row_length 240 line (2 * col + j) hl (by omega)
  have h2 := flatMap_range_get (fun col => CameraData.pattern_pixel line col) 2
    (fun _ => rfl) 320 col j hc hj
  have e : 2 * (320 * line + col) + j = 640 * line + (2 * col + j) := by omega
  rw [e]
  exact h1.trans h2

theorem memcpy_offsets_bounded (length n : Nat) :
    (∀ off ∈ memcpy_offsets length, off < n) ↔ length ≤ n := by
  unfold memcpy_offsets
  constructor
  · intro h
    by_contra hn
    have := h n (List.mem_range.mpr (by omega))
    omega
  · intro h off hoff
    have := List.mem_range.mp hoff
    omega

theorem SetData_overrun (cam : CameraData) (data : List Nat) (length : Nat)
    (h : cam.m_image_data.length < length) :
    cam.SetData data length = none ∧ cam.m_image_data.length ∈ memcpy_offsets length := by
  constructor
  · unfold CameraData.SetData
    rw [if_neg]
    rintro ⟨h1, _⟩
    have := (memcpy_offsets_bounded length _).mp h1
    omega
  · exact List.mem_range.mpr h

/-- C22 : for a shared frame source with its allocation of
`CameraData.capacity` (153600) bytes, every length `L` up to that capacity
and every `data` of `L` bytes, `SetData data L` succeeds and a following
`GetData dst L` leaves the first `L` bytes of the destination equal to `data`
(and the bytes of the destination from `L` on as they were). -/
theorem C22_deposit_replenish_round_trip (cam : CameraData) (data dst : List Nat) (L : Nat)
    (hcap : cam.m_image_data.length = CameraData.capacity) (hL : L ≤ CameraData.capacity)
    (hdata : data.length = L) :
    ∃ cam', cam.SetData data L = some cam'
      ∧ (cam'.GetData dst L).take L = data
      ∧ (cam'.GetData dst L).drop L = dst.drop L
      ∧ cam'.m_image_size = L
      ∧ cam'.m_image_data.length = CameraData.capacity := by
  have hok : (∀ off ∈ memcpy_offsets L, off < cam.m_image_data.length) ∧ L ≤ data.length :=
    ⟨(memcpy_offsets_bounded L _).mpr (by rw [hcap]; exact hL), by omega⟩
  subst hdata
  have h1 : data.take data.length = data := List.take_length data
  have h2 : ∀ D : List Nat, (data ++ D).take data.length = data := by
    intro D
    rw [List.take_append_of_le_length (Nat.le_refl _), h1]
  have h3 : ∀ D : List Nat, (data ++ D).drop data.length = D := by
    intro D
    rw [List.drop_append_of_le_length (Nat.le_refl _), List.drop_length, List.nil_append]
  refine ⟨_, by unfold CameraData.SetData; rw [if_pos hok], ?_, ?_, rfl, ?_⟩
  · simp only [CameraData.GetData]
    rw [h1, h2, h2]
  · simp only [CameraData.GetData]
    rw [h1, h2, h3]
  · simp only [List.length_append, List.length_take, List.length_drop, hcap]
    omega

/-- Instance of C22 : `L` equal to the buffer capacity. -/
theorem C22_deposit_replenish_round_trip_witness :
    ∃ cam', sample_camera.SetData (List.replicate CameraData.capacity 9) CameraData.capacity
        = some cam'
      ∧ (cam'.GetData (List.replicate CameraData.capacity 0) CameraData.capacity).take
          CameraData.capacity = List.replicate CameraData.capacity 9
      ∧ (cam'.GetData (List.replicate CameraData.capacity 0) CameraData.capacity).drop
          CameraData.capacity = (List.replicate CameraData.capacity 0).drop CameraData.capacity
      ∧ cam'.m_image_size = CameraData.capacity
      ∧ cam'.m_image_data.length = CameraData.capacity :=
  C22_deposit_replenish_round_trip sample_camera (List.replicate CameraData.capacity 9)
    (List.replicate CameraData.capacity 0) CameraData.capacity
    (List.length_replicate _ _) (Nat.le_refl _) (List.length_replicate _ _)

/-- C23 (evaluation of the code) : the shared buffer is allocated with 153600
bytes; for a 640 x 480 frame `VideoFrameChanged` passes the length 614400 to
`SetData`, whose `memcpy` then writes the offsets `0 .. 614399`, offset 153600
and beyond included : the deposit overruns the allocation and has no defined
result.  The same holds for every length above the allocation. -/
theorem C23_deposit_overruns_allocation :
    CameraData.init.m_image_data.length = 153600
      ∧ yuy2Size 640 480 = 614400
      ∧ 153600 ∈ memcpy_offsets (yuy2Size 640 480)
      ∧ ¬ (∀ off ∈ memcpy_offsets (yuy2Size 640 480), off < CameraData.init.m_image_data.length)
      ∧ CameraData.init.SetData (List.replicate 614400 0) (yuy2Size 640 480) = none
      ∧ (∀ (cam : CameraData) (data : List Nat) (length : Nat),
          cam.m_image_data.length < length →
          cam.SetData data length = none ∧ cam.m_image_data.length ∈ memcpy_offsets length) := by
  have hlen : CameraData.init.m_image_data.length = 153600 := test_pattern_length
  have hsz : yuy2Size 640 480 = 614400 := by decide
  have hlt : CameraData.init.m_image_data.length < yuy2Size 640 480 := by
    rw [hlen, hsz]; decide
  have h := SetData_overrun CameraData.init (List.replicate 614400 0) (yuy2Size 640 480) hlt
  refine ⟨hlen, hsz, ?_, ?_, h.1, SetData_overrun⟩
  · have := h.2
    rwa [hlen] at this
  · intro hall
    have := (memcpy_offsets_bounded _ _).mp hall
    omega

/-! ## The test pattern -/

theorem tdiv_cases (a b : Int) (hb : 0 < b) :
    Int.tdiv a b = if 0 ≤ a then a / b else -((-a) / b) := by
  split
  · rename_i h; exact Int.tdiv_eq_ediv h (Int.le_of_lt hb)
  · rename_i h
    have h1 : Int.tdiv (-(-a)) b = -(Int.tdiv (-a) b) := Int.neg_tdiv _ _
    rw [Int.neg_neg] at h1
    rw [h1, Int.tdiv_eq_ediv (by omega) (Int.le_of_lt hb)]

theorem to_u8_of_range (x : Int) (n : Nat) (h : x = (n : Int)) (hn : n < 256) :
    to_u8 x = n := by
  unfold to_u8
  subst h
  omega

theorem pattern_r_eq (col : Nat) (h : col < 320) :
    CameraData.pattern_r col = col * 255 / 320 := by
  unfold CameraData.pattern_r
  rw [tdiv_cases _ _ (by decide), if_pos (by omega)]
  exact to_u8_of_range _ _ (by omega) (by omega)

theorem pattern_b_eq (line : Nat) (h : line < 240) :
    CameraData.pattern_b line = line * 255 / 240 := by
  unfold CameraData.pattern_b
  rw [tdiv_cases _ _ (by decide), if_pos (by omega)]
  exact to_u8_of_range _ _ (by omega) (by omega)

theorem pattern_y_eq (line col : Nat) (hl : line < 240) (hc : col < 320) :
    CameraData.pattern_y line col
      = (66 * (col * 255 / 320) + 129 * (col * 255 / 320) + 25 * (line * 255 / 240) + 128)
          / 256 + 16 := by
  unfold CameraData.pattern_y
  rw [pattern_r_eq col hc, pattern_b_eq line hl]
  have hr : col * 255 / 320 ≤ 254 := by omega
  have hb : line * 255 / 240 ≤ 254 := by omega
  generalize col * 255 / 320 = r at hr ⊢
  generalize line * 255 / 240 = b at hb ⊢
  rw [tdiv_cases _ _ (by decide), if_pos (by omega)]
  exact to_u8_of_range _ _ (by omega) (by omega)

theorem to_u8_shift (q : Int) (h1 : -112 ≤ q) (h2 : q ≤ 112) :
    ((to_u8 (q + 128) : Nat) : Int) = q + 128
      ∧ 16 ≤ to_u8 (q + 128) ∧ to_u8 (q + 128) ≤ 240 := by
  unfold to_u8
  omega

theorem pattern_u_eq (line col : Nat) (hl : line < 240) (hc : col < 320) :
    (CameraData.pattern_u line col : Int)
        = Int.tdiv (-38 * ((col * 255 / 320 : Nat) : Int) - 74 * ((col * 255 / 320 : Nat) : Int)
            + 112 * ((line * 255 / 240 : Nat) : Int) + 128) 256 + 128
      ∧ 16 ≤ CameraData.pattern_u line col ∧ CameraData.pattern_u line col ≤ 240 := by
  unfold CameraData.pattern_u
  rw [pattern_r_eq col hc, pattern_b_eq line hl]
  have hr : col * 255 / 320 ≤ 254 := by omega
  have hb : line * 255 / 240 ≤ 254 := by omega
  generalize col * 255 / 320 = r at hr ⊢
  generalize line * 255 / 240 = b at hb ⊢
  have hq : -112 ≤ Int.tdiv (-38 * (r : Int) - 74 * (r : Int) + 112 * (b : Int) + 128) 256
      ∧ Int.tdiv (-38 * (r : Int) - 74 * (r : Int) + 112 * (b : Int) + 128) 256 ≤ 112 := by
    rw [tdiv_cases _ _ (by decide)]
    split <;> omega
  exact to_u8_shift _ hq.1 hq.2

theorem pattern_v_eq (line col : Nat) (hl : line < 240) (hc : col < 320) :
    (CameraData.pattern_v line col : Int)
        = Int.tdiv (112 * ((col * 255 / 320 : Nat) : Int) - 94 * ((col * 255 / 320 : Nat) : Int)
            - 18 * ((line * 255 / 240 : Nat) : Int) + 128) 256 + 128
      ∧ 16 ≤ CameraData.pattern_v line col ∧ CameraData.pattern_v line col ≤ 240 := by
  unfold CameraData.pattern_v
  rw [pattern_r_eq col hc, pattern_b_eq line hl]
  have hr : col * 255 / 320 ≤ 254 := by omega
  have hb : line * 255 / 240 ≤ 254 := by omega
  generalize col * 255 / 320 = r at hr ⊢
  generalize line * 255 / 240 = b at hb ⊢
  have hq : -112 ≤ Int.tdiv (112 * (r : Int) - 94 * (r : Int) - 18 * (b : Int) + 128) 256
      ∧ Int.tdiv (112 * (r : Int) - 94 * (r : Int) - 18 * (b : Int) + 128) 256 ≤ 112 := by
    rw [tdiv_cases _ _ (by decide)]
    split <;> omega
  exact to_u8_shift _ hq.1 hq.2

/-- C26 : for every `line` in `0..239` and `col` in `0..319`, the byte of the
test pattern at offset `2 * (320 * line + col)` is the luma
`Y = (66 r + 129 g + 25 b + 128) / 256 + 16` with `r = g = col * 255 / 320`
and `b = line * 255 / 240`, and the next byte is `U` for even `col` and `V` for
odd `col`, with `U = (-38 r - 74 g + 112 b + 128) / 256 + 128` and
`V = (112 r - 94 g - 18 b + 128) / 256 + 128` (division truncating toward
zero), none of them changed by the narrowing to 8 bits; `Y` lies in
`[16, 235]`, `U` and `V` lie in `[16, 240]`; `Y` is non-decreasing in `col`
for the fixed `line` and in `line` for the fixed `col`; and pixel `(0, 0)` is
the byte pair `(16, 128)`. -/
theorem C26_test_pattern_gradient (line col : Nat) (hl : line < 240) (hc : col < 320) :
    CameraData.test_pattern[2 * (320 * line + col)]?
        = some ((66 * (col * 255 / 320) + 129 * (col * 255 / 320) + 25 * (line * 255 / 240)
            + 128) / 256 + 16)
      ∧ CameraData.test_pattern[2 * (320 * line + col) + 1]?
        = some (if col % 2 = 0 then CameraData.pattern_u line col
            else CameraData.pattern_v line col)
      ∧ CameraData.pattern_y line col
        = (66 * (col * 255 / 320) + 129 * (col * 255 / 320) + 25 * (line * 255 / 240) + 128)
            / 256 + 16
      ∧ (CameraData.pattern_u line col : Int)
        = Int.tdiv (-38 * ((col * 255 / 320 : Nat) : Int) - 74 * ((col * 255 / 320 : Nat) : Int)
            + 112 * ((line * 255 / 240 : Nat) : Int) + 128) 256 + 128
      ∧ (CameraData.pattern_v line col : Int)
        = Int.tdiv (112 * ((col * 255 / 320 : Nat) : Int) - 94 * ((col * 255 / 320 : Nat) : Int)
            - 18 * ((line * 255 / 240 : Nat) : Int) + 128) 256 + 128
      ∧ (16 ≤ CameraData.pattern_y line col ∧ CameraData.pattern_y line col ≤ 235)
      ∧ (16 ≤ CameraData.pattern_u line col ∧ CameraData.pattern_u line col ≤ 240)
      ∧ (16 ≤ CameraData.pattern_v line col ∧ CameraData.pattern_v line col ≤ 240)
      ∧ (∀ col', col ≤ col' → col' < 320 →
          CameraData.pattern_y line col ≤ CameraData.pattern_y line col')
      ∧ (∀ line', line ≤ line' → line' < 240 →
          CameraData.pattern_y line col ≤ CameraData.pattern_y line' col)
      ∧ CameraData.test_pattern[0]? = some 16
      ∧ CameraData.test_pattern[1]? = some 128 := by
  have hy := pattern_y_eq line col hl hc
  have hu := pattern_u_eq line col hl hc
  have hv := pattern_v_eq line col hl hc
  have g0 := test_pattern_get line col 0 hl hc (by decide)
  have g1 := test_pattern_get line col 1 hl hc (by decide)
  have z0 := test_pattern_get 0 0 0 (by decide) (by decide) (by decide)
  have z1 := test_pattern_get 0 0 1 (by decide) (by decide) (by decide)
  have hy0 : CameraData.pattern_y 0 0 = 16 := by
    rw [pattern_y_eq 0 0 (by decide) (by decide)]
  have hu0 := (pattern_u_eq 0 0 (by decide) (by decide)).1
  have hu1 : CameraData.pattern_u 0 0 = 128 := by
    have e : Int.tdiv (-38 * ((0 * 255 / 320 : Nat) : Int) - 74 * ((0 * 255 / 320 : Nat) : Int)
        + 112 * ((0 * 255 / 240 : Nat) : Int) + 128) 256 + 128 = 128 := by decide
    rw [e] at hu0
    omega
  refine ⟨?_, ?_, hy, hu.1, hv.1, ?_, hu.2, hv.2, ?_, ?_, ?_, ?_⟩
  · rw [← hy]; exact g0
  · exact g1
  · rw [hy]; omega
  · intro col' h1 h2
    rw [hy, pattern_y_eq line col' hl h2]
    omega
  · intro line' h1 h2
    rw [hy, pattern_y_eq line' col h2 hc]
    omega
  · rw [← hy0]; exact z0
  · rw [← hu1]; exact z1

/-- Instance of C26 : the pixel of line 120, column 161. -/
theorem C26_test_pattern_gradient_witness :
    CameraData.test_pattern[2 * (320 * 120 + 161)]?
        = some ((66 * (161 * 255 / 320) + 129 * (161 * 255 / 320) + 25 * (120 * 255 / 240)
            + 128) / 256 + 16)
      ∧ CameraData.test_pattern[2 * (320 * 120 + 161) + 1]?
        = some (if 161 % 2 = 0 then CameraData.pattern_u 120 161
            else CameraData.pattern_v 120 161)
      ∧ CameraData.pattern_y 120 161
        = (66 * (161 * 255 / 320) + 129 * (161 * 255 / 320) + 25 * (120 * 255 / 240) + 128)
            / 256 + 16 :=
  ⟨(C26_test_pattern_gradient 120 161 (by decide) (by decide)).1,
    (C26_test_pattern_gradient 120 161 (by decide) (by decide)).2.1,
    (C26_test_pattern_gradient 120 161 (by decide) (by decide)).2.2.1⟩


/-! ## Packets after the end of a frame -/

theorem data_size_idle (s : MotionCamera) (c : Nat) (hs : s.WellFormed)
    (h : s.m_image_pos = s.m_image_size) : s.data_size c = 0 := by
  have := s.data_size_le c hs.2.1 hs.1
  omega

theorem completes_frame_idle (s : MotionCamera) (c : Nat) (hs : s.WellFormed)
    (h : s.m_image_pos = s.m_image_size) : s.completes_frame c = false := by
  unfold completes_frame
  rw [data_size_idle s c hs h]
  simp

theorem after_packet_idle (s : MotionCamera) (c : Nat) (hs : s.WellFormed)
    (h : s.m_image_pos = s.m_image_size) : s.after_packet c = s := by
  have hd := data_size_idle s c hs h
  have hc := completes_frame_idle s c hs h
  have hp : (s.m_image_pos + 0) % 2 ^ 32 = s.m_image_pos := by
    have := hs.1
    have := hs.2.1
    omega
  unfold after_packet
  rw [hc, hd, hp]
  rfl

theorem emit_packet_idle (s : MotionCamera) (p c : Nat) (hs : s.WellFormed)
    (h : s.m_image_pos = s.m_image_size) :
    (s.emit_packet p c).payload = [] ∧ (s.emit_packet p c).header.endOfFrame = false
      ∧ (s.emit_packet p c).header.frameId = s.m_frame_id
      ∧ (s.emit_packet p c).return_value = 2 ∧ (s.emit_packet p c).offset = p := by
  have hd := data_size_idle s c hs h
  have hc := completes_frame_idle s c hs h
  refine ⟨?_, ?_, packet_header_frameId s c, ?_, rfl⟩
  · show s.packet_payload c = []
    rw [packet_payload_eq, hd, List.take_zero]
  · show (s.packet_header c).endOfFrame = false
    rw [packet_header_endOfFrame, hc]
  · show (sizeof_UVCHeader + s.data_size c) % 2 ^ 32 = 2
    rw [hd]
    rfl

theorem packet_loop_idle (caps : List Nat) :
    ∀ (s : MotionCamera) (p : Nat), s.WellFormed → s.m_image_pos = s.m_image_size →
      (s.packet_loop p caps).1 = s
        ∧ ∀ (j : Nat) (r : IsoPacket), (s.packet_loop p caps).2[j]? = some r →
            r.payload = [] ∧ r.header.endOfFrame = false
              ∧ r.header.frameId = s.m_frame_id ∧ r.return_value = 2 := by
  induction caps with
  | nil =>
    intro s p _ _
    refine ⟨rfl, ?_⟩
    intro j r hr
    simp [packet_loop] at hr
  | cons c rest ih =>
    intro s p hs h
    have hd := data_size_idle s c hs h
    have ha := after_packet_idle s c hs h
    have h1 := ih s (p + sizeof_UVCHeader + s.data_size c) hs h
    have hL : s.packet_loop p (c :: rest)
        = ((s.packet_loop (p + sizeof_UVCHeader + s.data_size c) rest).1,
            s.emit_packet p c :: (s.packet_loop (p + sizeof_UVCHeader + s.data_size c) rest).2) := by
      show (((s.after_packet c).packet_loop _ rest).1,
        s.emit_packet p c :: ((s.after_packet c).packet_loop _ rest).2) = _
      rw [ha]
    rw [hL]
    refine ⟨h1.1, ?_⟩
    intro j r hr
    cases j with
    | zero =>
      simp only [List.getElem?_cons_zero, Option.some.injEq] at hr
      subst hr
      obtain ⟨e1, e2, e3, e4, _⟩ := emit_packet_idle s p c hs h
      exact ⟨e1, e2, e3, e4⟩
    | succ m =>
      simp only [List.getElem?_cons_succ] at hr
      exact h1.2 m r hr

theorem packet_loop_after_eof (caps : List Nat) :
    ∀ (s : MotionCamera) (p : Nat), s.WellFormed → s.m_image_pos < s.m_image_size →
      ∀ (k : Nat) (q : IsoPacket), (s.packet_loop p caps).2[k]? = some q →
        q.header.endOfFrame = true →
        (s.packet_loop p caps).1.m_image_pos = s.m_image_size
          ∧ (s.packet_loop p caps).1.m_frame_id = (!s.m_frame_id)
          ∧ q.header.frameId = s.m_frame_id
          ∧ ∀ (j : Nat) (r : IsoPacket), k < j → (s.packet_loop p caps).2[j]? = some r →
              r.payload = [] ∧ r.header.endOfFrame = false
                ∧ r.header.frameId = (!s.m_frame_id) ∧ r.return_value = 2 := by
  induction caps with
  | nil =>
    intro s p _ _ k q hq
    simp [packet_loop] at hq
  | cons c rest ih =>
    intro s p hs hlt k q hq heof
    have hL : s.packet_loop p (c :: rest)
        = (((s.after_packet c).packet_loop (p + sizeof_UVCHeader + s.data_size c) rest).1,
            s.emit_packet p c
              :: ((s.after_packet c).packet_loop (p + sizeof_UVCHeader + s.data_size c) rest).2) :=
      rfl
    rw [hL] at hq ⊢
    have hwf := after_packet_wf s c hs
    have hpos := after_packet_pos s c hs
    have hsz : (s.after_packet c).m_image_size = s.m_image_size := rfl
    cases hcf : s.completes_frame c with
    | true =>
      have hfull := completes_frame_true s c hs hcf
      have hidle : (s.after_packet c).m_image_pos = (s.after_packet c).m_image_size := by
        rw [hpos, hsz, hfull]
      have hfid : (s.after_packet c).m_frame_id = (!s.m_frame_id) := by
        rw [after_packet_frame_id, hcf]; rfl
      have h1 := packet_loop_idle rest (s.after_packet c)
        (p + sizeof_UVCHeader + s.data_size c) hwf hidle
      cases k with
      | zero =>
        simp only [List.getElem?_cons_zero, Option.some.injEq] at hq
        subst hq
        refine ⟨?_, ?_, packet_header_frameId s c, ?_⟩
        · show ((s.after_packet c).packet_loop _ rest).1.m_image_pos = _
          rw [h1.1, hidle, hsz]
        · show ((s.after_packet c).packet_loop _ rest).1.m_frame_id = _
          rw [h1.1, hfid]
        · intro j r hj hr
          cases j with
          | zero => omega
          | succ m =>
            simp only [List.getElem?_cons_succ] at hr
            have h2 := h1.2 m r hr
            rw [hfid] at h2
            exact h2
      | succ n =>
        simp only [List.getElem?_cons_succ] at hq
        have h2 := (h1.2 n q hq).2.1
        rw [heof] at h2
        cases h2
    | false =>
      have hlt2 := completes_frame_false s c hs hlt hcf
      have hfid : (s.after_packet c).m_frame_id = s.m_frame_id := by
        rw [after_packet_frame_id, hcf]; rfl
      cases k with
      | zero =>
        simp only [List.getElem?_cons_zero, Option.some.injEq] at hq
        subst hq
        have h2 : (s.packet_header c).endOfFrame = true := heof
        rw [packet_header_endOfFrame, hcf] at h2
        cases h2
      | succ n =>
        simp only [List.getElem?_cons_succ] at hq
        have h2 := ih (s.after_packet c) (p + sizeof_UVCHeader + s.data_size c) hwf
          (by rw [hpos, hsz]; exact hlt2) n q hq heof
        rw [hsz, hfid] at h2
        refine ⟨h2.1, h2.2.1, h2.2.2.1, ?_⟩
        intro j r hj hr
        cases j with
        | zero => omega
        | succ m =>
          simp only [List.getElem?_cons_succ] at hr
          exact h2.2.2.2 m r (by omega) hr


theorem pattern_run_bits :
    end_of_frame_bits pattern_run
      = List.replicate 50 false ++ [true] ++ List.replicate 59 false ++ [true]
          ++ List.replicate 9 false := by
  decide


theorem end_of_frame_bits_get (subs : List IsoSubmission) (j : Nat) (r : IsoPacket)
    (hr : (MotionCamera.init.iso_run subs).2[j]? = some r) :
    (end_of_frame_bits subs)[j]? = some r.header.endOfFrame := by
  unfold end_of_frame_bits
  rw [List.getElem?_map, hr]
  rfl

/-! ## Streaming without a producer -/

theorem test_pattern_head : CameraData.test_pattern[0]? = some 16 := by
  have z0 := test_pattern_get 0 0 0 (by decide) (by decide) (by decide)
  have hy0 : CameraData.pattern_y 0 0 = 16 := by
    rw [pattern_y_eq 0 0 (by decide) (by decide)]
  rw [← hy0]
  exact z0

theorem GetData_init (dst : List Nat) (h : dst.length = 153600) :
    CameraData.init.GetData dst 153600 = CameraData.test_pattern := by
  unfold CameraData.GetData
  show CameraData.test_pattern.take 153600 ++ dst.drop 153600 = _
  rw [List.take_of_length_le (by rw [test_pattern_length]),
    List.drop_of_length_le (by omega), List.append_nil]

theorem flatten_payload_nil (l : List IsoPacket) (h : ∀ r ∈ l, r.payload = []) :
    (l.map IsoPacket.payload).flatten = [] := by
  induction l with
  | nil => rfl
  | cons a rest ih =>
    rw [List.map_cons, List.flatten_cons, h a (List.mem_cons_self _ _),
      ih (fun r hr => h r (List.mem_cons_of_mem _ hr))]
    rfl

theorem iso_after_eof (s : MotionCamera) (memory : Memory) (camera : CameraData)
    (cmd : IsoMessage) (hs : s.WellFormed) (hlt : s.m_image_pos < s.m_image_size)
    (k : Nat) (q : IsoPacket)
    (hq : (s.SubmitTransfer_Iso memory camera cmd).packets[k]? = some q)
    (heof : q.header.endOfFrame = true) :
    (s.SubmitTransfer_Iso memory camera cmd).state.m_image_data
        = camera.GetData s.m_image_data s.m_image_size
      ∧ (s.SubmitTransfer_Iso memory camera cmd).state.m_image_pos = 0
      ∧ (s.SubmitTransfer_Iso memory camera cmd).state.m_frame_id = (!s.m_frame_id)
      ∧ q.header.frameId = s.m_frame_id
      ∧ ∀ (j : Nat) (r : IsoPacket), k < j →
          (s.SubmitTransfer_Iso memory camera cmd).packets[j]? = some r →
          r.payload = [] ∧ r.header.endOfFrame = false
            ∧ r.header.frameId = (!s.m_frame_id) ∧ r.return_value = 2 := by
  rcases iso_cases s memory camera cmd with ⟨hp, _⟩ | ⟨hp, hst⟩
  · rw [hp] at hq
    simp at hq
  · rw [hp] at hq
    obtain ⟨a1, hfid, a2, a3⟩ :=
      packet_loop_after_eof cmd.packet_sizes s 0 hs hlt k q hq heof
    have hwf := packet_loop_wf cmd.packet_sizes s 0 hs
    have hfr := packet_loop_frame cmd.packet_sizes s 0
    have hdata : (s.packet_loop 0 cmd.packet_sizes).1.m_image_data = s.m_image_data := by
      rw [hfr]
    rw [hst, hp]
    unfold replenish
    rw [if_pos (by rw [a1, hwf.2])]
    refine ⟨?_, rfl, ?_, a2, a3⟩
    · show camera.GetData (s.packet_loop 0 cmd.packet_sizes).1.m_image_data
        (s.packet_loop 0 cmd.packet_sizes).1.m_image_size = _
      rw [hdata, hwf.2]
    · exact hfid


theorem iso_pos_lt (s : MotionCamera) (memory : Memory) (camera : CameraData)
    (cmd : IsoMessage) (hs : s.WellFormed) (hlt : s.m_image_pos < s.m_image_size) :
    (s.SubmitTransfer_Iso memory camera cmd).state.m_image_pos < s.m_image_size := by
  rcases iso_cases s memory camera cmd with ⟨_, hst⟩ | ⟨_, hst⟩
  · rw [hst]; exact hlt
  · rw [hst]
    have hwf := packet_loop_wf cmd.packet_sizes s 0 hs
    have hle := hwf.1.2.1
    rw [hwf.2] at hle
    unfold replenish
    split
    · show 0 < s.m_image_size
      omega
    · rename_i hne
      rw [hwf.2] at hne
      omega

theorem init_buffer : MotionCamera.init.m_image_data = List.replicate 153600 0 := rfl

theorem iso_run_next_frame (subs : List IsoSubmission)
    (hcam : ∀ e ∈ subs, e.camera = CameraData.init) :
    ∀ (s : MotionCamera), s.WellFormed → s.m_image_size = 153600 →
      s.m_image_pos < s.m_image_size →
      ∀ (k1 k2 : Nat) (q1 q2 : IsoPacket), k1 < k2 →
        (s.iso_run subs).2[k1]? = some q1 → q1.header.endOfFrame = true →
        (s.iso_run subs).2[k2]? = some q2 → q2.header.endOfFrame = true →
        (∀ (j : Nat) (r : IsoPacket), k1 < j → j < k2 → (s.iso_run subs).2[j]? = some r →
          r.header.endOfFrame = false) →
        ((((s.iso_run subs).2.take (k2 + 1)).drop (k1 + 1)).map IsoPacket.payload).flatten
          = CameraData.test_pattern := by
  induction subs with
  | nil =>
    intro s _ _ _ k1 k2 q1 q2 _ hq1
    simp [iso_run] at hq1
  | cons e rest ih =>
    intro s hs hsz hlt k1 k2 q1 q2 hk hq1 he1 hq2 he2 hno
    have hce : e.camera = CameraData.init := hcam e (List.mem_cons_self _ _)
    have hrest : ∀ x ∈ rest, x.camera = CameraData.init :=
      fun x hx => hcam x (List.mem_cons_of_mem _ hx)
    rw [(iso_run_cons s e rest).2] at hq1 hq2 hno ⊢
    have htwf := iso_wf s e.memory e.camera e.cmd hs (by
      rw [hce, hsz]
      show _ ≤ CameraData.test_pattern.length
      rw [test_pattern_length])
    have e2 : k2 + 1 = (s.SubmitTransfer_Iso e.memory e.camera e.cmd).packets.length
        + (k2 - (s.SubmitTransfer_Iso e.memory e.camera e.cmd).packets.length + 1)
        ∨ k2 < (s.SubmitTransfer_Iso e.memory e.camera e.cmd).packets.length := by omega
    by_cases h1 : k1 < (s.SubmitTransfer_Iso e.memory e.camera e.cmd).packets.length
    · rw [List.getElem?_append_left h1] at hq1
      obtain ⟨d1, d2, _, _, d5⟩ := iso_after_eof s e.memory e.camera e.cmd hs hlt k1 q1 hq1 he1
      have hk2 : (s.SubmitTransfer_Iso e.memory e.camera e.cmd).packets.length ≤ k2 := by
        by_contra hn
        rw [List.getElem?_append_left (by omega)] at hq2
        have h := (d5 k2 q2 hk hq2).2.1
        rw [he2] at h
        cases h
      rw [List.getElem?_append_right hk2] at hq2
      have htdata : (s.SubmitTransfer_Iso e.memory e.camera e.cmd).state.m_image_data
          = CameraData.test_pattern := by
        rw [d1, hce, hsz]
        exact GetData_init _ (by rw [hs.2.2, hsz])
      have F := (iso_run_first_eof rest (s.SubmitTransfer_Iso e.memory e.camera e.cmd).state
        htwf.1 (by rw [d2, htwf.2, hsz]; decide)
        (k2 - (s.SubmitTransfer_Iso e.memory e.camera e.cmd).packets.length) q2 hq2 he2
        (fun j r hj hr => hno
          (j + (s.SubmitTransfer_Iso e.memory e.camera e.cmd).packets.length) r
          (by omega) (by omega) (by
            rw [List.getElem?_append_right (by omega), Nat.add_sub_cancel]; exact hr))).1
      rw [htdata, d2, List.drop_zero] at F
      have hnil : ∀ r ∈ (s.SubmitTransfer_Iso e.memory e.camera e.cmd).packets.drop (k1 + 1),
          r.payload = [] := by
        intro r hr
        obtain ⟨i, hi⟩ := List.getElem?_of_mem hr
        rw [List.getElem?_drop] at hi
        exact (d5 (k1 + 1 + i) r (by omega) hi).1
      rcases e2 with e2 | e2
      · rw [e2, List.take_append, List.drop_append_of_le_length (by omega), List.map_append,
          List.flatten_append, F, flatten_payload_nil _ hnil, List.nil_append]
      · omega
    · rw [List.getElem?_append_right (by omega)] at hq1 hq2
      have htlt := iso_pos_lt s e.memory e.camera e.cmd hs hlt
      have G := ih hrest (s.SubmitTransfer_Iso e.memory e.camera e.cmd).state htwf.1
        (by rw [htwf.2]; exact hsz) (by rw [htwf.2]; exact htlt)
        (k1 - (s.SubmitTransfer_Iso e.memory e.camera e.cmd).packets.length)
        (k2 - (s.SubmitTransfer_Iso e.memory e.camera e.cmd).packets.length) q1 q2
        (by omega) hq1 he1 hq2 he2
        (fun j r hj1 hj2 hr => hno
          (j + (s.SubmitTransfer_Iso e.memory e.camera e.cmd).packets.length) r
          (by omega) (by omega) (by
            rw [List.getElem?_append_right (by omega), Nat.add_sub_cancel]; exact hr))
      have e1 : k1 + 1 = (s.SubmitTransfer_Iso e.memory e.camera e.cmd).packets.length
          + (k1 - (s.SubmitTransfer_Iso e.memory e.camera e.cmd).packets.length + 1) := by
        omega
      rcases e2 with e2 | e2
      · rw [e2, List.take_append, e1, List.drop_append]
        exact G
      · omega


theorem end_of_frame_bits_inv (subs : List IsoSubmission) (j : Nat) (b : Bool)
    (h : (end_of_frame_bits subs)[j]? = some b) :
    ∃ r, (MotionCamera.init.iso_run subs).2[j]? = some r ∧ r.header.endOfFrame = b := by
  unfold end_of_frame_bits at h
  rw [List.getElem?_map] at h
  cases hr : (MotionCamera.init.iso_run subs).2[j]? with
  | none => rw [hr] at h; cases h
  | some r =>
    rw [hr] at h
    exact ⟨r, rfl, Option.some.inj h⟩

theorem pattern_run_cameras : ∀ e ∈ pattern_run, e.camera = CameraData.init := by
  intro e he
  rw [List.eq_of_mem_replicate he]
  rfl

theorem pattern_run_eof_50 :
    ∃ q, (MotionCamera.init.iso_run pattern_run).2[50]? = some q
      ∧ q.header.endOfFrame = true :=
  end_of_frame_bits_inv pattern_run 50 true (by rw [pattern_run_bits]; decide)

theorem pattern_run_eof_110 :
    ∃ q, (MotionCamera.init.iso_run pattern_run).2[110]? = some q
      ∧ q.header.endOfFrame = true :=
  end_of_frame_bits_inv pattern_run 110 true (by rw [pattern_run_bits]; decide)

theorem pattern_run_no_eof_before :
    ∀ (j : Nat) (r : IsoPacket), j < 50 →
      (MotionCamera.init.iso_run pattern_run).2[j]? = some r →
      r.header.endOfFrame = false := by
  have hb : ∀ j, j < 50 → (end_of_frame_bits pattern_run)[j]? = some false := by
    rw [pattern_run_bits]; decide
  intro j r hj hr
  have h := end_of_frame_bits_get pattern_run j r hr
  rw [hb j hj] at h
  exact (Option.some.inj h).symm

theorem pattern_run_no_eof_between :
    ∀ (j : Nat) (r : IsoPacket), 50 < j → j < 110 →
      (MotionCamera.init.iso_run pattern_run).2[j]? = some r →
      r.header.endOfFrame = false := by
  have hb : ∀ j, j < 110 → 50 < j → (end_of_frame_bits pattern_run)[j]? = some false := by
    rw [pattern_run_bits]; decide
  intro j r hj1 hj2 hr
  have h := end_of_frame_bits_get pattern_run j r hr
  rw [hb j hj2 hj1] at h
  exact (Option.some.inj h).symm

theorem first_frame_blank (subs : List IsoSubmission) (k : Nat) (q : IsoPacket)
    (hq : (MotionCamera.init.iso_run subs).2[k]? = some q)
    (heof : q.header.endOfFrame = true)
    (hno : ∀ (j : Nat) (r : IsoPacket), j < k →
      (MotionCamera.init.iso_run subs).2[j]? = some r → r.header.endOfFrame = false) :
    (((MotionCamera.init.iso_run subs).2.take (k + 1)).map IsoPacket.payload).flatten
      = List.replicate 153600 0 := by
  have h := (iso_run_first_eof subs MotionCamera.init init_wf (by decide) k q hq heof hno).1
  rw [h, init_buffer]
  rfl

/-- C25 (counterexample) : a fresh device receives six submissions of 20
packets of 3072 bytes each while the shared frame source is as constructed (no
producer deposits a frame).  The first end-of-frame packet is packet 50, so
the first frame is carried by the packets 0..50; their payloads reassemble to
153600 zero bytes, the buffer the device constructor allocated zero-filled,
and not to the test pattern, whose first byte is 16. -/
theorem C25_first_frame_counterexample :
    (∀ e ∈ pattern_run, e.camera = CameraData.init)
      ∧ end_of_frame_bits pattern_run
          = List.replicate 50 false ++ [true] ++ List.replicate 59 false ++ [true]
              ++ List.replicate 9 false
      ∧ (((MotionCamera.init.iso_run pattern_run).2.take (50 + 1)).map
          IsoPacket.payload).flatten = List.replicate 153600 0
      ∧ (List.replicate 153600 0)[0]? = some 0
      ∧ CameraData.test_pattern[0]? = some 16
      ∧ (((MotionCamera.init.iso_run pattern_run).2.take (50 + 1)).map
          IsoPacket.payload).flatten ≠ CameraData.test_pattern := by
  obtain ⟨q, hq, he⟩ := pattern_run_eof_50
  have h := first_frame_blank pattern_run 50 q hq he pattern_run_no_eof_before
  have hz : (List.replicate 153600 0)[0]? = some 0 := by
    rw [List.getElem?_replicate]
    rfl
  refine ⟨pattern_run_cameras, pattern_run_bits, h, hz, test_pattern_head, ?_⟩
  intro hne
  rw [h] at hne
  have h0 := test_pattern_head
  rw [← hne, hz] at h0
  cases h0

/-- C25 (amended) : a fresh device receives any successive isochronous
submissions while no producer deposits a frame (the shared frame source is as
constructed at every submission).  The first frame it emits (the payloads up
to and including the first end-of-frame packet) reassembles to 153600 zero
bytes, the zero-filled buffer of the device constructor; every later frame
(the payloads of the packets after one end-of-frame packet up to and including
the next one) reassembles to the 320x240 test pattern built at construction of
the frame source. -/
theorem C25_pattern_after_first_frame (subs : List IsoSubmission)
    (hcam : ∀ e ∈ subs, e.camera = CameraData.init) :
    (∀ (k : Nat) (q : IsoPacket), (MotionCamera.init.iso_run subs).2[k]? = some q →
        q.header.endOfFrame = true →
        (∀ (j : Nat) (r : IsoPacket), j < k →
          (MotionCamera.init.iso_run subs).2[j]? = some r → r.header.endOfFrame = false) →
        (((MotionCamera.init.iso_run subs).2.take (k + 1)).map IsoPacket.payload).flatten
          = List.replicate 153600 0)
      ∧ (∀ (k1 k2 : Nat) (q1 q2 : IsoPacket), k1 < k2 →
          (MotionCamera.init.iso_run subs).2[k1]? = some q1 → q1.header.endOfFrame = true →
          (MotionCamera.init.iso_run subs).2[k2]? = some q2 → q2.header.endOfFrame = true →
          (∀ (j : Nat) (r : IsoPacket), k1 < j → j < k2 →
            (MotionCamera.init.iso_run subs).2[j]? = some r → r.header.endOfFrame = false) →
          ((((MotionCamera.init.iso_run subs).2.take (k2 + 1)).drop (k1 + 1)).map
            IsoPacket.payload).flatten = CameraData.test_pattern) :=
  ⟨first_frame_blank subs,
    iso_run_next_frame subs hcam MotionCamera.init init_wf rfl (by decide)⟩

/-- Instance of C25 (amended) : six submissions of 20 packets of 3072 bytes
each; the end-of-frame packets are packets 50 and 110, and the payloads of the
packets 51..110 reassemble to the test pattern. -/
theorem C25_pattern_after_first_frame_witness :
    (∀ e ∈ pattern_run, e.camera = CameraData.init)
      ∧ ((((MotionCamera.init.iso_run pattern_run).2.take (110 + 1)).drop (50 + 1)).map
          IsoPacket.payload).flatten = CameraData.test_pattern :=
  ⟨pattern_run_cameras, by
    obtain ⟨q1, hq1, he1⟩ := pattern_run_eof_50
    obtain ⟨q2, hq2, he2⟩ := pattern_run_eof_110
    exact (C25_pattern_after_first_frame pattern_run pattern_run_cameras).2 50 110 q1 q2
      (by decide) hq1 he1 hq2 he2 pattern_run_no_eof_between⟩


/-! ## Layout of the transfer buffer -/

theorem emit_packet_return_value (s : MotionCamera) (p c : Nat) (hs : s.WellFormed)
    (hsz : s.m_image_size + 2 < 2 ^ 32) :
    (s.emit_packet p c).return_value = 2 + s.data_size c := by
  have hle := s.data_size_le c hs.2.1 hs.1
  show (sizeof_UVCHeader + s.data_size c) % 2 ^ 32 = _
  unfold sizeof_UVCHeader
  apply Nat.mod_eq_of_lt
  omega

theorem packet_loop_get_emit (caps : List Nat) :
    ∀ (s : MotionCamera) (p j : Nat) (q : IsoPacket),
      (s.packet_loop p caps).2[j]? = some q →
      ∃ c, caps[j]? = some c
        ∧ q = (s.packet_loop p (caps.take j)).1.emit_packet q.offset c := by
  induction caps with
  | nil =>
    intro s p j q hq
    simp [packet_loop] at hq
  | cons c rest ih =>
    intro s p j q hq
    have hL : (s.packet_loop p (c :: rest)).2
        = s.emit_packet p c
            :: ((s.after_packet c).packet_loop (p + sizeof_UVCHeader + s.data_size c) rest).2 :=
      rfl
    rw [hL] at hq
    cases j with
    | zero =>
      simp only [List.getElem?_cons_zero, Option.some.injEq] at hq
      subst hq
      exact ⟨c, List.getElem?_cons_zero, rfl⟩
    | succ m =>
      simp only [List.getElem?_cons_succ] at hq
      obtain ⟨c', hc', he⟩ := ih (s.after_packet c) _ m q hq
      refine ⟨c', ?_, he⟩
      rw [List.getElem?_cons_succ]
      exact hc'

theorem packet_loop_offset_sum (caps : List Nat) :
    ∀ (s : MotionCamera) (p : Nat), s.WellFormed → s.m_image_size + 2 < 2 ^ 32 →
      ∀ (j : Nat) (q : IsoPacket), (s.packet_loop p caps).2[j]? = some q →
        q.offset = p + (((s.packet_loop p caps).2.take j).map IsoPacket.return_value).sum := by
  induction caps with
  | nil =>
    intro s p _ _ j q hq
    simp [packet_loop] at hq
  | cons c rest ih =>
    intro s p hs hsz j q hq
    have hL : (s.packet_loop p (c :: rest)).2
        = s.emit_packet p c
            :: ((s.after_packet c).packet_loop (p + sizeof_UVCHeader + s.data_size c) rest).2 :=
      rfl
    rw [hL] at hq ⊢
    cases j with
    | zero =>
      simp only [List.getElem?_cons_zero, Option.some.injEq] at hq
      subst hq
      simp [emit_packet]
    | succ m =>
      simp only [List.getElem?_cons_succ] at hq
      have h := ih (s.after_packet c) (p + sizeof_UVCHeader + s.data_size c)
        (after_packet_wf s c hs) hsz m q hq
      rw [h, List.take_succ_cons, List.map_cons, List.sum_cons,
        emit_packet_return_value s p c hs hsz]
      unfold sizeof_UVCHeader
      omega

theorem packet_loop_return_sum (caps : List Nat) :
    ∀ (s : MotionCamera) (p : Nat), s.WellFormed → s.m_image_size + 2 < 2 ^ 32 →
      (∀ c ∈ caps, 2 ≤ c ∧ c < 2 ^ 16) →
      ((s.packet_loop p caps).2.map IsoPacket.return_value).sum ≤ caps.sum
        ∧ (((s.packet_loop p caps).2.map IsoPacket.return_value).sum = caps.sum
            ↔ (s.packet_loop p caps).2.map IsoPacket.return_value = caps) := by
  induction caps with
  | nil =>
    intro s p _ _ _
    simp [packet_loop]
  | cons c rest ih =>
    intro s p hs hsz hc
    have hc1 := hc c (List.mem_cons_self _ _)
    have hL : (s.packet_loop p (c :: rest)).2
        = s.emit_packet p c
            :: ((s.after_packet c).packet_loop (p + sizeof_UVCHeader + s.data_size c) rest).2 :=
      rfl
    obtain ⟨i1, i2⟩ := ih (s.after_packet c) (p + sizeof_UVCHeader + s.data_size c)
      (after_packet_wf s c hs) hsz (fun x hx => hc x (List.mem_cons_of_mem _ hx))
    have hr := emit_packet_return_value s p c hs hsz
    have hd := s.data_size_eq_min c hs.2.1 hs.1 hc1.1 hc1.2
    have hle : (s.emit_packet p c).return_value ≤ c := by
      rw [hr, hd]; omega
    rw [hL, List.map_cons, List.sum_cons, List.sum_cons]
    refine ⟨by omega, ?_⟩
    constructor
    · intro h
      have h1 : (s.emit_packet p c).return_value = c := by omega
      have h2 := i2.mp (by omega)
      rw [h1, h2]
    · intro h
      have h1 := (List.cons.inj h).1
      have h2 := i2.mpr (List.cons.inj h).2
      omega


theorem packet_loop_adjacent (caps : List Nat) (s : MotionCamera) (p : Nat)
    (hs : s.WellFormed) (hsz : s.m_image_size + 2 < 2 ^ 32) (j : Nat) (q r : IsoPacket)
    (hq : (s.packet_loop p caps).2[j]? = some q)
    (hr : (s.packet_loop p caps).2[j + 1]? = some r) :
    r.offset = q.offset + q.return_value := by
  rw [packet_loop_offset_sum caps s p hs hsz j q hq,
    packet_loop_offset_sum caps s p hs hsz (j + 1) r hr, List.take_succ, hq]
  simp only [Option.toList, List.map_append, List.sum_append, List.map_cons, List.map_nil,
    List.sum_cons, List.sum_nil]
  omega

theorem packet_loop_slice (caps : List Nat) (s : MotionCamera) (p : Nat)
    (hs : s.WellFormed) (hsz : s.m_image_size + 2 < 2 ^ 32) (j : Nat) (q : IsoPacket)
    (hq : (s.packet_loop p caps).2[j]? = some q) :
    q.bytes.length = q.return_value
      ∧ ∃ a, a + q.payload.length ≤ s.m_image_size
          ∧ q.payload = (s.m_image_data.drop a).take q.payload.length := by
  obtain ⟨c, _, he⟩ := packet_loop_get_emit caps s p j q hq
  have hwf := packet_loop_wf (caps.take j) s p hs
  have hfr := packet_loop_frame (caps.take j) s p
  have hdata : (s.packet_loop p (caps.take j)).1.m_image_data = s.m_image_data := by
    rw [hfr]
  have hb := emit_packet_bytes_length (s.packet_loop p (caps.take j)).1 q.offset c hwf.1
  have hv := emit_packet_return_value (s.packet_loop p (caps.take j)).1 q.offset c hwf.1
    (by rw [hwf.2]; exact hsz)
  have hp : q.payload = (s.packet_loop p (caps.take j)).1.packet_payload c :=
    congrArg IsoPacket.payload he
  have hl := packet_payload_length (s.packet_loop p (caps.take j)).1 c hwf.1
  have hle := (s.packet_loop p (caps.take j)).1.data_size_le c hwf.1.2.1 hwf.1.1
  rw [← he] at hb hv
  rw [← hp] at hl
  refine ⟨by rw [hb, hv], (s.packet_loop p (caps.take j)).1.m_image_pos, ?_, ?_⟩
  · have hpos := hwf.1.2.1
    rw [hl, ← hwf.2]
    omega
  · rw [hl, hp, packet_payload_eq, hdata]

/-- C28 (evaluation of the code) : in every reachable state and for every
isochronous submission, (1) packet `i` starts at the offset equal to the sum
of the return values of the packets `0..i-1`, the bytes it writes are as many
as its return value, and its payload is one contiguous slice of the frame
buffer held when the transfer was submitted (the buffer is only replaced
after the last packet), so no packet carries bytes of two frames; (2) when
every declared capacity lies in `2 .. 65535`, that offset is at most the sum
of the declared capacities of the packets `0..i-1` and equals that sum exactly
when each of those packets returned its full capacity; (3) every packet after
the end-of-frame packet of the transfer returns 2, has no payload, has
end-of-frame clear, carries the flipped frame-id bit, and starts where the
previous packet ends.  (4) With capacities below the header size the
equivalence of (2) fails : for the declared sizes 65535, 65535, 22536, 0, 4,
3072 on a fresh device, the packets return 65535, 65535, 22536, 2, 2, 2, so
packet 5 starts at offset 153610, which is also the sum of the declared
capacities of the packets `0..4`, although the packets 3 and 4 did not return
their capacities 0 and 4. -/
theorem C28_transfer_buffer_layout :
    (∀ (s : MotionCamera) (memory : Memory) (camera : CameraData) (cmd : IsoMessage)
        (i : Nat) (q : IsoPacket), Reachable s →
        (s.SubmitTransfer_Iso memory camera cmd).packets[i]? = some q →
        q.offset = (((s.SubmitTransfer_Iso memory camera cmd).packets.take i).map
            IsoPacket.return_value).sum
          ∧ q.bytes.length = q.return_value
          ∧ ∃ a, a + q.payload.length ≤ s.m_image_size
              ∧ q.payload = (s.m_image_data.drop a).take q.payload.length)
      ∧ (∀ (s : MotionCamera) (memory : Memory) (camera : CameraData) (cmd : IsoMessage)
          (i : Nat), Reachable s →
          memory.GetPointerForRange cmd.data_address cmd.length ≠ none →
          (∀ c ∈ cmd.packet_sizes, 2 ≤ c ∧ c < 2 ^ 16) →
          (((s.SubmitTransfer_Iso memory camera cmd).packets.take i).map
              IsoPacket.return_value).sum ≤ (cmd.packet_sizes.take i).sum
            ∧ ((((s.SubmitTransfer_Iso memory camera cmd).packets.take i).map
                IsoPacket.return_value).sum = (cmd.packet_sizes.take i).sum
              ↔ ((s.SubmitTransfer_Iso memory camera cmd).packets.take i).map
                  IsoPacket.return_value = cmd.packet_sizes.take i))
      ∧ (∀ (s : MotionCamera) (memory : Memory) (camera : CameraData) (cmd : IsoMessage)
          (k : Nat) (q : IsoPacket), Reachable s →
          (s.SubmitTransfer_Iso memory camera cmd).packets[k]? = some q →
          q.header.endOfFrame = true →
          ∀ (j : Nat) (r : IsoPacket), k < j →
            (s.SubmitTransfer_Iso memory camera cmd).packets[j]? = some r →
            r.return_value = 2 ∧ r.payload = [] ∧ r.header.endOfFrame = false
              ∧ r.header.frameId = (!q.header.frameId)
              ∧ ∃ prev, (s.SubmitTransfer_Iso memory camera cmd).packets[j - 1]? = some prev
                  ∧ r.offset = prev.offset + prev.return_value)
      ∧ (layout_cmd.packet_sizes = [65535, 65535, 22536, 0, 4, 3072]
          ∧ layout_packets.map IsoPacket.return_value = [65535, 65535, 22536, 2, 2, 2]
          ∧ layout_packets.map IsoPacket.offset = [0, 65535, 131070, 153606, 153608, 153610]
          ∧ layout_packets.map (fun q => q.header.endOfFrame)
              = [false, false, true, false, false, false]
          ∧ (layout_cmd.packet_sizes.take 5).sum = 153610
          ∧ ((layout_packets.take 5).map IsoPacket.return_value).sum
              = (layout_cmd.packet_sizes.take 5).sum
          ∧ (layout_packets.take 5).map IsoPacket.return_value
              ≠ layout_cmd.packet_sizes.take 5) := by
  refine ⟨?_, ?_, ?_, ?_⟩
  · intro s memory camera cmd i q hs hq
    obtain ⟨hwf, hsz⟩ := reachable_wf s hs
    have hsz2 : s.m_image_size + 2 < 2 ^ 32 := by rw [hsz]; decide
    rcases iso_cases s memory camera cmd with ⟨hp, _⟩ | ⟨hp, _⟩
    · rw [hp] at hq
      simp at hq
    · rw [hp] at hq ⊢
      refine ⟨?_, packet_loop_slice cmd.packet_sizes s 0 hwf hsz2 i q hq⟩
      rw [packet_loop_offset_sum cmd.packet_sizes s 0 hwf hsz2 i q hq, Nat.zero_add]
  · intro s memory camera cmd i hs hres hcaps
    obtain ⟨hwf, hsz⟩ := reachable_wf s hs
    have hsz2 : s.m_image_size + 2 < 2 ^ 32 := by rw [hsz]; decide
    rw [iso_resolved s memory camera cmd hres]
    show (((s.packet_loop 0 cmd.packet_sizes).2.take i).map IsoPacket.return_value).sum ≤ _
      ∧ ((((s.packet_loop 0 cmd.packet_sizes).2.take i).map IsoPacket.return_value).sum = _
        ↔ ((s.packet_loop 0 cmd.packet_sizes).2.take i).map IsoPacket.return_value = _)
    rw [packet_loop_take]
    exact packet_loop_return_sum (cmd.packet_sizes.take i) s 0 hwf hsz2
      (fun c hc => hcaps c (List.mem_of_mem_take hc))
  · intro s memory camera cmd k q hs hq heof j r hj hr
    obtain ⟨hwf, hsz⟩ := reachable_wf s hs
    have hsz2 : s.m_image_size + 2 < 2 ^ 32 := by rw [hsz]; decide
    have hlt : s.m_image_pos < s.m_image_size := by
      by_contra hn
      have hidle : s.m_image_pos = s.m_image_size := by
        have := hwf.2.1
        omega
      rcases iso_cases s memory camera cmd with ⟨hp, _⟩ | ⟨hp, _⟩
      · rw [hp] at hq
        simp at hq
      · rw [hp] at hq
        have h := ((packet_loop_idle cmd.packet_sizes s 0 hwf hidle).2 k q hq).2.1
        rw [heof] at h
        cases h
    obtain ⟨_, _, _, d4, d5⟩ := iso_after_eof s memory camera cmd hwf hlt k q hq heof
    obtain ⟨e1, e2, e3, e4⟩ := d5 j r hj hr
    refine ⟨e4, e1, e2, by rw [e3, d4], ?_⟩
    obtain ⟨m, rfl⟩ : ∃ m, j = m + 1 := ⟨j - 1, by omega⟩
    rw [Nat.add_sub_cancel]
    rcases iso_cases s memory camera cmd with ⟨hp, _⟩ | ⟨hp, _⟩
    · rw [hp] at hr
      simp at hr
    · rw [hp] at hr ⊢
      cases hprev : (s.packet_loop 0 cmd.packet_sizes).2[m]? with
      | none =>
        rw [List.getElem?_eq_none_iff] at hprev
        rw [List.getElem?_eq_none (by omega)] at hr
        cases hr
      | some prev =>
        exact ⟨prev, rfl, packet_loop_adjacent cmd.packet_sizes s 0 hwf hsz2 m prev r hprev hr⟩
  · refine ⟨rfl, ?_, ?_, ?_, ?_, ?_, ?_⟩ <;> decide

end MotionCamera
